import Mathlib

/-!
Shallow embedding of the rfs ext2 filesystem core (Rust) used to check the
specification claims.

Modelling conventions, applied uniformly:
* Machine integers (`u8`/`u16`/`u32`/`u64`/`usize`) are embedded as `Nat`;
  every Rust `as uN` cast is written `% 2^N` at the cast site.  Subtractions
  that the surrounding code keeps in range are `Nat` subtraction.
* Byte buffers (`Vec<u8>`, `&[u8]`) are `List Nat`.  A checked Rust slice
  operation (`&buf[a..b]`, `copy_from_slice`) is embedded with an explicit
  bounds test whose failure is an `Except.error` (a Rust panic).  A raw
  `std::ptr::read` past the end of a slice (used by `deserialize_row`) reads
  unspecified memory; those bytes are modelled as `0`.
* Fallible code returns `Except String`.  Rust `panic!`/`assert!` failures are
  `Except.error` values as well.
* The disk driver below the filesystem is modelled at filesystem-block
  granularity: every embedded read/write is preceded in the source by a
  `seek_block` to the same block, so the seek/read pairs collapse into direct
  indexing of `disk : Nat → List Nat`.
-/

deriving instance DecidableEq for Except

namespace RfsModel

/-- Tail-recursive list length; definitionally kernel-friendly on long
buffers and provably equal to `List.length`. -/
def natLenAux : List Nat → Nat → Nat
  | [], acc => acc
  | _ :: l, acc => natLenAux l (acc + 1)

/-- Length of a byte buffer (tail-recursive form of `List.length`). -/
def natLen (l : List Nat) : Nat := natLenAux l 0

@[simp] theorem exceptBindOk (a : α) (f : α → Except ε β) :
    (Except.ok a >>= f) = f a := rfl

@[simp] theorem exceptBindError (e : ε) (f : α → Except ε β) :
    ((Except.error e : Except ε α) >>= f) = Except.error e := rfl

/-- Read one byte of a buffer; out-of-range reads model reads of
uninitialised memory and yield 0. -/
def getByte (l : List Nat) (i : Nat) : Nat := l.getD i 0

/-- Little-endian 16-bit read at offset `o` (unchecked, `deserialize_row`). -/
def readU16le (l : List Nat) (o : Nat) : Nat :=
  getByte l o + 256 * getByte l (o + 1)

/-- Little-endian 32-bit read at offset `o` (unchecked, `deserialize_row`). -/
def readU32le (l : List Nat) (o : Nat) : Nat :=
  getByte l o + 256 * getByte l (o + 1) + 65536 * getByte l (o + 2) +
    16777216 * getByte l (o + 3)

/-- Big-endian 32-bit value of a 4-byte buffer, `u32::from_be_bytes`. -/
def u32FromBeBytes (l : List Nat) : Nat :=
  16777216 * getByte l 0 + 65536 * getByte l 1 + 256 * getByte l 2 + getByte l 3

/-- Little-endian bytes of a 16-bit value. -/
def u16leBytes (v : Nat) : List Nat := [v % 256, v / 256 % 256]

/-- Little-endian bytes of a 32-bit value. -/
def u32leBytes (v : Nat) : List Nat :=
  [v % 256, v / 256 % 256, v / 65536 % 256, v / 16777216 % 256]

/-- Big-endian bytes of a 32-bit value, `u32::to_be_bytes`. -/
def u32beBytes (v : Nat) : List Nat :=
  [v / 16777216 % 256, v / 65536 % 256, v / 256 % 256, v % 256]

/-- Embed `dst[off..off + src.length].copy_from_slice(src)`; the slice bounds
check is explicit and a violation is a panic (error). -/
def writeBytes (dst : List Nat) (off : Nat) (src : List Nat) :
    Except String (List Nat) :=
  if off + natLen src ≤ natLen dst then
    .ok (dst.take off ++ src ++ dst.drop (off + natLen src))
  else .error "slice copy out of range"

/-- Embed the checked slice `&l[a..a+n]`. -/
def subSlice (l : List Nat) (a n : Nat) : Except String (List Nat) :=
  if a + n ≤ natLen l then .ok ((l.drop a).take n)
  else .error "slice index out of range"

/-- Rust `for i in a..b` index list. -/
def rangeList (a b : Nat) : List Nat := (List.range (b - a)).map (a + ·)

/-- Rust `num::range_step(a, b, step)` index list (`step > 0`). -/
def rangeStepList (a b step : Nat) : List Nat :=
  (List.range ((b - a + step - 1) / step)).map (fun k => a + k * step)

/-- Source `utils.rs` `up_align`: `((value >> align_log) + 1) << align_log`. -/
def up_align (value align_log : Nat) : Nat :=
  ((value >>> align_log) + 1) <<< align_log

/-- Source `utils.rs` `down_align`. -/
def down_align (value align_log : Nat) : Nat :=
  (value >>> align_log) <<< align_log

/-! ## Directory entries (`desc.rs`) -/

/-- Maximum name length, `EXT2_NAME_LEN`. -/
def EXT2_NAME_LEN : Nat := 255

/-- Directory entry record, `Ext2DirEntry`.  The `name` field is the fixed
255-byte buffer of the Rust struct. -/
structure Ext2DirEntry where
  inode : Nat
  rec_len : Nat
  name_len : Nat
  file_type : Nat
  name : List Nat
  deriving Repr, DecidableEq

namespace Ext2DirEntry

/-- Source `Ext2DirEntry::default()`. -/
def default : Ext2DirEntry :=
  { inode := 0, rec_len := 0, name_len := 0, file_type := 0
    name := List.replicate EXT2_NAME_LEN 0 }

/-- Source private `Ext2DirEntry::name_len()`: index of the first zero byte of
the name buffer, or the buffer length if none. -/
def nameLenScan (e : Ext2DirEntry) : Nat :=
  match e.name.findIdx? (· == 0) with
  | some i => i
  | none => e.name.length

/-- Source `Ext2DirEntry::update_rec_len`:
`rec_len = up_align(4 + 2 + 1 + 1 + name_len(), 2) as u16`. -/
def update_rec_len (e : Ext2DirEntry) : Ext2DirEntry :=
  { e with rec_len := up_align (4 + 2 + 1 + 1 + e.nameLenScan) 2 % 65536 }

/-- Source `Ext2DirEntry::update_name`; the failed `assert!` is an error. -/
def update_name (e : Ext2DirEntry) (name : List Nat) :
    Except String Ext2DirEntry :=
  if name.length < EXT2_NAME_LEN then
    let buf := name ++ e.name.drop name.length
    .ok (update_rec_len { e with name := buf, name_len := name.length % 256 })
  else .error "assert: name too long"

/-- Source `Ext2DirEntry::new`. -/
def new (name : List Nat) (inode : Nat) (file_type : Nat) :
    Except String Ext2DirEntry :=
  update_name { inode := inode % 4294967296, rec_len := 0, name_len := 0,
                file_type := file_type,
                name := List.replicate EXT2_NAME_LEN 0 } name

/-- Source `Ext2DirEntry::new_dir` (`EXT2_FT_DIR = 2`). -/
def new_dir (name : List Nat) (inode : Nat) : Except String Ext2DirEntry :=
  new name inode 2

end Ext2DirEntry

/-- Decode a directory entry at offset `p` of a block
(`deserialize_row(&block[p..])`); reads past the end yield 0. -/
def dirEntryFromBytes (block : List Nat) (p : Nat) : Ext2DirEntry :=
  { inode := readU32le block p
    rec_len := readU16le block (p + 4)
    name_len := getByte block (p + 6)
    file_type := getByte block (p + 7)
    name := (List.range EXT2_NAME_LEN).map (fun k => getByte block (p + 8 + k)) }

/-- Serialize a directory entry (`serialize_row`, 264 bytes on x86-64; the
final padding byte is uninitialised memory, modelled as 0). -/
def dirEntryToBytes (e : Ext2DirEntry) : List Nat :=
  u32leBytes e.inode ++ u16leBytes e.rec_len ++ [e.name_len % 256] ++
    [e.file_type % 256] ++ (e.name.map (· % 256)).take EXT2_NAME_LEN ++
    List.replicate (EXT2_NAME_LEN - e.name.length) 0 ++ [0]

/-! ## Inodes (`desc.rs`) -/

/-- Inode record, `Ext2INode`.  The `i_block` field is the 15-entry pointer
array. -/
structure Ext2INode where
  i_mode : Nat
  i_uid : Nat
  i_size : Nat
  i_atime : Nat
  i_ctime : Nat
  i_mtime : Nat
  i_dtime : Nat
  i_gid : Nat
  i_links_count : Nat
  i_blocks : Nat
  i_flags : Nat
  i_version : Nat
  i_block : List Nat
  i_generation : Nat
  i_file_acl : Nat
  i_size_high : Nat
  i_faddr : Nat
  i_blocks_hi : Nat
  i_file_acl_high : Nat
  i_uid_high : Nat
  i_gid_high : Nat
  i_checksum_lo : Nat
  i_reserved : Nat
  deriving Repr, DecidableEq

/-- Byte size of the inode record, `EXT2_INODE_SIZE = size_of::<Ext2INode>()`
(128 on the target platform, no padding). -/
def EXT2_INODE_SIZE : Nat := 128

/-- Source `Ext2INode::default()`; the three present-time stamps are the
`now` argument (`get_time_now()`). -/
def inodeDefault (now : Nat) : Ext2INode :=
  { i_mode := 0, i_uid := 0, i_size := 0, i_atime := now, i_ctime := now,
    i_mtime := now, i_dtime := 0, i_gid := 0, i_links_count := 0,
    i_blocks := 0, i_flags := 0, i_version := 0,
    i_block := List.replicate 15 0, i_generation := 0, i_file_acl := 0,
    i_size_high := 0, i_faddr := 0, i_blocks_hi := 0, i_file_acl_high := 0,
    i_uid_high := 0, i_gid_high := 0, i_checksum_lo := 0, i_reserved := 0 }

/-- Decode an inode record at offset `o` (`deserialize_row(&buf[offset..])`,
little-endian field layout of the repr(C) struct). -/
def inodeFromBytes (b : List Nat) (o : Nat) : Ext2INode :=
  { i_mode := readU16le b o
    i_uid := readU16le b (o + 2)
    i_size := readU32le b (o + 4)
    i_atime := readU32le b (o + 8)
    i_ctime := readU32le b (o + 12)
    i_mtime := readU32le b (o + 16)
    i_dtime := readU32le b (o + 20)
    i_gid := readU16le b (o + 24)
    i_links_count := readU16le b (o + 26)
    i_blocks := readU32le b (o + 28)
    i_flags := readU32le b (o + 32)
    i_version := readU32le b (o + 36)
    i_block := (List.range 15).map (fun k => readU32le b (o + 40 + 4 * k))
    i_generation := readU32le b (o + 100)
    i_file_acl := readU32le b (o + 104)
    i_size_high := readU32le b (o + 108)
    i_faddr := readU32le b (o + 112)
    i_blocks_hi := readU16le b (o + 116)
    i_file_acl_high := readU16le b (o + 118)
    i_uid_high := readU16le b (o + 120)
    i_gid_high := readU16le b (o + 122)
    i_checksum_lo := readU16le b (o + 124)
    i_reserved := readU16le b (o + 126) }

/-- Serialize an inode record (`serialize_row`, 128 little-endian bytes). -/
def inodeToBytes (n : Ext2INode) : List Nat :=
  u16leBytes n.i_mode ++ u16leBytes n.i_uid ++ u32leBytes n.i_size ++
    u32leBytes n.i_atime ++ u32leBytes n.i_ctime ++ u32leBytes n.i_mtime ++
    u32leBytes n.i_dtime ++ u16leBytes n.i_gid ++ u16leBytes n.i_links_count ++
    u32leBytes n.i_blocks ++ u32leBytes n.i_flags ++ u32leBytes n.i_version ++
    ((List.range 15).map (fun k => u32leBytes (n.i_block.getD k 0))).flatten ++
    u32leBytes n.i_generation ++ u32leBytes n.i_file_acl ++
    u32leBytes n.i_size_high ++ u32leBytes n.i_faddr ++
    u16leBytes n.i_blocks_hi ++ u16leBytes n.i_file_acl_high ++
    u16leBytes n.i_uid_high ++ u16leBytes n.i_gid_high ++
    u16leBytes n.i_checksum_lo ++ u16leBytes n.i_reserved

/-! ## Filesystem state (`mod.rs`, struct `RFS`) -/

/-- In-memory filesystem state: the block device (indexed by filesystem block
number), the superblock shadow fields used by the embedded operations, the
group descriptor fields, and the two in-memory bitmaps. -/
structure RFSState where
  disk : Nat → List Nat
  sLogBlockSize : Nat
  sInodesCount : Nat
  sFreeInodesCount : Nat
  sFreeBlocksCount : Nat
  sFirstIno : Nat
  bgBlockBitmap : Nat
  bgInodeBitmap : Nat
  bgInodeTable : Nat
  bitmapInode : List Nat
  bitmapData : List Nat
  layoutSize : Nat

/-- Source `block_size()`: `(1 << s_log_block_size) * 0x400`. -/
def blockSize (s : RFSState) : Nat := (1 <<< s.sLogBlockSize) * 1024

/-- Source `create_block_vec()`. -/
def create_block_vec (s : RFSState) : List Nat := List.replicate (blockSize s) 0

/-- Source `read_data_block` (a `seek_block` followed by `read_block`): the
destination buffer is replaced by the addressed block. -/
def read_data_block (s : RFSState) (block : Nat) : List Nat := s.disk block

/-- Replace one disk block. -/
def setDisk (s : RFSState) (block : Nat) (b : List Nat) : RFSState :=
  { s with disk := fun k => if k = block then b else s.disk k }

/-- Source `write_data_block`: whole-block writes go straight to the device;
a short buffer is merged into the existing block contents first.  The
`assert!(buf.len() <= block_size)` failure is an error. -/
def write_data_block (s : RFSState) (block : Nat) (buf : List Nat) :
    Except String RFSState :=
  if natLen buf ≤ blockSize s then
    if natLen buf % blockSize s = 0 then .ok (setDisk s block buf)
    else
      let block_data := read_data_block s block
      do
        let merged ← writeBytes block_data 0 buf
        .ok (setDisk s block merged)
  else .error "assert: write larger than block"

/-- Source `get_data_block`. -/
def get_data_block (s : RFSState) (block : Nat) : List Nat :=
  read_data_block s block

/-- Source `fetch_inode_block_offset`: block number and in-block byte offset
of inode `ino`, including the `if ino <= 1 { ino } else { ino - 1 }`
adjustment. -/
def fetch_inode_block_offset (s : RFSState) (ino : Nat) : Nat × Nat :=
  let inodes_per_block := blockSize s / EXT2_INODE_SIZE
  let ino' := if ino ≤ 1 then ino else ino - 1
  let offset := ino' % inodes_per_block * EXT2_INODE_SIZE
  let block_number := ino' / inodes_per_block + s.bgInodeTable
  (block_number, offset)

/-- Source `get_inode`. -/
def get_inode (s : RFSState) (ino : Nat) : Ext2INode :=
  let (block_number, offset) := fetch_inode_block_offset s ino
  let buf := read_data_block s block_number
  inodeFromBytes buf offset

/-- Source `set_inode`: read-modify-write of the enclosing block. -/
def set_inode (s : RFSState) (ino : Nat) (inode : Ext2INode) :
    Except String RFSState :=
  let (block_number, offset) := fetch_inode_block_offset s ino
  let buf := read_data_block s block_number
  do
    let buf' ← writeBytes buf offset (inodeToBytes inode)
    write_data_block s block_number buf'

/-! ## Bitmaps and allocation (`mod.rs`) -/

/-- Value of bit `k` (0-based) of a packed bitmap. -/
def bitTest (bm : List Nat) (k : Nat) : Bool :=
  (getByte bm (k / 8) >>> (k % 8)) &&& 1 = 1

/-- First zero bit of one byte, LSB first. -/
def byteFirstZero (b : Nat) : Option Nat :=
  (List.range 8).find? (fun j => (b >>> j) &&& 1 = 0)

/-- Source `bitmap_search`: scan bytes from index `reserved`, bits LSB-first,
returning the 1-based index of the first zero bit. -/
def bitmap_search (bitmap : List Nat) (reserved : Nat) : Except String Nat :=
  match (List.range (natLen bitmap)).drop reserved
      |>.find? (fun i => (byteFirstZero (getByte bitmap i)).isSome) with
  | some i =>
    match byteFirstZero (getByte bitmap i) with
    | some j => .ok (i * 8 + j + 1)
    | none => .error "Bitmap full!"
  | none => .error "Bitmap full!"

/-- Source `bitmap_set` (1-based index; 0 is treated as bit 0). -/
def bitmap_set (bitmap : List Nat) (index : Nat) : List Nat :=
  let index := if index = 0 then 0 else index - 1
  let b := getByte bitmap (index / 8) ||| (1 <<< (index % 8))
  bitmap.set (index / 8) b

/-- Source `allocate_bitmap`: search, set, write the bitmap block back. -/
def allocate_bitmap (s : RFSState) (bitmap_block : Nat) (is_data : Bool) :
    Except String (Nat × RFSState) := do
  let bitmap := if is_data then s.bitmapData else s.bitmapInode
  let reserved_blocks :=
    1 + 1 + 1 + 1 + 1 + s.sInodesCount / EXT2_INODE_SIZE + 1
  let block_free ← bitmap_search bitmap
    (if is_data then reserved_blocks else s.sFirstIno + 1)
  let bitmap' := bitmap_set bitmap block_free
  let s := if is_data then { s with bitmapData := bitmap' }
           else { s with bitmapInode := bitmap' }
  let s ← write_data_block s bitmap_block bitmap'
  .ok (block_free, s)

/-- Source `allocate_block`. -/
def allocate_block (s : RFSState) : Except String (Nat × RFSState) :=
  allocate_bitmap s s.bgBlockBitmap true

/-- Source `allocate_inode`. -/
def allocate_inode (s : RFSState) : Except String (Nat × RFSState) :=
  allocate_bitmap s s.bgInodeBitmap false

/-! ## Directory reading (`mod.rs`) -/

/-- Decode loop of `get_block_dir_entries` as a fuel-counted recursion: the
offset `p` advances by at least one per iteration and the loop guard is
`p <= len`, so `len + 2` fuel (supplied by the wrapper below) never runs
out.  Decode a record, stop at the first record with `inode == 0`,
`inode >= s_inodes_count` or `rec_len == 0`, otherwise advance `p` by
`rec_len`. -/
def decodeDirEntriesF (inodesCount : Nat) (data_block : List Nat) :
    Nat → Nat → List Ext2DirEntry
  | 0, _ => []
  | fuel + 1, p =>
    if p ≤ natLen data_block then
      let dir := dirEntryFromBytes data_block p
      if dir.inode = 0 ∨ inodesCount ≤ dir.inode ∨ dir.rec_len = 0 then
        []
      else
        dir :: decodeDirEntriesF inodesCount data_block fuel (p + dir.rec_len)
    else []

/-- The `while p <= data_block.len()` decode loop of
`get_block_dir_entries`. -/
def decodeDirEntries (inodesCount : Nat) (data_block : List Nat) (p : Nat) :
    List Ext2DirEntry :=
  decodeDirEntriesF inodesCount data_block (natLen data_block + 2) p

/-- Source `get_block_dir_entries`.  In the embedding the body never fails, so
the `Result` wrapper of the source is dropped. -/
def get_block_dir_entries (s : RFSState) (block : Nat) : List Ext2DirEntry :=
  if block = 0 then []
  else decodeDirEntries s.sInodesCount (get_data_block s block) 0

/-- Source `get_dir_entries`: only `i_block.iter().take(12)` is walked. -/
def get_dir_entries (s : RFSState) (ino : Nat) :
    Except String (List Ext2DirEntry) :=
  let inode := get_inode s ino
  if inode.i_mode >>> 12 ≠ 4 then .error "not a directory"
  else
    .ok ((((inode.i_block.take 12).map
      (fun b => get_block_dir_entries s b)).filter
        (fun x => !x.isEmpty)).flatten)

/-! ## Block visitor (`mod.rs`, `visit_blocks_inode`)

The callback `f block index cb` embeds the Rust `FnMut(usize, usize) ->
Result<(bool, bool)>` closure; its mutable captured environment is the
explicit state `cb : σ` and its result is `(continue, need_allocate)`.
The potentially unbounded `loop` statements (re-invocation after
`need_allocate`) take a fuel parameter; running out of fuel is an error. -/

/-- Source `threshold`: layer thresholds T0..T3.  The source panics for other
arguments; no embedded call site uses them. -/
def threshold (s : RFSState) (l : Nat) : Nat :=
  let layer := blockSize s / 4
  match l with
  | 0 => 12
  | 1 => 12 + layer
  | 2 => 12 + layer + layer * layer
  | 3 => 11 + layer + layer * 2 + layer * layer
  | _ + 4 => 0

/-- Rust `usize::MAX`. -/
def usizeMAX : Nat := 18446744073709551615

/-- Control flow of one loop iteration: proceed with the carried state or
return from the whole function with a final result. -/
inductive Flow (β : Type u) (γ : Type v) where
  | next : β → Flow β γ
  | stop : γ → Flow β γ

/-- Carried state of the direct-region loop of `visit_blocks_inode`. -/
structure DirectSt (σ : Type u) where
  s : RFSState
  inode : Ext2INode
  modified : Bool
  cb : σ

/-- Carried state of the indirect-region loops of `visit_blocks_inode`:
filesystem state, the in-memory inode, and the three level caches
`layer_index` / `layer_modified` / `layer_data`. -/
structure LayerSt (σ : Type u) where
  s : RFSState
  inode : Ext2INode
  li : List Nat
  lm : List Bool
  ld : List (List Nat)
  cb : σ

/-- Source macro `dump_index_table!(l)`: always rewrite the inode, then write
the cached index block back if it is marked modified and its key is neither 0
nor `usize::MAX`, clearing the modified flag. -/
def dumpIndexTable (s : RFSState) (ino : Nat) (inode : Ext2INode)
    (li : List Nat) (lm : List Bool) (ld : List (List Nat)) (l : Nat) :
    Except String (RFSState × List Bool) := do
  let s ← set_inode s ino inode
  if lm.getD l false = true ∧ li.getD l 0 ≠ 0 ∧ li.getD l 0 ≠ usizeMAX then do
    let s ← write_data_block s (li.getD l 0) (ld.getD l [])
    .ok (s, lm.set l false)
  else .ok (s, lm)

/-- Inner `loop` of the direct region of `visit_blocks_inode` at index `i`. -/
def visitDirectStep (f : Nat → Nat → σ → Except String ((Bool × Bool) × σ))
    (ino i : Nat) :
    Nat → DirectSt σ → Except String (Flow (DirectSt σ) (RFSState × σ))
  | 0, _ => .error "visitor fuel exhausted"
  | fuel + 1, d => do
    let ((r0, r1), cb) ← f (d.inode.i_block.getD i 0) i d.cb
    if r1 then do
      let (new_block, s) ← allocate_block d.s
      let inode :=
        { d.inode with i_block := d.inode.i_block.set i (new_block % 4294967296) }
      visitDirectStep f ino i fuel
        { s := s, inode := inode, modified := true, cb := cb }
    else if !r0 then do
      let s ← if d.modified then set_inode d.s ino d.inode else .ok d.s
      .ok (.stop (s, cb))
    else .ok (.next { d with cb := cb })

/-- The direct-region loop `for i in block_index..threshold(0)`, iterated
structurally on the remaining count `n = threshold(0) - block_index`. -/
def visitDirectLoop (f : Nat → Nat → σ → Except String ((Bool × Bool) × σ))
    (ino fuel : Nat) :
    Nat → Nat → DirectSt σ → Except String (Flow (DirectSt σ) (RFSState × σ))
  | 0, _, d => .ok (.next d)
  | n + 1, i, d => do
    match ← visitDirectStep f ino i fuel d with
    | .next d' => visitDirectLoop f ino fuel n (i + 1) d'
    | .stop r => .ok (.stop r)

/-- Inner `loop` of the single-indirect region at index `i`. -/
def visitL1Step (f : Nat → Nat → σ → Except String ((Bool × Bool) × σ))
    (ino i : Nat) :
    Nat → LayerSt σ → Except String (Flow (LayerSt σ) (RFSState × σ))
  | 0, _ => .error "visitor fuel exhausted"
  | fuel + 1, v => do
    let block_number := v.inode.i_block.getD 12 0
    let v ←
      if v.li.getD 0 0 ≠ block_number ∧ block_number ≠ 0 then do
        let (s, lm) ← dumpIndexTable v.s ino v.inode v.li v.lm v.ld 0
        .ok { v with s := s, lm := lm,
                     ld := v.ld.set 0 (read_data_block s block_number),
                     li := v.li.set 0 block_number }
      else .ok v
    let offset := (i - threshold v.s 0) <<< 2
    let slice ← subSlice (v.ld.getD 0 []) offset 4
    let block := u32FromBeBytes slice
    let ((r0, r1), cb) ← f block i v.cb
    if r1 then do
      let (nb, s) ← allocate_block v.s
      let new_block := nb % 4294967296
      let ld0 ← writeBytes (v.ld.getD 0 []) offset (u32beBytes new_block)
      visitL1Step f ino i fuel
        { v with s := s, ld := v.ld.set 0 ld0, lm := v.lm.set 0 true, cb := cb }
    else if !r0 then do
      let (s, lm) ← dumpIndexTable v.s ino v.inode v.li v.lm v.ld 0
      let s ← if lm.getD 0 false then set_inode s ino v.inode else .ok s
      .ok (.stop (s, cb))
    else .ok (.next { v with cb := cb })

/-- One iteration of `for i in max(block_index, threshold(0))..threshold(1)`:
the on-demand allocation of the single-indirect index block (including the
source's stale `base_block_number` read) followed by the inner loop. -/
def visitL1Iter (f : Nat → Nat → σ → Except String ((Bool × Bool) × σ))
    (ino fuel i : Nat) (v : LayerSt σ) :
    Except String (Flow (LayerSt σ) (RFSState × σ)) := do
  let base_block_number := v.inode.i_block.getD 12 0
  let v ←
    if base_block_number = 0 then do
      let (new_layer_block, s) ← allocate_block v.s
      let inode :=
        { v.inode with
          i_block := v.inode.i_block.set 12 (new_layer_block % 4294967296) }
      let layer_index_data := create_block_vec s
      let s ← write_data_block s new_layer_block layer_index_data
      .ok { v with s := s, inode := inode,
                   ld := v.ld.set 0 (read_data_block s base_block_number),
                   li := v.li.set 0 base_block_number }
    else .ok v
  visitL1Step f ino i fuel v

/-- The single-indirect loop, iterated on the remaining count. -/
def visitL1Loop (f : Nat → Nat → σ → Except String ((Bool × Bool) × σ))
    (ino fuel : Nat) :
    Nat → Nat → LayerSt σ → Except String (Flow (LayerSt σ) (RFSState × σ))
  | 0, _, v => .ok (.next v)
  | n + 1, i, v => do
    match ← visitL1Iter f ino fuel i v with
    | .next v' => visitL1Loop f ino fuel n (i + 1) v'
    | .stop r => .ok (.stop r)

/-- Inner `loop` of the double-indirect region at index `i`. -/
def visitL2Step (f : Nat → Nat → σ → Except String ((Bool × Bool) × σ))
    (ino i : Nat) :
    Nat → LayerSt σ → Except String (Flow (LayerSt σ) (RFSState × σ))
  | 0, _ => .error "visitor fuel exhausted"
  | fuel + 1, v => do
    let block_number := v.inode.i_block.getD 13 0
    let v ←
      if v.li.getD 0 0 ≠ block_number ∧ block_number ≠ 0 then do
        let (s, lm) ← dumpIndexTable v.s ino v.inode v.li v.lm v.ld 0
        .ok { v with s := s, lm := lm,
                     ld := v.ld.set 0 (read_data_block s block_number),
                     li := v.li.set 0 block_number }
      else .ok v
    let layer_size := blockSize v.s / 4
    let offset := ((i - threshold v.s 1) / layer_size) <<< 2
    let slice ← subSlice (v.ld.getD 0 []) offset 4
    let block_number2 := u32FromBeBytes slice
    let v ←
      if v.li.getD 1 0 ≠ block_number2 ∧ block_number2 ≠ 0 then do
        let (s, lm) ← dumpIndexTable v.s ino v.inode v.li v.lm v.ld 1
        .ok { v with s := s, lm := lm,
                     ld := v.ld.set 1 (read_data_block s block_number2),
                     li := v.li.set 1 block_number2 }
      else .ok v
    let offset2 := ((i - 12) % layer_size) <<< 2
    let slice2 ← subSlice (v.ld.getD 1 []) offset2 4
    let block2 := u32FromBeBytes slice2
    let ((r0, r1), cb) ← f block2 i v.cb
    if r1 then do
      let v ←
        if block_number2 = 0 then do
          let (nb, s) ← allocate_block v.s
          let new_block := nb % 4294967296
          let layer_index_data := create_block_vec s
          let s ← write_data_block s new_block layer_index_data
          let ld0 ← writeBytes (v.ld.getD 0 []) offset (u32beBytes new_block)
          let ld := (v.ld.set 0 ld0).set 1 (read_data_block s new_block)
          .ok { v with s := s, ld := ld, lm := v.lm.set 0 true,
                       li := v.li.set 1 new_block }
        else .ok v
      let (nb, s) ← allocate_block v.s
      let new_block := nb % 4294967296
      let ld1 ← writeBytes (v.ld.getD 1 []) offset2 (u32beBytes new_block)
      visitL2Step f ino i fuel
        { v with s := s, ld := v.ld.set 1 ld1, lm := v.lm.set 1 true, cb := cb }
    else if !r0 then do
      let (s, lm) ← dumpIndexTable v.s ino v.inode v.li v.lm v.ld 0
      let (s, lm) ← dumpIndexTable s ino v.inode v.li lm v.ld 1
      let s ← if lm.getD 0 false then set_inode s ino v.inode else .ok s
      let s ← if lm.getD 1 false then set_inode s ino v.inode else .ok s
      .ok (.stop (s, cb))
    else .ok (.next { v with cb := cb })

/-- One iteration of the double-indirect `for` loop: on-demand allocation of
the double-indirect index block (with the same stale read as L1), then the
inner loop. -/
def visitL2Iter (f : Nat → Nat → σ → Except String ((Bool × Bool) × σ))
    (ino fuel i : Nat) (v : LayerSt σ) :
    Except String (Flow (LayerSt σ) (RFSState × σ)) := do
  let base_block_number := v.inode.i_block.getD 13 0
  let v ←
    if base_block_number = 0 then do
      let (new_layer_block, s) ← allocate_block v.s
      let inode :=
        { v.inode with
          i_block := v.inode.i_block.set 13 (new_layer_block % 4294967296) }
      let layer_index_data := create_block_vec s
      let s ← write_data_block s new_layer_block layer_index_data
      .ok { v with s := s, inode := inode,
                   ld := v.ld.set 0 (read_data_block s base_block_number),
                   li := v.li.set 0 base_block_number }
    else .ok v
  visitL2Step f ino i fuel v

/-- The double-indirect loop, iterated on the remaining count. -/
def visitL2Loop (f : Nat → Nat → σ → Except String ((Bool × Bool) × σ))
    (ino fuel : Nat) :
    Nat → Nat → LayerSt σ → Except String (Flow (LayerSt σ) (RFSState × σ))
  | 0, _, v => .ok (.next v)
  | n + 1, i, v => do
    match ← visitL2Iter f ino fuel i v with
    | .next v' => visitL2Loop f ino fuel n (i + 1) v'
    | .stop r => .ok (.stop r)

/-- Innermost (`k`) loop of the triple-indirect region, iterated on the
remaining count. -/
def visitL3KLoop (f : Nat → Nat → σ → Except String ((Bool × Bool) × σ))
    (block_index block : Nat) :
    Nat → Nat → LayerSt σ → Except String (Flow (LayerSt σ) (RFSState × σ))
  | 0, _, v => .ok (.next v)
  | n + 1, k, v =>
    if block_index > k then visitL3KLoop f block_index block n (k + 1) v
    else do
      let block_number := block
      let v ←
        if v.li.getD 2 0 ≠ block_number then
          .ok { v with ld := v.ld.set 2 (read_data_block v.s block_number),
                       li := v.li.set 2 block_number }
        else .ok v
      let layer_size := blockSize v.s / 4
      let offset := ((k - 12) % layer_size) <<< 2
      let slice ← subSlice (v.ld.getD 2 []) offset 4
      let block' := u32FromBeBytes slice
      let ((r0, _), cb) ← f block' k v.cb
      let v := { v with cb := cb }
      if !r0 then .ok (.stop (v.s, v.cb))
      else visitL3KLoop f block_index block n (k + 1) v

/-- Middle (`j`) loop of the triple-indirect region, iterated on the
remaining count. -/
def visitL3JLoop (f : Nat → Nat → σ → Except String ((Bool × Bool) × σ))
    (block_index block : Nat) :
    Nat → Nat → LayerSt σ → Except String (Flow (LayerSt σ) (RFSState × σ))
  | 0, _, v => .ok (.next v)
  | n + 1, j, v =>
    if block_index > j then visitL3JLoop f block_index block n (j + 1) v
    else do
      let block_number := block
      let v ←
        if v.li.getD 1 0 ≠ block_number then
          .ok { v with ld := v.ld.set 1 (read_data_block v.s block_number),
                       li := v.li.set 1 block_number }
        else .ok v
      let layer_size := blockSize v.s / 4
      let offset := (((j - 12) % layer_size) / layer_size) <<< 2
      let slice ← subSlice (v.ld.getD 1 []) offset 4
      let block' := u32FromBeBytes slice
      match ← visitL3KLoop f block_index block' layer_size j v with
      | .next v' => visitL3JLoop f block_index block n (j + 1) v'
      | .stop r => .ok (.stop r)

/-- Outer loop of the triple-indirect region, one iteration per element of
`range_step(threshold(2), threshold(3), layer_size^2)`. -/
def visitL3ILoop (f : Nat → Nat → σ → Except String ((Bool × Bool) × σ))
    (block_index : Nat) (is : List Nat) (v : LayerSt σ) :
    Except String (Flow (LayerSt σ) (RFSState × σ)) :=
  match is with
  | [] => .ok (.next v)
  | i :: rest => do
    let block_number := v.inode.i_block.getD 14 0
    let v ←
      if v.li.getD 0 0 ≠ block_number then
        .ok { v with ld := v.ld.set 0 (read_data_block v.s block_number),
                     li := v.li.set 0 block_number }
      else .ok v
    let layer_size := blockSize v.s / 4
    let offset := ((i - threshold v.s 1) <<< 2) / layer_size
    let slice ← subSlice (v.ld.getD 0 []) offset 4
    let block := u32FromBeBytes slice
    match ← visitL3JLoop f block_index block (layer_size * layer_size) i v with
    | .next v' => visitL3ILoop f block_index rest v'
    | .stop r => .ok (.stop r)

/-- Source `visit_blocks_inode`: the full visitor over the direct, single-,
double- and triple-indirect regions. -/
def visit_blocks_inode (f : Nat → Nat → σ → Except String ((Bool × Bool) × σ))
    (s : RFSState) (ino block_index : Nat) (cb0 : σ) (fuel : Nat) :
    Except String (RFSState × σ) := do
  let inode := get_inode s ino
  match ← visitDirectLoop f ino fuel (threshold s 0 - block_index) block_index
      { s := s, inode := inode, modified := false, cb := cb0 } with
  | .stop r => .ok r
  | .next d => do
    let v0 : LayerSt σ :=
      { s := d.s, inode := d.inode,
        li := [usizeMAX, usizeMAX, usizeMAX],
        lm := [false, false, false],
        ld := [create_block_vec d.s, create_block_vec d.s, create_block_vec d.s],
        cb := d.cb }
    match ← visitL1Loop f ino fuel
        (threshold d.s 1 - max block_index (threshold d.s 0))
        (max block_index (threshold d.s 0)) v0 with
    | .stop r => .ok r
    | .next v => do
      let (s1, lm) ← dumpIndexTable v.s ino v.inode v.li v.lm v.ld 0
      let v := { v with s := s1, lm := lm }
      match ← visitL2Loop f ino fuel
          (threshold v.s 2 - max block_index (threshold v.s 1))
          (max block_index (threshold v.s 1)) v with
      | .stop r => .ok r
      | .next v => do
        let (s2, lm) ← dumpIndexTable v.s ino v.inode v.li v.lm v.ld 0
        let v := { v with s := s2, lm := lm }
        let (s3, lm) ← dumpIndexTable v.s ino v.inode v.li v.lm v.ld 1
        let v := { v with s := s3, lm := lm }
        let layer_size := blockSize v.s / 4
        match ← visitL3ILoop f block_index
            (rangeStepList (threshold v.s 2) (threshold v.s 3)
              (layer_size * layer_size)) v with
        | .stop r => .ok r
        | .next v => .ok (v.s, v.cb)

/-! ## File read / write / attribute operations (`mod.rs`) -/

/-- Source `shift_ino` (identity in the current version). -/
def shift_ino (ino : Nat) : Nat := ino

/-- Mutable environment of the `rfs_read` visitor closure. -/
structure ReadCb where
  blocks : List Nat
  last_index : Nat
  last_block : Nat

/-- The `rfs_read` callback closure (`mod.rs:1299`); `error!` logging does
not abort, `panic!` does. -/
def rfsReadCb (offset size sz disk_size : Nat) (block index : Nat)
    (c : ReadCb) : Except String ((Bool × Bool) × ReadCb) := do
  let will_continue := decide ((index + 1) * sz - offset < size)
  if block = 0 then
    .ok ((will_continue, false), c)
  else do
    let c := { c with blocks := c.blocks ++ [block] }
    if block * sz > disk_size then .error "panic: error block number"
    else if c.last_index ≠ 0 ∧ c.last_index + 1 ≠ index then
      .error "panic: error index increase"
    else
      .ok ((will_continue, false),
           { c with last_index := index, last_block := block })

/-- Data-assembly loop of `rfs_read`: read each yielded block into the
destination at its position (a short destination slice is a panic inside
`read_block`). -/
def readBlocksInto (s : RFSState) (blocks : List Nat) (size sz : Nat)
    (data : List Nat) : Except String (List Nat) :=
  (blocks.enum.foldlM (fun data (i, block) => do
    let right := min ((i + 1) * sz) size
    if right - i * sz = blockSize s then
      writeBytes data (i * sz) (read_data_block s block)
    else .error "panic: read into short slice") data)

/-- Source `rfs_read` (`mod.rs:1279`). -/
def rfs_read (s : RFSState) (ino : Nat) (offset size : Nat) (fuel : Nat) :
    Except String (List Nat × RFSState) := do
  let sz := blockSize s
  let ino := shift_ino ino
  let start_index := offset / blockSize s
  if offset % blockSize s ≠ 0 then .error "assert: unaligned read offset"
  else do
    let disk_size := s.layoutSize
    let (s, c) ← visit_blocks_inode (rfsReadCb offset size sz disk_size)
      s ino start_index { blocks := [], last_index := 0, last_block := 0 } fuel
    let data := List.replicate size 0
    let data ← readBlocksInto s c.blocks size sz data
    .ok (data, s)

/-- Mutable environment of the `rfs_write` visitor closure. -/
structure WriteCb where
  blocks : List Nat
  last_index : Nat
  last_block : Nat
  last_zero_index : Nat

/-- The `rfs_write` callback closure (`mod.rs:1351`): a zero block requests
allocation while the write still has bytes to place. -/
def rfsWriteCb (offset size sz disk_size : Nat) (block index : Nat)
    (c : WriteCb) : Except String ((Bool × Bool) × WriteCb) := do
  let will_continue := decide ((index + 1) * sz - offset < size)
  if block = 0 then
    if c.last_zero_index = index then .error "panic: error zero index"
    else
      .ok ((will_continue, decide (index * sz - offset < size)),
           { c with last_zero_index := index })
  else do
    let c := { c with blocks := c.blocks ++ [block] }
    if block * sz > disk_size then .error "panic: error block number"
    else if c.last_index ≠ 0 ∧ c.last_index + 1 ≠ index then
      .error "panic: error index increase"
    else
      .ok ((will_continue, false),
           { c with last_index := index, last_block := block })

/-- Data-emission loop of `rfs_write`, threading the running `offset` the
way the source does (`offset += right - (i * sz)`). -/
def writeBlocksFrom (s : RFSState) (blocks : List Nat) (data : List Nat)
    (size sz offset : Nat) : Except String (RFSState × Nat) :=
  (blocks.enum.foldlM (fun (acc : RFSState × Nat) (ib : Nat × Nat) => do
    let (s, offset) := acc
    let (i, block) := ib
    let right := min ((i + 1) * sz) size
    let chunk ← subSlice data (i * sz) (right - i * sz)
    let s ← write_data_block s block chunk
    .ok (s, offset + (right - i * sz))) (s, offset))

/-- Source `rfs_write` (`mod.rs:1333`). -/
def rfs_write (s : RFSState) (ino : Nat) (offset : Nat) (data : List Nat)
    (fuel : Nat) : Except String (Nat × RFSState) := do
  let size := data.length
  let base := offset
  let sz := blockSize s
  let ino := shift_ino ino
  let start_index := offset / blockSize s
  if offset % blockSize s ≠ 0 then .error "assert: unaligned write offset"
  else do
    let disk_size := s.layoutSize
    let (s, c) ← visit_blocks_inode (rfsWriteCb offset size sz disk_size)
      s ino start_index
      { blocks := [], last_index := 0, last_block := 0,
        last_zero_index := usizeMAX } fuel
    let (s, offset) ← writeBlocksFrom s c.blocks data size sz offset
    let inode := get_inode s ino
    let filesize := inode.i_size + inode.i_size_high * 4294967296
    let s ←
      if offset > filesize then
        set_inode s ino
          { inode with i_size := offset % 4294967296,
                       i_size_high := offset >>> 32 % 4294967296 }
      else .ok s
    let written := offset - base
    .ok (written, s)

/-- Source `rfs_setattr` (`mod.rs:1222`); timestamps arrive as seconds. -/
def rfs_setattr (s : RFSState) (ino : Nat) (mode uid gid : Option Nat)
    (size : Option Nat) (atime mtime chgtime bkuptime : Option Nat)
    (flags : Option Nat) : Except String (Ext2INode × RFSState) := do
  let ino := shift_ino ino
  let node := get_inode s ino
  let node := match mode with
    | some v => { node with i_mode := v % 65536 }
    | none => node
  let node := match uid with
    | some v => { node with i_uid := v &&& 0xFF, i_uid_high := v >>> 16 % 65536 }
    | none => node
  let node := match gid with
    | some v => { node with i_gid := v &&& 0xFF, i_gid_high := v >>> 16 % 65536 }
    | none => node
  let node := match size with
    | some v => { node with i_size := v &&& 0xFFFF,
                            i_size_high := v >>> 32 % 4294967296 }
    | none => node
  let node := match atime with
    | some v => { node with i_atime := v % 4294967296 }
    | none => node
  let node := match mtime with
    | some v => { node with i_mtime := v % 4294967296 }
    | none => node
  let node := match chgtime with
    | some v => { node with i_ctime := v % 4294967296 }
    | none => node
  let node := match bkuptime with
    | some v => { node with i_dtime := v % 4294967296 }
    | none => node
  let node := match flags with
    | some v => { node with i_flags := v % 4294967296 }
    | none => node
  let s ← set_inode s ino node
  .ok (node, s)

/-- Source `rfs_lookup`: linear scan of the parent's entries, first match by
name (byte equality of the `name_len`-byte prefix). -/
def rfs_lookup (s : RFSState) (parent : Nat) (name : List Nat) :
    Except String ((Nat × Ext2INode) × RFSState) := do
  let parent := shift_ino parent
  let entries ← get_dir_entries s parent
  match entries.find? (fun d => d.name.take d.name_len == name) with
  | some d => .ok ((d.inode, get_inode s d.inode), s)
  | none => .error "file not found"

/-- Source `rfs_readdir`. -/
def rfs_readdir (s : RFSState) (ino : Nat) (offset : Nat) :
    Except String (List Ext2DirEntry × RFSState) := do
  let ino := shift_ino ino
  let entries ← get_dir_entries s ino
  .ok (entries.drop offset, s)

/-- FUSE `getattr` (reads the inode, no state change). -/
def rfs_getattr (s : RFSState) (ino : Nat) :
    Except String (Ext2INode × RFSState) :=
  .ok (get_inode s (shift_ino ino), s)

/-! ## Node creation (`mod.rs`, `make_node`) -/

/-- File kinds used by `make_node` (`Ext2FileType`). -/
inductive Ext2FileType where
  | Unknown | RegularFile | Directory | CharDevice | BlockDevice
  | NamedPipe | Socket | Symlink
  deriving Repr, DecidableEq

/-- Discriminant of `Ext2FileType` (`IntoPrimitive`). -/
def Ext2FileType.toNat : Ext2FileType → Nat
  | .Unknown => 0
  | .RegularFile => 8
  | .Directory => 4
  | .CharDevice => 2
  | .BlockDevice => 6
  | .NamedPipe => 1
  | .Socket => 0xc
  | .Symlink => 0xa

/-- The `init_directory` closure of `make_node`: synthesize the `.` and `..`
entries of a fresh directory block and fix up the inode copy. -/
def initDirectory (block_size parent : Nat) (entry : Ext2DirEntry)
    (inode : Ext2INode) (data_block_free : Nat) :
    Except String (List Nat × Ext2INode) := do
  let inode := { inode with i_blocks := 1, i_size := block_size % 4294967296,
                            i_block := inode.i_block.set 0
                              (data_block_free % 4294967296) }
  let dir_this := entry
  let entries ←
    if getByte dir_this.name 0 = 46 ∧ dir_this.name_len = 1 then
      .ok ([] : List Ext2DirEntry)
    else do
      let dir_this ← dir_this.update_name [46]
      .ok [dir_this]
  let dir_parent ← Ext2DirEntry.new_dir [46, 46] parent
  let entries := entries ++ [dir_parent]
  let lens := entries.map (·.rec_len)
  let offset := lens.sum
  let entry_last := entries.getLast?.getD Ext2DirEntry.default
  let offset := offset - entry_last.rec_len
  let entry_last_real_len := entry_last.rec_len
  let entry_last := { entry_last with rec_len := (block_size - offset) % 65536 }
  let entries := entries.dropLast ++ [entry_last]
  let block_data := List.replicate block_size 0
  let entries_len := entries.length
  let (block_data, _) ← entries.enum.foldlM
    (fun (acc : List Nat × Nat) (ie : Nat × Ext2DirEntry) => do
      let (block_data, offset) := acc
      let (i, e) := ie
      if i ≠ entries_len - 1 then do
        let bytes ← subSlice (dirEntryToBytes e) 0 e.rec_len
        let block_data ← writeBytes block_data offset bytes
        .ok (block_data, offset + e.rec_len)
      else do
        let bytes ← subSlice (dirEntryToBytes e) 0 entry_last_real_len
        let block_data ← writeBytes block_data offset bytes
        .ok (block_data, offset))
    (block_data, 0)
  .ok (block_data, inode)

/-- Source `make_node` (`mod.rs:718`); `now` stands for `get_time_now()`. -/
def make_node (s : RFSState) (parent : Nat) (name : List Nat) (mode : Nat)
    (node_type : Ext2FileType) (now : Nat) :
    Except String ((Nat × Ext2INode) × RFSState) := do
  let file_type := node_type.toNat
  let inode_parent := get_inode s parent
  let (ino_free, s) ← allocate_inode s
  let entry ← Ext2DirEntry.new name ino_free (file_type % 256)
  let inode := inodeDefault now
  let entry := { entry with inode := ino_free % 4294967296 }
  let (data_block_free, s) ←
    match node_type with
    | .Directory | .RegularFile => do
      let (block_free, s) ← allocate_block s
      .ok (block_free, s)
    | _ => .ok (0, s)
  let inode :=
    { inode with i_mode := (mode &&& 0xFFF) ||| ((file_type <<< 12) % 65536) }
  let last_block_i := (inode_parent.i_block.enum.foldl
    (fun acc (id : Nat × Nat) => if id.2 ≠ 0 then id.1 else acc) usizeMAX)
  let block_size := blockSize s
  let (s, inode_parent, entry, last_block_i, init_directory_done) ←
    if last_block_i = usizeMAX then
      if node_type = .Directory then do
        let (parent_data_block_free, s) ← allocate_block s
        let inode_parent :=
          if inode_parent.i_blocks = 0 ∧ inode_parent.i_size = 0 ∧
             inode_parent.i_mode = 0 then
            { inodeDefault now with
              i_size := block_size % 4294967296, i_blocks := 1,
              i_mode := (mode ||| (file_type <<< 12)) % 65536 }
          else inode_parent
        let (dir_block, inode_parent') ←
          initDirectory block_size parent entry inode_parent
            parent_data_block_free
        let s ← write_data_block s parent_data_block_free dir_block
        .ok (s, inode_parent', entry, 0, true)
      else .error "panic: data block is empty"
    else .ok (s, inode_parent, entry, last_block_i, false)
  if last_block_i = 12 ∨ last_block_i = 13 ∨ last_block_i = 14 then
    .error "assert: indirect parent block unsupported"
  else do
    let parent_enties :=
      get_block_dir_entries s (inode_parent.i_block.getD last_block_i 0)
    let entries_lengths := parent_enties.map (fun e => e.rec_len)
    let n := entries_lengths.length
    let (offset_cnt, reset_last_rec_len) := entries_lengths.enum.foldl
      (fun (acc : Nat × Bool) (il : Nat × Nat) =>
        let (offset_cnt, reset) := acc
        let (i, len) := il
        if i ≠ n - 1 then (offset_cnt + len, reset)
        else
          let e := (parent_enties.getD i Ext2DirEntry.default)
          if (len : Int) - (8 + e.name_len : Int) ≥ (entry.rec_len : Int) then
            (offset_cnt + e.name_len + 8, true)
          else (offset_cnt + len, reset))
      (0, false)
    let (s, inode_parent, last_block_i, parent_enties, offset_cnt,
         reset_last_rec_len) ←
      if offset_cnt + entry.rec_len ≥ block_size then
        if last_block_i = 11 then .error "assert: parent directory full"
        else do
          let last_block_i := last_block_i + 1
          let (block_free, s) ← allocate_block s
          let inode_parent :=
            { inode_parent with
              i_block := inode_parent.i_block.set last_block_i
                (block_free % 4294967296) }
          let parent_enties := get_block_dir_entries s block_free
          let offset_cnt := (parent_enties.map (fun e => e.rec_len)).sum
          .ok (s, inode_parent, last_block_i, parent_enties, offset_cnt, false)
      else
        .ok (s, inode_parent, last_block_i, parent_enties, offset_cnt,
             reset_last_rec_len)
    let data_block :=
      read_data_block s (inode_parent.i_block.getD last_block_i 0)
    let (data_block, offset_cnt) ←
      if reset_last_rec_len then do
        let tail := parent_enties.length - 1
        let lastE := parent_enties.getD tail Ext2DirEntry.default
        let old_len := lastE.rec_len
        let offset_start := block_size - old_len
        let lastE :=
          { lastE with rec_len := up_align (lastE.name_len + 8) 4 % 65536 }
        let bytes ← subSlice (dirEntryToBytes lastE) 0 lastE.rec_len
        let offset_next := offset_start + lastE.rec_len
        let data_block ← writeBytes data_block offset_start bytes
        .ok (data_block, offset_next)
      else .ok (data_block, offset_cnt)
    let old_rec_len := entry.rec_len
    let entry := { entry with rec_len := (block_size - offset_cnt) % 65536 }
    let bytes ← subSlice (dirEntryToBytes entry) 0 old_rec_len
    let data_block ← writeBytes data_block offset_cnt bytes
    let s ←
      write_data_block s (inode_parent.i_block.getD last_block_i 0) data_block
    let (s, inode) ←
      match node_type with
      | .Directory =>
        if init_directory_done then .ok (s, inode)
        else do
          let (dir_block, inode') ←
            initDirectory block_size parent entry inode data_block_free
          let s ← write_data_block s data_block_free dir_block
          .ok (s, inode')
      | .RegularFile =>
        .ok (s, { inode with
                  i_block := inode.i_block.set 0 (data_block_free % 4294967296) })
      | _ => .ok (s, inode)
    let s ← set_inode s ino_free inode
    let s ← set_inode s parent inode_parent
    .ok ((ino_free, inode), s)

/-! ## Write-back block cache (`disk_driver/src/cache.rs`)

The inner raw device is modelled as a store of device blocks indexed by tag
(`offset >> block_log`) with a cursor and a flush counter; the cache is the
LRU list of `(tag, CacheItem)` slots, most-recently-used first. -/

/-- One cache slot, `CacheItem`. -/
structure CacheItem where
  dirty : Bool
  data : List Nat
  deriving Repr, DecidableEq

/-- The raw device below the cache. -/
structure InnerDisk where
  data : Nat → List Nat
  pos : Nat
  flushes : Nat

/-- Inner `ddriver_seek(address, SeekType::Set)`. -/
def innerSeekSet (d : InnerDisk) (address : Nat) : InnerDisk :=
  { d with pos := address }

/-- Inner `ddriver_write` of one device block at the current cursor. -/
def innerWrite (d : InnerDisk) (block_log : Nat) (buf : List Nat) : InnerDisk :=
  { d with data := fun k => if k = d.pos >>> block_log then buf else d.data k,
           pos := d.pos + buf.length }

/-- Inner `ddriver_flush` (a sync; contents unchanged). -/
def innerFlush (d : InnerDisk) : InnerDisk := { d with flushes := d.flushes + 1 }

/-- Bypass read of one device block directly from the inner device. -/
def innerReadBlock (d : InnerDisk) (tag : Nat) : List Nat := d.data tag

/-- Cached device state, `CacheDiskDriver`. -/
structure CacheDisk where
  inner : InnerDisk
  cache : List (Nat × CacheItem)
  offset : Nat
  unit : Nat
  block_log : Nat
  capacity : Nat

/-- Source `get_tag`. -/
def get_tag (c : CacheDisk) (address : Nat) : Nat := address >>> c.block_log

/-- Source `get_offset_tag`. -/
def get_offset_tag (c : CacheDisk) : Nat := get_tag c c.offset

/-- Source `CacheDiskDriver::ddriver_seek(offset, SeekType::Set)`: seeks only
move the wrapper's logical offset. -/
def cacheSeekSet (c : CacheDisk) (offset : Nat) : CacheDisk :=
  { c with offset := offset }

/-- Source `write_back_item`: write an evicted dirty slot back to its block's
offset on the inner device. -/
def write_back_item (c : CacheDisk) (replaced : Option (Nat × CacheItem)) :
    CacheDisk :=
  match replaced with
  | some (tag, item) =>
    if item.dirty then
      let address := tag <<< c.block_log
      { c with inner := innerWrite (innerSeekSet c.inner address)
                 c.block_log item.data }
    else c
  | none => c

/-- Source `ddriver_write` restricted to `size == unit` (the general case
splits into per-block calls of exactly this path): write-allocate with LRU
promotion on hit and write-back of a dirty eviction victim on miss. -/
def cacheWriteOne (c : CacheDisk) (buf : List Nat) : Except String CacheDisk :=
  if buf.length ≠ c.unit then .error "panic: copy_from_slice length mismatch"
  else
    let tag := get_offset_tag c
    match c.cache.find? (fun p => p.1 = tag) with
    | some item =>
      if buf.length ≠ item.2.data.length then
        .error "panic: copy_from_slice length mismatch"
      else
        let cache := (tag, CacheItem.mk true buf) ::
          c.cache.filter (fun p => p.1 ≠ tag)
        .ok { c with cache := cache, offset := c.offset + c.unit }
    | none =>
      let cache := (tag, CacheItem.mk true buf) :: c.cache
      let (cache, replaced) :=
        if c.capacity < cache.length then
          (cache.dropLast, cache.getLast?)
        else (cache, none)
      let c := write_back_item { c with cache := cache } replaced
      .ok { c with offset := c.offset + c.unit }

/-- Source `ddriver_flush`: write back every dirty slot in cache order to its
block's offset, clear the cache, then flush the inner device. -/
def cacheFlush (c : CacheDisk) : CacheDisk :=
  let inner := c.cache.foldl
    (fun inn (p : Nat × CacheItem) =>
      if p.2.dirty then
        innerWrite (innerSeekSet inn (p.1 <<< c.block_log)) c.block_log p.2.data
      else inn)
    c.inner
  { c with inner := innerFlush inner, cache := [] }

/-! ## Wellformedness of states -/

/-- A wellformed byte buffer of length `n`. -/
def ByteBlock (n : Nat) (l : List Nat) : Prop :=
  l.length = n ∧ ∀ x ∈ l, x < 256

/-- Wellformed filesystem state: every disk block and both bitmaps are
byte buffers of exactly one block. -/
def WfState (s : RFSState) : Prop :=
  (∀ b, ByteBlock (blockSize s) (s.disk b)) ∧
    ByteBlock (blockSize s) s.bitmapInode ∧
    ByteBlock (blockSize s) s.bitmapData

/-! ## Claim-side reference definitions

These definitions follow the words of the specification (not the source) and
exist only to be compared against the source embeddings above. -/

/-- Pointer `k` of index block `b` (block-pointer tree edge); pointer blocks
are read with the big-endian convention the resolver uses. -/
def lookupPtr (s : RFSState) (b k : Nat) : Nat :=
  if b = 0 then 0
  else u32FromBeBytes (((s.disk b).drop (4 * k)).take 4)

/-- All pointers of an index block (empty for the null block). -/
def blockPtrs (s : RFSState) (b : Nat) : List Nat :=
  if b = 0 then []
  else (List.range (blockSize s / 4)).map (fun k => lookupPtr s b k)

/-- Spec §4.5 resolver: logical block index to physical block number through
direct and 1–3 level indirect pointers (0 denotes a hole). -/
def specResolve (s : RFSState) (inode : Ext2INode) (idx : Nat) : Nat :=
  let L := blockSize s / 4
  if idx < 12 then inode.i_block.getD idx 0
  else if idx < 12 + L then lookupPtr s (inode.i_block.getD 12 0) (idx - 12)
  else if idx < 12 + L + L * L then
    let r := idx - (12 + L)
    lookupPtr s (lookupPtr s (inode.i_block.getD 13 0) (r / L)) (r % L)
  else
    let r := idx - (12 + L + L * L)
    lookupPtr s
      (lookupPtr s (lookupPtr s (inode.i_block.getD 14 0) (r / (L * L)))
        (r / L % L)) (r % L)

/-- Claim C2's reading of `get_dir_entries`: the reachable data blocks of the
directory, in block order, including blocks reached through single-, double-
and triple-indirect pointers. -/
def claimReachableBlocks (s : RFSState) (inode : Ext2INode) : List Nat :=
  let direct := (inode.i_block.take 12).filter (· ≠ 0)
  let single := (blockPtrs s (inode.i_block.getD 12 0)).filter (· ≠ 0)
  let double := ((blockPtrs s (inode.i_block.getD 13 0)).map
    (fun q => (blockPtrs s q).filter (· ≠ 0))).flatten
  let triple := ((blockPtrs s (inode.i_block.getD 14 0)).map
    (fun q => ((blockPtrs s q).map
      (fun r => (blockPtrs s r).filter (· ≠ 0))).flatten)).flatten
  direct ++ single ++ double ++ triple

/-- Claim C2 as stated: concatenation over all reachable data blocks of the
entries decoded within each block (the per-block decoding rule is the same
sentence of the spec that `decodeDirEntries` embeds). -/
def claimDirEntriesRead (s : RFSState) (ino : Nat) :
    Except String (List Ext2DirEntry) :=
  let inode := get_inode s ino
  if inode.i_mode >>> 12 ≠ 4 then .error "not a directory"
  else
    .ok (((claimReachableBlocks s inode).map
      (fun b => decodeDirEntries s.sInodesCount (read_data_block s b) 0)).flatten)

/-- Amended claim C2: only the 12 direct block pointers are consulted, in
order; a null pointer contributes nothing. -/
def specDirectDirRead (s : RFSState) (ino : Nat) :
    Except String (List Ext2DirEntry) :=
  let inode := get_inode s ino
  if inode.i_mode >>> 12 ≠ 4 then .error "not a directory"
  else
    .ok (((inode.i_block.take 12).map
      (fun b => get_block_dir_entries s b)).flatten)

/-- Claim C5 as stated: the data returned by a block-aligned read, where a
hole (resolved physical block 0) contributes one block of zeros at its own
position and allocated blocks appear at their unshifted positions. -/
def claimReadData (s : RFSState) (ino offset size : Nat) : List Nat :=
  let sz := blockSize s
  let inode := get_inode s ino
  let nblocks := (size + sz - 1) / sz
  (((List.range nblocks).map (fun k =>
    let phys := specResolve s inode (offset / sz + k)
    if phys = 0 then List.replicate sz 0
    else read_data_block s phys)).flatten).take size

/-! ## Callback traces for the visitor claims -/

/-- Wrap a pure callback `g block index = (continue, need_allocate)` so that
the callback state records the sequence of invocations. -/
def tracedCb (g : Nat → Nat → Bool × Bool) :
    Nat → Nat → List (Nat × Nat) →
      Except String ((Bool × Bool) × List (Nat × Nat)) :=
  fun block index tr => .ok (g block index, tr ++ [(block, index)])

/-- Instrumented callback state: the wrapped callback's own state paired with
the recorded trace of invocations `((block, index), (continue,
need_allocate))`. -/
abbrev TrState (σ : Type u) : Type u := σ × List ((Nat × Nat) × Bool × Bool)

/-- Wrap an arbitrary stateful callback `f` so that, besides threading `f`'s
own state, every invocation `(block, index)` and `f`'s reply to it are
recorded. -/
def traced (f : Nat → Nat → σ → Except String ((Bool × Bool) × σ)) :
    Nat → Nat → TrState σ → Except String ((Bool × Bool) × TrState σ) :=
  fun block index c => do
    let (r, c') ← f block index c.1
    .ok (r, (c', c.2 ++ [((block, index), r)]))

/-- One admissible step between consecutive callback invocations: either the
previous invocation's reply was continue-without-allocate and the index
advances by exactly one, or it requested allocation and the same index is
revisited. -/
def stepFollows (p q : (Nat × Nat) × Bool × Bool) : Prop :=
  (p.2 = (true, false) ∧ q.1.2 = p.1.2 + 1) ∨ (p.2.2 = true ∧ q.1.2 = p.1.2)

/-- Wellformed invocation trace of a completed traversal that started at
`start`: nonempty, first invocation at `start`, consecutive invocations
follow `stepFollows`, and the final invocation's reply was
`(false, false)`. -/
def TraceWf (start : Nat) (tr : List ((Nat × Nat) × Bool × Bool)) : Prop :=
  tr.Chain' stepFollows ∧ (∀ p ∈ tr.head?, p.1.2 = start) ∧ tr ≠ [] ∧
    ∀ p ∈ tr.getLast?, p.2 = (false, false)

/-! ## Concrete states used by counterexamples and witnesses

The layout is the default one of the source (`rfs_init`): block size 1024,
1024 inodes, bitmaps at blocks 3 and 4, inode table from block 5, a 4 MiB
device. -/

/-- One zeroed 1024-byte block. -/
def zeroBlock1024 : List Nat := List.replicate 1024 0

/-- A freshly formatted state with an all-zero disk and bitmaps. -/
def baseState : RFSState :=
  { disk := fun _ => zeroBlock1024, sLogBlockSize := 0, sInodesCount := 1024,
    sFreeInodesCount := 8192, sFreeBlocksCount := 0, sFirstIno := 11,
    bgBlockBitmap := 3, bgInodeBitmap := 4, bgInodeTable := 5,
    bitmapInode := zeroBlock1024, bitmapData := zeroBlock1024,
    layoutSize := 4194304 }

/-- Inode-table block with inode 2's record (slot offset 128) set to `n`. -/
def inodeTableBlock (n : Ext2INode) : List Nat :=
  List.replicate 128 0 ++ inodeToBytes n ++ List.replicate 768 0

/-- Number of zero bits of a packed bitmap (tail-recursive fold). -/
def zeroBitCount (bm : List Nat) : Nat :=
  bm.foldl (fun acc b =>
    acc + ((List.range 8).filter (fun j => (b >>> j) &&& 1 = 0)).length) 0

/-! ## Claim C5 — sparse holes in `rfs_read` -/

/-- A regular file whose first logical block is a hole and whose second
logical block is physical block 7. -/
def inodeC5 : Ext2INode :=
  { inodeDefault 0 with
    i_mode := 32768, i_size := 2048,
    i_block := [0, 7, 0, 0, 0, 0, 0, 0, 0, 0, 0, 0, 0, 0, 0] }

/-- Data block of the C5 file. -/
def blockA : List Nat := List.replicate 1024 0xAA

/-- State with the C5 file as inode 2. -/
def s5c : RFSState :=
  { baseState with disk := fun b =>
      if b = 5 then inodeTableBlock inodeC5
      else if b = 7 then blockA else zeroBlock1024 }

/-! ## Claim C2 — directory read coverage -/

/-- Directory inode for C2: one direct data block (7) and one
single-indirect index block (9). -/
def inodeC2 : Ext2INode :=
  { inodeDefault 0 with
    i_mode := 16384,
    i_block := [7, 0, 0, 0, 0, 0, 0, 0, 0, 0, 0, 0, 9, 0, 0] }

/-- The `.` entry of the C2 directory. -/
def dirDot : Ext2DirEntry :=
  { inode := 2, rec_len := 12, name_len := 1, file_type := 2,
    name := 46 :: List.replicate 254 0 }

/-- The `..` entry of the C2 directory (rec_len inflated to the block end). -/
def dirDotDot : Ext2DirEntry :=
  { inode := 2, rec_len := 1012, name_len := 2, file_type := 2,
    name := 46 :: 46 :: List.replicate 253 0 }

/-- The entry reachable only through the single-indirect block. -/
def dirX : Ext2DirEntry :=
  { inode := 5, rec_len := 1024, name_len := 1, file_type := 1,
    name := 120 :: List.replicate 254 0 }

/-- Direct directory block 7 with `.` and `..`. -/
def blockDir7 : List Nat :=
  (dirEntryToBytes dirDot).take 12 ++ (dirEntryToBytes dirDotDot).take 264 ++
    List.replicate 748 0

/-- Single-indirect index block 9: its first (big-endian) pointer names
block 10. -/
def blockIdx9 : List Nat := 0 :: 0 :: 0 :: 10 :: List.replicate 1020 0

/-- Data block 10 holding the entry `x`. -/
def blockX10 : List Nat :=
  (dirEntryToBytes dirX).take 264 ++ List.replicate 760 0

/-- State with the C2 directory as inode 2. -/
def s2c : RFSState :=
  { baseState with disk := fun b =>
      if b = 5 then inodeTableBlock inodeC2
      else if b = 7 then blockDir7
      else if b = 9 then blockIdx9
      else if b = 10 then blockX10 else zeroBlock1024 }

/-- The state produced by `allocate_inode` on `baseState`: bit 96 of the
inode bitmap set (inode 97), the bitmap block (block 4) written back. -/
def c4ResultState : RFSState :=
  setDisk { baseState with bitmapInode := bitmap_set baseState.bitmapInode 97 }
    baseState.bgInodeBitmap (bitmap_set baseState.bitmapInode 97)

/-! ## Claim C6 — cached device write/flush/read -/

/-- One step of the flush fold: write a dirty slot back to its block's
offset on the inner device. -/
def flushStep (log : Nat) (inn : InnerDisk) (p : Nat × CacheItem) : InnerDisk :=
  if p.2.dirty then innerWrite (innerSeekSet inn (p.1 <<< log)) log p.2.data
  else inn

/-- A small cached device: 4-byte device blocks, capacity 2, one clean
slot at tag 5. -/
def c6Base : CacheDisk :=
  { inner := { data := fun _ => [0, 0, 0, 0], pos := 0, flushes := 0 },
    cache := [(5, CacheItem.mk false [9, 9, 9, 9])],
    offset := 0, unit := 4, block_log := 2, capacity := 2 }

/-! ## Claim C1 — callback trace discipline of the visitor

Trace segments: the consecutive callback invocations produced while the
visitor works at one index (allocation retries), and their concatenations
over index ranges. -/

/-- A one-index trace segment: nonempty, every invocation at index `i`,
every invocation but the last requested allocation, and the last
invocation's reply was `endv`. -/
def Seg (i : Nat) (Δ : List ((Nat × Nat) × Bool × Bool))
    (endv : Bool × Bool) : Prop :=
  Δ ≠ [] ∧ (∀ p ∈ Δ, p.1.2 = i) ∧
  (∀ p ∈ Δ.dropLast, p.2.2 = true) ∧
  (∀ p ∈ Δ.getLast?, p.2 = endv)

/-- A trace segment over an index range: nonempty, chained, first
invocation at `lo`, last invocation at `hi` with reply `endv`. -/
def SegT (lo hi : Nat) (Δ : List ((Nat × Nat) × Bool × Bool))
    (endv : Bool × Bool) : Prop :=
  Δ ≠ [] ∧ Δ.Chain' stepFollows ∧
  (∀ p ∈ Δ.head?, p.1.2 = lo) ∧
  (∀ p ∈ Δ.getLast?, p.1.2 = hi ∧ p.2 = endv)

/-! ### Block-length wellformedness, preserved by the visitor's writes -/

/-- Every disk block and both in-memory bitmaps have full block length. -/
def WfDisk (s : RFSState) : Prop :=
  (∀ b, (s.disk b).length = blockSize s) ∧
  s.bitmapInode.length = blockSize s ∧
  s.bitmapData.length = blockSize s

/-- Wellformed layer-loop carried state: wellformed disk and three
full-block cache slots. -/
def WfV (v : LayerSt σ) : Prop :=
  WfDisk v.s ∧ v.ld.length = 3 ∧ ∀ d ∈ v.ld, d.length = blockSize v.s

/-- On-demand index-block (re)load shared by the single- and double-indirect
loop bodies: dump the old slot and read the new index block. -/
def visitPreDump (ino slot bn : Nat) (v : LayerSt σ) :
    Except String (LayerSt σ) :=
  if v.li.getD slot 0 ≠ bn ∧ bn ≠ 0 then do
    let (s, lm) ← dumpIndexTable v.s ino v.inode v.li v.lm v.ld slot
    .ok { v with s := s, lm := lm,
                 ld := v.ld.set slot (read_data_block s bn),
                 li := v.li.set slot bn }
  else .ok v

/-- The single-indirect loop body after its on-demand index-block load. -/
def visitL1StepRest (f : Nat → Nat → σ → Except String ((Bool × Bool) × σ))
    (ino i fuel : Nat) (v : LayerSt σ) :
    Except String (Flow (LayerSt σ) (RFSState × σ)) := do
  let offset := (i - threshold v.s 0) <<< 2
  let slice ← subSlice (v.ld.getD 0 []) offset 4
  let block := u32FromBeBytes slice
  let ((r0, r1), cb) ← f block i v.cb
  if r1 then do
    let (nb, s) ← allocate_block v.s
    let new_block := nb % 4294967296
    let ld0 ← writeBytes (v.ld.getD 0 []) offset (u32beBytes new_block)
    visitL1Step f ino i fuel
      { v with s := s, ld := v.ld.set 0 ld0, lm := v.lm.set 0 true, cb := cb }
  else if !r0 then do
    let (s, lm) ← dumpIndexTable v.s ino v.inode v.li v.lm v.ld 0
    let s ← if lm.getD 0 false then set_inode s ino v.inode else .ok s
    .ok (.stop (s, cb))
  else .ok (.next { v with cb := cb })

/-- The double-indirect loop body from the second-level index lookup on:
`block_number2` is the mid-level index block, `offset` the first-level
offset and `layer_size` the pointer count, all computed before the
mid-level reload. -/
def visitL2StepRest2 (f : Nat → Nat → σ → Except String ((Bool × Bool) × σ))
    (ino i fuel block_number2 offset layer_size : Nat) (v : LayerSt σ) :
    Except String (Flow (LayerSt σ) (RFSState × σ)) := do
  let offset2 := ((i - 12) % layer_size) <<< 2
  let slice2 ← subSlice (v.ld.getD 1 []) offset2 4
  let block2 := u32FromBeBytes slice2
  let ((r0, r1), cb) ← f block2 i v.cb
  if r1 then do
    let v ←
      if block_number2 = 0 then do
        let (nb, s) ← allocate_block v.s
        let new_block := nb % 4294967296
        let layer_index_data := create_block_vec s
        let s ← write_data_block s new_block layer_index_data
        let ld0 ← writeBytes (v.ld.getD 0 []) offset (u32beBytes new_block)
        let ld := (v.ld.set 0 ld0).set 1 (read_data_block s new_block)
        .ok { v with s := s, ld := ld, lm := v.lm.set 0 true,
                     li := v.li.set 1 new_block }
      else .ok v
    let (nb, s) ← allocate_block v.s
    let new_block := nb % 4294967296
    let ld1 ← writeBytes (v.ld.getD 1 []) offset2 (u32beBytes new_block)
    visitL2Step f ino i fuel
      { v with s := s, ld := v.ld.set 1 ld1, lm := v.lm.set 1 true, cb := cb }
  else if !r0 then do
    let (s, lm) ← dumpIndexTable v.s ino v.inode v.li v.lm v.ld 0
    let (s, lm) ← dumpIndexTable s ino v.inode v.li lm v.ld 1
    let s ← if lm.getD 0 false then set_inode s ino v.inode else .ok s
    let s ← if lm.getD 1 false then set_inode s ino v.inode else .ok s
    .ok (.stop (s, cb))
  else .ok (.next { v with cb := cb })

/-- The double-indirect loop body after the on-demand top-level index-block
load. -/
def visitL2StepRest (f : Nat → Nat → σ → Except String ((Bool × Bool) × σ))
    (ino i fuel : Nat) (v : LayerSt σ) :
    Except String (Flow (LayerSt σ) (RFSState × σ)) := do
  let layer_size := blockSize v.s / 4
  let offset := ((i - threshold v.s 1) / layer_size) <<< 2
  let slice ← subSlice (v.ld.getD 0 []) offset 4
  let block_number2 := u32FromBeBytes slice
  let v ←
    if v.li.getD 1 0 ≠ block_number2 ∧ block_number2 ≠ 0 then do
      let (s, lm) ← dumpIndexTable v.s ino v.inode v.li v.lm v.ld 1
      .ok { v with s := s, lm := lm,
                   ld := v.ld.set 1 (read_data_block s block_number2),
                   li := v.li.set 1 block_number2 }
    else .ok v
  let offset2 := ((i - 12) % layer_size) <<< 2
  let slice2 ← subSlice (v.ld.getD 1 []) offset2 4
  let block2 := u32FromBeBytes slice2
  let ((r0, r1), cb) ← f block2 i v.cb
  if r1 then do
    let v ←
      if block_number2 = 0 then do
        let (nb, s) ← allocate_block v.s
        let new_block := nb % 4294967296
        let layer_index_data := create_block_vec s
        let s ← write_data_block s new_block layer_index_data
        let ld0 ← writeBytes (v.ld.getD 0 []) offset (u32beBytes new_block)
        let ld := (v.ld.set 0 ld0).set 1 (read_data_block s new_block)
        .ok { v with s := s, ld := ld, lm := v.lm.set 0 true,
                     li := v.li.set 1 new_block }
      else .ok v
    let (nb, s) ← allocate_block v.s
    let new_block := nb % 4294967296
    let ld1 ← writeBytes (v.ld.getD 1 []) offset2 (u32beBytes new_block)
    visitL2Step f ino i fuel
      { v with s := s, ld := v.ld.set 1 ld1, lm := v.lm.set 1 true, cb := cb }
  else if !r0 then do
    let (s, lm) ← dumpIndexTable v.s ino v.inode v.li v.lm v.ld 0
    let (s, lm) ← dumpIndexTable s ino v.inode v.li lm v.ld 1
    let s ← if lm.getD 0 false then set_inode s ino v.inode else .ok s
    let s ← if lm.getD 1 false then set_inode s ino v.inode else .ok s
    .ok (.stop (s, cb))
  else .ok (.next { v with cb := cb })

/-- The continuation of the direct-region inner loop after the callback
invocation: the three-way dispatch on the callback's reply. -/
def visitDirectPost (f : Nat → Nat → σ → Except String ((Bool × Bool) × σ))
    (ino i fuel : Nat) (d : DirectSt σ) :
    (Bool × Bool) × σ → Except String (Flow (DirectSt σ) (RFSState × σ)) :=
  fun p => do
    let ((r0, r1), cb) := p
    if r1 then do
      let (new_block, s) ← allocate_block d.s
      let inode :=
        { d.inode with i_block := d.inode.i_block.set i (new_block % 4294967296) }
      visitDirectStep f ino i fuel
        { s := s, inode := inode, modified := true, cb := cb }
    else if !r0 then do
      let s ← if d.modified then set_inode d.s ino d.inode else .ok d.s
      .ok (.stop (s, cb))
    else .ok (.next { d with cb := cb })

/-- The continuation of the single-indirect inner loop after the callback
invocation, at first-level offset `offset`. -/
def visitL1Post (f : Nat → Nat → σ → Except String ((Bool × Bool) × σ))
    (ino i fuel offset : Nat) (v : LayerSt σ) :
    (Bool × Bool) × σ → Except String (Flow (LayerSt σ) (RFSState × σ)) :=
  fun p => do
    let ((r0, r1), cb) := p
    if r1 then do
      let (nb, s) ← allocate_block v.s
      let new_block := nb % 4294967296
      let ld0 ← writeBytes (v.ld.getD 0 []) offset (u32beBytes new_block)
      visitL1Step f ino i fuel
        { v with s := s, ld := v.ld.set 0 ld0, lm := v.lm.set 0 true, cb := cb }
    else if !r0 then do
      let (s, lm) ← dumpIndexTable v.s ino v.inode v.li v.lm v.ld 0
      let s ← if lm.getD 0 false then set_inode s ino v.inode else .ok s
      .ok (.stop (s, cb))
    else .ok (.next { v with cb := cb })

/-- The continuation of the double-indirect inner loop after the callback
invocation, with the mid-level index block `block_number2` and the two
pointer offsets. -/
def visitL2Post (f : Nat → Nat → σ → Except String ((Bool × Bool) × σ))
    (ino i fuel block_number2 offset offset2 : Nat) (v : LayerSt σ) :
    (Bool × Bool) × σ → Except String (Flow (LayerSt σ) (RFSState × σ)) :=
  fun p => do
    let ((r0, r1), cb) := p
    if r1 then do
      let v ←
        if block_number2 = 0 then do
          let (nb, s) ← allocate_block v.s
          let new_block := nb % 4294967296
          let layer_index_data := create_block_vec s
          let s ← write_data_block s new_block layer_index_data
          let ld0 ← writeBytes (v.ld.getD 0 []) offset (u32beBytes new_block)
          let ld := (v.ld.set 0 ld0).set 1 (read_data_block s new_block)
          .ok { v with s := s, ld := ld, lm := v.lm.set 0 true,
                       li := v.li.set 1 new_block }
        else .ok v
      let (nb, s) ← allocate_block v.s
      let new_block := nb % 4294967296
      let ld1 ← writeBytes (v.ld.getD 1 []) offset2 (u32beBytes new_block)
      visitL2Step f ino i fuel
        { v with s := s, ld := v.ld.set 1 ld1, lm := v.lm.set 1 true, cb := cb }
    else if !r0 then do
      let (s, lm) ← dumpIndexTable v.s ino v.inode v.li v.lm v.ld 0
      let (s, lm) ← dumpIndexTable s ino v.inode v.li lm v.ld 1
      let s ← if lm.getD 0 false then set_inode s ino v.inode else .ok s
      let s ← if lm.getD 1 false then set_inode s ino v.inode else .ok s
      .ok (.stop (s, cb))
    else .ok (.next { v with cb := cb })

/-- Invariant between visitor phases: the trace accumulated so far is either
empty with the next index at `start`, or a `(true, false)`-terminated
segment from `start` to `lo - 1`. -/
def PrefixTrace (start lo : Nat)
    (Δ0 : List ((Nat × Nat) × Bool × Bool)) : Prop :=
  (Δ0 = [] ∧ lo = start) ∨
  (SegT start (lo - 1) Δ0 (true, false) ∧ start ≤ lo - 1 ∧ 1 ≤ lo)

/-! ## Claim C10 — bitmap monotonicity across all operations -/

/-- The allocated-bit sets of both in-memory bitmaps only grow from `s` to
`t`. -/
def bitmapsGrow (s t : RFSState) : Prop :=
  (∀ k, bitTest s.bitmapInode k = true → bitTest t.bitmapInode k = true) ∧
  (∀ k, bitTest s.bitmapData k = true → bitTest t.bitmapData k = true)

/-- Bitmap growth from `s0` to the state carried by a direct-region flow
result. -/
def flowGrowD (s0 : RFSState) : Flow (DirectSt σ) (RFSState × σ) → Prop
  | .next d => bitmapsGrow s0 d.s
  | .stop r => bitmapsGrow s0 r.1

/-- Bitmap growth from `s0` to the state carried by a layer-loop flow
result. -/
def flowGrowL (s0 : RFSState) : Flow (LayerSt σ) (RFSState × σ) → Prop
  | .next v => bitmapsGrow s0 v.s
  | .stop r => bitmapsGrow s0 r.1

/-- The innermost triple-indirect loop body after its on-demand cache
reload. -/
def visitL3KRest (f : Nat → Nat → σ → Except String ((Bool × Bool) × σ))
    (block_index block n k : Nat) (v : LayerSt σ) :
    Except String (Flow (LayerSt σ) (RFSState × σ)) := do
  let layer_size := blockSize v.s / 4
  let offset := ((k - 12) % layer_size) <<< 2
  let slice ← subSlice (v.ld.getD 2 []) offset 4
  let block' := u32FromBeBytes slice
  let ((r0, _), cb) ← f block' k v.cb
  let v := { v with cb := cb }
  if !r0 then .ok (.stop (v.s, v.cb))
  else visitL3KLoop f block_index block n (k + 1) v

/-- The middle triple-indirect loop body after its on-demand cache
reload. -/
def visitL3JRest (f : Nat → Nat → σ → Except String ((Bool × Bool) × σ))
    (block_index block n j : Nat) (v : LayerSt σ) :
    Except String (Flow (LayerSt σ) (RFSState × σ)) := do
  let layer_size := blockSize v.s / 4
  let offset := (((j - 12) % layer_size) / layer_size) <<< 2
  let slice ← subSlice (v.ld.getD 1 []) offset 4
  let block' := u32FromBeBytes slice
  match ← visitL3KLoop f block_index block' layer_size j v with
  | .next v' => visitL3JLoop f block_index block n (j + 1) v'
  | .stop r => .ok (.stop r)

/-- The outer triple-indirect loop body after its on-demand cache reload. -/
def visitL3IRest (f : Nat → Nat → σ → Except String ((Bool × Bool) × σ))
    (block_index i : Nat) (is : List Nat) (v : LayerSt σ) :
    Except String (Flow (LayerSt σ) (RFSState × σ)) := do
  let layer_size := blockSize v.s / 4
  let offset := ((i - threshold v.s 1) <<< 2) / layer_size
  let slice ← subSlice (v.ld.getD 0 []) offset 4
  let block := u32FromBeBytes slice
  match ← visitL3JLoop f block_index block (layer_size * layer_size) i v with
  | .next v' => visitL3ILoop f block_index is v'
  | .stop r => .ok (.stop r)

/-- Final phase of `make_node`: write the two inodes back. -/
def makeNodeTail4 (ino_free parent : Nat) (inode_parent : Ext2INode)
    (p : RFSState × Ext2INode) :
    Except String ((Nat × Ext2INode) × RFSState) := do
  let (s, inode) := p
  let s ← set_inode s ino_free inode
  let s ← set_inode s parent inode_parent
  .ok ((ino_free, inode), s)

/-- `make_node` from the new-entry serialization on: write the entry into the
parent block, initialize the new node's first block, write both inodes. -/
def makeNodeTail3 (node_type : Ext2FileType)
    (block_size parent ino_free data_block_free : Nat)
    (inode inode_parent : Ext2INode) (entry : Ext2DirEntry)
    (last_block_i : Nat) (init_directory_done : Bool) (s : RFSState)
    (data_block : List Nat) (offset_cnt : Nat) :
    Except String ((Nat × Ext2INode) × RFSState) := do
  let old_rec_len := entry.rec_len
  let entry := { entry with rec_len := (block_size - offset_cnt) % 65536 }
  let bytes ← subSlice (dirEntryToBytes entry) 0 old_rec_len
  let data_block ← writeBytes data_block offset_cnt bytes
  let s ←
    write_data_block s (inode_parent.i_block.getD last_block_i 0) data_block
  let p ←
    match node_type with
    | .Directory =>
      if init_directory_done then .ok (s, inode)
      else do
        let (dir_block, inode') ←
          initDirectory block_size parent entry inode data_block_free
        let s ← write_data_block s data_block_free dir_block
        .ok (s, inode')
    | .RegularFile =>
      .ok (s, { inode with
                i_block := inode.i_block.set 0 (data_block_free % 4294967296) })
    | _ => .ok (s, inode)
  makeNodeTail4 ino_free parent inode_parent p

/-- `make_node` from the directory-entry placement on (everything after the
tuple carrying the parent state, parent inode, entry, block slot and the
init-done flag). -/
def makeNodeRest (node_type : Ext2FileType)
    (block_size parent ino_free data_block_free : Nat) (inode : Ext2INode)
    (t : RFSState × Ext2INode × Ext2DirEntry × Nat × Bool) :
    Except String ((Nat × Ext2INode) × RFSState) := do
  let (s, inode_parent, entry, last_block_i, init_directory_done) := t
  if last_block_i = 12 ∨ last_block_i = 13 ∨ last_block_i = 14 then
    .error "assert: indirect parent block unsupported"
  else do
    let parent_enties :=
      get_block_dir_entries s (inode_parent.i_block.getD last_block_i 0)
    let entries_lengths := parent_enties.map (fun e => e.rec_len)
    let n := entries_lengths.length
    let (offset_cnt, reset_last_rec_len) := entries_lengths.enum.foldl
      (fun (acc : Nat × Bool) (il : Nat × Nat) =>
        let (offset_cnt, reset) := acc
        let (i, len) := il
        if i ≠ n - 1 then (offset_cnt + len, reset)
        else
          let e := (parent_enties.getD i Ext2DirEntry.default)
          if (len : Int) - (8 + e.name_len : Int) ≥ (entry.rec_len : Int) then
            (offset_cnt + e.name_len + 8, true)
          else (offset_cnt + len, reset))
      (0, false)
    let (s, inode_parent, last_block_i, parent_enties, offset_cnt,
         reset_last_rec_len) ←
      if offset_cnt + entry.rec_len ≥ block_size then
        if last_block_i = 11 then .error "assert: parent directory full"
        else do
          let last_block_i := last_block_i + 1
          let (block_free, s) ← allocate_block s
          let inode_parent :=
            { inode_parent with
              i_block := inode_parent.i_block.set last_block_i
                (block_free % 4294967296) }
          let parent_enties := get_block_dir_entries s block_free
          let offset_cnt := (parent_enties.map (fun e => e.rec_len)).sum
          .ok (s, inode_parent, last_block_i, parent_enties, offset_cnt, false)
      else
        .ok (s, inode_parent, last_block_i, parent_enties, offset_cnt,
             reset_last_rec_len)
    let data_block :=
      read_data_block s (inode_parent.i_block.getD last_block_i 0)
    let (data_block, offset_cnt) ←
      if reset_last_rec_len then do
        let tail := parent_enties.length - 1
        let lastE := parent_enties.getD tail Ext2DirEntry.default
        let old_len := lastE.rec_len
        let offset_start := block_size - old_len
        let lastE :=
          { lastE with rec_len := up_align (lastE.name_len + 8) 4 % 65536 }
        let bytes ← subSlice (dirEntryToBytes lastE) 0 lastE.rec_len
        let offset_next := offset_start + lastE.rec_len
        let data_block ← writeBytes data_block offset_start bytes
        .ok (data_block, offset_next)
      else .ok (data_block, offset_cnt)
    makeNodeTail3 node_type block_size parent ino_free data_block_free
      inode inode_parent entry last_block_i init_directory_done
      s data_block offset_cnt

/-- One mounted-filesystem operation, covering every state-touching call the
FUSE layer (`fuse.rs`, `impl Filesystem for RFS`) dispatches into the
embedded library: `getattr`, `setattr`, `lookup`, `readdir`, `read`,
`write`, and node creation (`mknod` / `mkdir`, both via `make_node`). -/
inductive FsOp where
  | getattr (ino : Nat)
  | setattr (ino : Nat)
      (mode uid gid size atime mtime chgtime bkuptime flags : Option Nat)
  | lookup (parent : Nat) (name : List Nat)
  | readdir (ino offset : Nat)
  | read (ino offset size fuel : Nat)
  | write (ino offset : Nat) (data : List Nat) (fuel : Nat)
  | mknode (parent : Nat) (name : List Nat) (mode : Nat)
      (node_type : Ext2FileType) (now : Nat)

/-- Run one operation, keeping only the filesystem state. -/
def applyOp (s : RFSState) : FsOp → Except String RFSState
  | .getattr ino => do
    let (_, s') ← rfs_getattr s ino
    .ok s'
  | .setattr ino mode uid gid size atime mtime chgtime bkuptime flags => do
    let (_, s') ← rfs_setattr s ino mode uid gid size atime mtime chgtime
      bkuptime flags
    .ok s'
  | .lookup parent name => do
    let (_, s') ← rfs_lookup s parent name
    .ok s'
  | .readdir ino offset => do
    let (_, s') ← rfs_readdir s ino offset
    .ok s'
  | .read ino offset size fuel => do
    let (_, s') ← rfs_read s ino offset size fuel
    .ok s'
  | .write ino offset data fuel => do
    let (_, s') ← rfs_write s ino offset data fuel
    .ok s'
  | .mknode parent name mode node_type now => do
    let (_, s') ← make_node s parent name mode node_type now
    .ok s'

/-- Run a sequence of operations after mount. -/
def runOps (s : RFSState) : List FsOp → Except String RFSState
  | [] => .ok s
  | op :: rest => do
    let s' ← applyOp s op
    runOps s' rest

theorem natLenAux_eq (l : List Nat) : ∀ acc, natLenAux l acc = l.length + acc := by
  induction l with
  | nil => intro acc; simp [natLenAux]
  | cons a as ih => intro acc; simp [natLenAux, ih]; omega

/-- The tail-recursive length agrees with `List.length`. -/
theorem natLen_eq (l : List Nat) : natLen l = l.length := by
  simp [natLen, natLenAux_eq]

/-! ## Claim C3 — inode addressing -/

/-- Claim C3 (counterexample): with the default layout (P = 8 inode records
per block, table at block 5), inode numbers 1 and 2 address the same record
slot, and inode 1 is not at the claimed slot `(table + ⌊0/P⌋, (0 mod P)·128)`
= `(5, 0)` but at `(5, 128)`.  This refutes both the claimed formula at n = 1
and the claimed distinctness of slots. -/
theorem c3_counterexample :
    fetch_inode_block_offset baseState 1 = fetch_inode_block_offset baseState 2 ∧
    fetch_inode_block_offset baseState 1 ≠ (baseState.bgInodeTable + 0 / 8, 0 % 8 * EXT2_INODE_SIZE) := by
  decide

/-- Claim C3 (amended): for inode numbers n ≥ 2 the source computes the slot
`(inode_table_start + ⌊(n−1)/P⌋, ((n−1) mod P)·sizeof(inode-record))` with
`P = S_b / sizeof(inode-record)`, and distinct inode numbers ≥ 2 address
distinct slots; inode numbers 0 and 1 are instead passed through unshifted,
so inodes 1 and 2 collide. -/
theorem c3_inode_addressing (s : RFSState) (m n : Nat) (hm : 2 ≤ m)
    (hn : 2 ≤ n) :
    fetch_inode_block_offset s m =
      (s.bgInodeTable + (m - 1) / (blockSize s / EXT2_INODE_SIZE),
       (m - 1) % (blockSize s / EXT2_INODE_SIZE) * EXT2_INODE_SIZE) ∧
    (m ≠ n →
      fetch_inode_block_offset s m ≠ fetch_inode_block_offset s n) := by
  have hP8 : blockSize s / EXT2_INODE_SIZE = (1 <<< s.sLogBlockSize) * 8 := by
    show (1 <<< s.sLogBlockSize) * 1024 / 128 = (1 <<< s.sLogBlockSize) * 8
    rw [Nat.mul_div_assoc _ (by norm_num : (128 : Nat) ∣ 1024)]
  have hP : 0 < blockSize s / EXT2_INODE_SIZE := by
    rw [hP8, Nat.one_shiftLeft]
    exact Nat.mul_pos (Nat.two_pow_pos _) (by norm_num)
  have hfetch : ∀ k, 2 ≤ k → fetch_inode_block_offset s k =
      (s.bgInodeTable + (k - 1) / (blockSize s / EXT2_INODE_SIZE),
       (k - 1) % (blockSize s / EXT2_INODE_SIZE) * EXT2_INODE_SIZE) := by
    intro k hk
    unfold fetch_inode_block_offset
    have : ¬ k ≤ 1 := by omega
    simp only [this, if_false]
    rw [Nat.add_comm]
  refine ⟨hfetch m hm, fun hmn heq => ?_⟩
  rw [hfetch m hm, hfetch n hn, Prod.mk.injEq] at heq
  obtain ⟨h1, h2⟩ := heq
  have hdiv : (m - 1) / (blockSize s / EXT2_INODE_SIZE) =
      (n - 1) / (blockSize s / EXT2_INODE_SIZE) := by omega
  have hmod : (m - 1) % (blockSize s / EXT2_INODE_SIZE) =
      (n - 1) % (blockSize s / EXT2_INODE_SIZE) :=
    Nat.eq_of_mul_eq_mul_right (show 0 < EXT2_INODE_SIZE by decide) h2
  have h3 := Nat.div_add_mod (m - 1) (blockSize s / EXT2_INODE_SIZE)
  have h4 := Nat.div_add_mod (n - 1) (blockSize s / EXT2_INODE_SIZE)
  rw [hdiv, hmod] at h3
  omega

/-- Witness for the amended C3 theorem at the default layout, inodes 2, 3. -/
theorem c3_inode_addressing_witness :
    (2 : Nat) ≤ 2 ∧ (2 : Nat) ≤ 3 ∧
    fetch_inode_block_offset baseState 2 =
      (baseState.bgInodeTable + (2 - 1) / (blockSize baseState / EXT2_INODE_SIZE),
       (2 - 1) % (blockSize baseState / EXT2_INODE_SIZE) * EXT2_INODE_SIZE) ∧
    fetch_inode_block_offset baseState 2 ≠ fetch_inode_block_offset baseState 3 :=
  ⟨by decide, by decide,
    (c3_inode_addressing baseState 2 3 (by decide) (by decide)).1,
    (c3_inode_addressing baseState 2 3 (by decide) (by decide)).2 (by decide)⟩

/-! ## Claim C7 — directory-entry record length -/

/-- First-zero scan of a padded name buffer: with no zero byte in `name` and
at least one padding zero behind it, the scan returns `name.length`. -/
theorem findIdx_zero_padded_aux (name rest : List Nat) (h0 : 0 ∉ name) :
    ∀ i, List.findIdx? (fun x => x == 0) (name ++ 0 :: rest) i =
      some (i + name.length) := by
  induction name with
  | nil => intro i; simp [List.findIdx?]
  | cons a as ih =>
    intro i
    have ha : a ≠ 0 := fun h => h0 (h ▸ List.mem_cons_self a as)
    have has : 0 ∉ as := fun h => h0 (List.mem_cons_of_mem a h)
    simp only [List.cons_append, List.findIdx?_cons, beq_iff_eq, ha, if_false,
      ih has (i + 1)]
    congr 1
    simp
    omega

/-- The scan at start index 0. -/
theorem findIdx_zero_padded (name rest : List Nat) (h0 : 0 ∉ name) :
    (name ++ 0 :: rest).findIdx? (· == 0) = some name.length := by
  simpa using findIdx_zero_padded_aux name rest h0 0

/-- Arithmetic form of `up_align` at alignment log 2. -/
theorem up_align_two (v : Nat) : up_align v 2 = (v / 4 + 1) * 4 := by
  simp [up_align, Nat.shiftRight_eq_div_pow, Nat.shiftLeft_eq]

/-- Claim C7 (counterexample): a 4-byte name ("abcd") gets
`rec_len = 16`, not its natural aligned length `align4(8 + 4) = 12`: the
source's `up_align` always advances to the *next* multiple of 4. -/
theorem c7_counterexample :
    (Ext2DirEntry.new [97, 98, 99, 100] 5 1).map (fun e => e.rec_len) =
      Except.ok 16 ∧ (8 + 4 + 3) / 4 * 4 = 12 ∧ (16 : Nat) ≠ 12 := by
  decide

/-- Claim C7 (amended): for a fresh entry whose name has no interior NUL and
fewer than 255 bytes, the formatter sets `rec_len` to the smallest multiple
of 4 *strictly greater* than `8 + name_len` (i.e. `((8+name_len)/4 + 1)·4`);
in particular every `rec_len` is 4-aligned. -/
theorem c7_rec_len (name : List Nat) (ino ft : Nat) (h0 : 0 ∉ name)
    (h1 : name.length < 255) :
    (Ext2DirEntry.new name ino ft).map (fun e => e.rec_len) =
      Except.ok (((8 + name.length) / 4 + 1) * 4) ∧
    ((8 + name.length) / 4 + 1) * 4 % 4 = 0 ∧
    8 + name.length < ((8 + name.length) / 4 + 1) * 4 := by
  refine ⟨?_, by omega, by omega⟩
  have h255 : name.length < EXT2_NAME_LEN := h1
  have hlen255 : EXT2_NAME_LEN = 255 := rfl
  have hpadsplit : (List.replicate EXT2_NAME_LEN 0).drop name.length =
      0 :: List.replicate (EXT2_NAME_LEN - name.length - 1) 0 := by
    rw [List.drop_replicate]
    have hk : EXT2_NAME_LEN - name.length =
        (EXT2_NAME_LEN - name.length - 1) + 1 := by omega
    conv_lhs => rw [hk]
    rw [List.replicate_succ]
  unfold Ext2DirEntry.new Ext2DirEntry.update_name
  simp only [h255, if_true, hpadsplit]
  unfold Ext2DirEntry.update_rec_len Ext2DirEntry.nameLenScan
  simp only [findIdx_zero_padded name _ h0, Except.map]
  congr 1
  rw [show 4 + 2 + 1 + 1 + name.length = 8 + name.length from by omega,
    up_align_two]
  exact Nat.mod_eq_of_lt (by omega)

/-- Witness for the amended C7 theorem at the one-byte name "x". -/
theorem c7_rec_len_witness :
    (0 : Nat) ∉ [120] ∧ ([120] : List Nat).length < 255 ∧
    (Ext2DirEntry.new [120] 7 1).map (fun e => e.rec_len) =
      Except.ok (((8 + ([120] : List Nat).length) / 4 + 1) * 4) :=
  ⟨by decide, by decide, (c7_rec_len [120] 7 1 (by decide) (by decide)).1⟩

/-! ## Claim C9 — setattr size storage -/

set_option maxRecDepth 10000 in
/-- Claim C9 (code bug): `rfs_setattr` with `size = Some 65536` stores
`65536 & 0xFFFF = 0` in `i_size` (a 16-bit mask where the low 32 bits were
intended) and `0` in `i_size_high`, so the returned attributes report size 0,
not 65536. -/
theorem c9_setattr_size_bug :
    (rfs_setattr baseState 2 none none none (some 65536) none none none none
        none).map (fun p => (p.1.i_size, p.1.i_size_high)) =
      Except.ok (0, 0) ∧ (65536 : Nat) ≠ 0 := by
  constructor
  · decide
  · decide

set_option maxRecDepth 100000 in
/-- Claim C5 (counterexample): reading 2048 bytes of a file whose block 0 is
a hole and whose block 1 holds 0xAA-bytes returns the 0xAA block *first*
(at offset 0) followed by zeros — the hole contributed nothing and the
subsequent block was shifted down — whereas the claim requires zeros first
and the 0xAA block at its unshifted position 1024. -/
theorem c5_counterexample :
    (rfs_read s5c 2 0 2048 1).map (fun p => (p.1.take 1024, p.1.drop 1024)) =
      Except.ok (blockA, List.replicate 1024 0) ∧
    ((claimReadData s5c 2 0 2048).take 1024,
     (claimReadData s5c 2 0 2048).drop 1024) =
      (List.replicate 1024 0, blockA) ∧
    blockA ≠ List.replicate 1024 0 := by
  refine ⟨by decide, by decide, by decide⟩

set_option maxRecDepth 100000 in
/-- Claim C5 (amended): a resolved physical block number 0 contributes no
bytes at all — the visitor skips it and subsequently allocated blocks are
compacted to the positions immediately after the previously delivered data,
while the undelivered tail of the buffer stays zero.  Shown on the
hole-then-data file: the visitor yields only block 7 and the read returns
that block's bytes at offset 0 followed by a zero tail. -/
theorem c5_read_compaction :
    (visit_blocks_inode (rfsReadCb 0 2048 1024 4194304) s5c 2 0
        { blocks := [], last_index := 0, last_block := 0 } 1).map
      (fun p => p.2.blocks) = Except.ok [7] ∧
    (rfs_read s5c 2 0 2048 1).map (fun p => (p.1.take 1024, p.1.drop 1024)) =
      Except.ok (blockA, List.replicate 1024 0) := by
  refine ⟨by decide, by decide⟩

set_option maxRecDepth 100000 in
/-- Claim C2 (counterexample): on a directory whose single-indirect block
reaches an entry with inode 5, `get_dir_entries` returns only the entries of
the direct block (inodes 2, 2) while the claimed reading also includes the
indirect entry (inodes 2, 2, 5). -/
theorem c2_counterexample :
    (get_dir_entries s2c 2).map (List.map (fun e => e.inode)) =
      Except.ok [2, 2] ∧
    (claimDirEntriesRead s2c 2).map (List.map (fun e => e.inode)) =
      Except.ok [2, 2, 5] ∧
    ([2, 2] : List Nat) ≠ [2, 2, 5] := by
  refine ⟨by decide, by decide, by decide⟩

/-- Claim C2 (amended): directory reading concatenates, over only the 12
direct block pointers in order (indirect pointers are never consulted), the
entries decoded within each block by the running-offset rule, stopping at the
first record with `inode == 0`, `inode ≥ N_i` or `rec_len == 0`; pointer
value 0 contributes nothing. -/
theorem c2_direct_blocks_only (s : RFSState) (ino : Nat) :
    get_dir_entries s ino = specDirectDirRead s ino := by
  unfold get_dir_entries specDirectDirRead
  by_cases h : (get_inode s ino).i_mode >>> 12 ≠ 4
  · simp [h]
  · simp [h, List.flatten_filter_not_isEmpty]

/-! ## Claim C4 — inode allocation -/

/-- Indexing into a dropped list. -/
theorem getElem?_drop' (l : List α) : ∀ i j, (l.drop i)[j]? = l[i + j]? := by
  induction l with
  | nil => intro i j; simp
  | cons a as ih =>
    intro i j
    cases i with
    | zero => simp
    | succ i => simpa [Nat.succ_add] using ih i j

/-- Specification of `find?` over a suffix of `range n`: the found element
satisfies the predicate, lies in `[r, n)`, and every smaller candidate from
`r` on fails the predicate. -/
theorem find?_range_drop_spec (p : Nat → Bool) (n r i : Nat)
    (h : ((List.range n).drop r).find? p = some i) :
    p i = true ∧ r ≤ i ∧ i < n ∧ ∀ k, r ≤ k → k < i → p k = false := by
  rw [List.find?_eq_some] at h
  obtain ⟨hp, as, bs, heq, hall⟩ := h
  have hlens : as.length + (bs.length + 1) = n - r := by
    have := congrArg List.length heq
    simp [List.length_append] at this
    omega
  have hrn : r + as.length < n := by
    have h0 : ¬ ((List.range n).drop r = []) := by
      rw [heq]; simp
    have : n - r ≠ 0 := by
      intro hz
      exact h0 (by simp [List.drop_eq_nil_iff, hz]; omega)
    omega
  have h4 : i = r + as.length := by
    have h1 : ((List.range n).drop r)[as.length]? = some i := by
      rw [heq, List.getElem?_append_right (Nat.le_refl _)]
      simp
    rw [getElem?_drop', List.getElem?_range hrn] at h1
    exact (Option.some.inj h1).symm
  refine ⟨hp, by omega, by omega, fun k hrk hki => ?_⟩
  have ht : k - r < as.length := by omega
  have h6 : ((List.range n).drop r)[k - r]? = some k := by
    rw [getElem?_drop', List.getElem?_range (by omega)]
    congr 1
    omega
  rw [heq, List.getElem?_append_left ht] at h6
  have hmem : k ∈ as := List.getElem?_mem h6
  simpa using hall k hmem

/-- Specification of `byteFirstZero`: the returned bit position holds a zero
bit, is below 8, and all lower bit positions hold one bits. -/
theorem byteFirstZero_spec (b j : Nat) (h : byteFirstZero b = some j) :
    (b >>> j) &&& 1 = 0 ∧ j < 8 ∧ ∀ j', j' < j → (b >>> j') &&& 1 = 1 := by
  unfold byteFirstZero at h
  have h' : ((List.range 8).drop 0).find? (fun j => (b >>> j) &&& 1 = 0) =
      some j := by simpa using h
  obtain ⟨hp, _, hlt, hmin⟩ := find?_range_drop_spec _ 8 0 j h'
  refine ⟨by simpa using hp, hlt, fun j' hj' => ?_⟩
  have hne := hmin j' (Nat.zero_le _) hj'
  simp at hne
  have hx : (b >>> j') &&& 1 = (b >>> j') % 2 := Nat.and_one_is_mod _
  omega

/-- No zero bit in a byte whose search fails. -/
theorem byteFirstZero_none (b : Nat) (h : byteFirstZero b = none) :
    ∀ j, j < 8 → (b >>> j) &&& 1 = 1 := by
  unfold byteFirstZero at h
  rw [List.find?_eq_none] at h
  intro j hj
  have hne := h j (List.mem_range.mpr hj)
  simp at hne
  have hx : (b >>> j) &&& 1 = (b >>> j) % 2 := Nat.and_one_is_mod _
  omega

/-- First-fit specification of `bitmap_search`: a returned (1-based) index
`n` denotes a zero bit at 0-based position `n - 1`, at or after byte
`reserved`, with every bit from `8·reserved` up to it set. -/
theorem bitmap_search_spec (bm : List Nat) (reserved n : Nat)
    (h : bitmap_search bm reserved = .ok n) :
    1 ≤ n ∧ 8 * reserved ≤ n - 1 ∧ n - 1 < 8 * bm.length ∧
    bitTest bm (n - 1) = false ∧
    ∀ k, 8 * reserved ≤ k → k < n - 1 → bitTest bm k = true := by
  unfold bitmap_search at h
  set p := fun i => (byteFirstZero (getByte bm i)).isSome with hp
  cases hfind : ((List.range (natLen bm)).drop reserved).find? p with
  | none => rw [hfind] at h; exact absurd h (by simp)
  | some i =>
    rw [hfind] at h
    obtain ⟨hpi, hri, hin, hmin⟩ := find?_range_drop_spec p (natLen bm) reserved i hfind
    cases hbyte : byteFirstZero (getByte bm i) with
    | none => rw [hp] at hpi; simp [hbyte] at hpi
    | some j =>
      have h2 : (match byteFirstZero (getByte bm i) with
          | some j => Except.ok (i * 8 + j + 1)
          | none => (Except.error "Bitmap full!" : Except String Nat)) =
          Except.ok n := h
      rw [hbyte] at h2
      have hn : n = i * 8 + j + 1 := by
        have := Except.ok.inj h2
        omega
      obtain ⟨hz, hj8, hlow⟩ := byteFirstZero_spec _ _ hbyte
      rw [natLen_eq] at hin
      refine ⟨by omega, by omega, by omega, ?_, ?_⟩
      · have hdiv : (n - 1) / 8 = i := by omega
        have hmod : (n - 1) % 8 = j := by omega
        simp only [bitTest, hdiv, hmod]
        simp [hz]
      · intro k h8r hk
        have hk8 : k % 8 < 8 := Nat.mod_lt _ (by norm_num)
        by_cases hki : k / 8 = i
        · have : k % 8 < j := by omega
          have := hlow _ this
          simp only [bitTest, hki]
          simp [this]
        · have hklt : k / 8 < i := by omega
          have hkr : reserved ≤ k / 8 := by omega
          have hfail := hmin (k / 8) hkr hklt
          simp only [hp] at hfail
          have hnone : byteFirstZero (getByte bm (k / 8)) = none := by
            cases hx : byteFirstZero (getByte bm (k / 8)) with
            | none => rfl
            | some _ => rw [hx] at hfail; simp at hfail
          have hone := byteFirstZero_none _ hnone (k % 8) hk8
          simp only [bitTest]
          simp [hone]

set_option maxRecDepth 40000 in
/-- Claim C4 (counterexample): on the freshly formatted state whose
`s_free_inodes_count` (8192) equals the number of zero bits of the inode
bitmap, a successful `allocate_inode` returns inode 97, flips one bit (the
zero-bit count drops to 8191), but leaves `s_free_inodes_count` at 8192 —
it is never decremented, so afterwards it no longer equals the number of
zero bits. -/
theorem c4_counterexample :
    (allocate_inode baseState).map
      (fun p => [p.1, p.2.sFreeInodesCount, zeroBitCount p.2.bitmapInode]) =
      Except.ok [97, 8192, 8191] ∧
    zeroBitCount baseState.bitmapInode = 8192 ∧
    baseState.sFreeInodesCount = 8192 ∧ (8192 : Nat) ≠ 8191 := by
  refine ⟨by decide, by decide, by decide, by decide⟩

/-- Every successful `write_data_block` only replaces the contents of one
disk block. -/
theorem write_data_block_shape (s : RFSState) (b : Nat) (buf : List Nat)
    (s2 : RFSState) (h : write_data_block s b buf = .ok s2) :
    ∃ content, s2 = setDisk s b content := by
  unfold write_data_block at h
  by_cases h1 : natLen buf ≤ blockSize s
  · rw [if_pos h1] at h
    by_cases h2 : natLen buf % blockSize s = 0
    · rw [if_pos h2] at h
      exact ⟨buf, (Except.ok.inj h).symm⟩
    · rw [if_neg h2] at h
      simp only [] at h
      cases hw : writeBytes (read_data_block s b) 0 buf with
      | error e => rw [hw, exceptBindError] at h; simp at h
      | ok merged =>
        rw [hw, exceptBindOk] at h
        exact ⟨merged, (Except.ok.inj h).symm⟩
  · rw [if_neg h1] at h
    simp at h

/-- Claim C4 (amended): a successful `allocate_inode` finds the first zero
bit of the inode bitmap after the reserved byte prefix `s_first_ino + 1`
(bytes in order, bits LSB-first), sets that bit, writes the bitmap block
back to the device, and returns the 1-based bit index — but it leaves
`s_free_inodes_count` unchanged (and `allocate_block` likewise leaves
`s_free_blocks_count` unchanged), so the free counters do not track the
bitmaps. -/
theorem c4_allocate_inode (s : RFSState) (n : Nat) (s' : RFSState)
    (hlen : s.bitmapInode.length = blockSize s)
    (h : allocate_inode s = .ok (n, s')) :
    (1 ≤ n ∧ 8 * (s.sFirstIno + 1) ≤ n - 1 ∧
     bitTest s.bitmapInode (n - 1) = false ∧
     ∀ k, 8 * (s.sFirstIno + 1) ≤ k → k < n - 1 →
       bitTest s.bitmapInode k = true) ∧
    s'.bitmapInode = bitmap_set s.bitmapInode n ∧
    s'.disk s.bgInodeBitmap = bitmap_set s.bitmapInode n ∧
    s'.sFreeInodesCount = s.sFreeInodesCount ∧
    s'.sFreeBlocksCount = s.sFreeBlocksCount ∧
    (∀ t n2 t', allocate_block t = .ok (n2, t') →
      t'.sFreeBlocksCount = t.sFreeBlocksCount ∧
      t'.sFreeInodesCount = t.sFreeInodesCount) := by
  have hblock : ∀ t n2 t', allocate_block t = .ok (n2, t') →
      t'.sFreeBlocksCount = t.sFreeBlocksCount ∧
      t'.sFreeInodesCount = t.sFreeInodesCount := by
    intro t n2 t' ht
    rw [allocate_block, allocate_bitmap] at ht
    cases hsearch2 : bitmap_search t.bitmapData
        (1 + 1 + 1 + 1 + 1 + t.sInodesCount / EXT2_INODE_SIZE + 1) with
    | error e => simp [hsearch2, Except.bind] at ht
    | ok m =>
      simp only [if_true, hsearch2, exceptBindOk] at ht
      cases hw : write_data_block
          { t with bitmapData := bitmap_set t.bitmapData m }
          t.bgBlockBitmap (bitmap_set t.bitmapData m) with
      | error e => rw [hw, exceptBindError] at ht; simp at ht
      | ok t2 =>
        rw [hw, exceptBindOk] at ht
        obtain ⟨content, hshape⟩ := write_data_block_shape _ _ _ _ hw
        have h2 := Except.ok.inj ht
        have ht' : t2 = t' := congrArg Prod.snd h2
        rw [← ht', hshape]
        exact ⟨rfl, rfl⟩
  cases hsearch : bitmap_search s.bitmapInode (s.sFirstIno + 1) with
  | error e =>
    rw [allocate_inode, allocate_bitmap] at h
    simp [hsearch, Except.bind] at h
  | ok n0 =>
    obtain ⟨h1, h2, h3, h4, h5⟩ := bitmap_search_spec _ _ _ hsearch
    have hsetlen : natLen (bitmap_set s.bitmapInode n0) = blockSize s := by
      rw [natLen_eq]
      simp [bitmap_set, hlen]
    have hwrite : write_data_block
        { s with bitmapInode := bitmap_set s.bitmapInode n0 }
        s.bgInodeBitmap (bitmap_set s.bitmapInode n0) =
        .ok (setDisk { s with bitmapInode := bitmap_set s.bitmapInode n0 }
          s.bgInodeBitmap (bitmap_set s.bitmapInode n0)) := by
      unfold write_data_block
      have hbs : blockSize
          { s with bitmapInode := bitmap_set s.bitmapInode n0 } =
          blockSize s := rfl
      rw [hbs, hsetlen]
      simp [Nat.mod_self]
    rw [allocate_inode, allocate_bitmap] at h
    simp only [hsearch, exceptBindOk, Bool.false_eq_true, if_false] at h
    rw [hwrite, exceptBindOk] at h
    have hinj := Except.ok.inj h
    have hn : n0 = n := congrArg Prod.fst hinj
    have hs : s' = setDisk { s with bitmapInode := bitmap_set s.bitmapInode n0 }
        s.bgInodeBitmap (bitmap_set s.bitmapInode n0) :=
      (congrArg Prod.snd hinj).symm
    subst hn
    refine ⟨⟨h1, h2, h4, h5⟩, ?_, ?_, ?_, ?_, hblock⟩
    · rw [hs]; rfl
    · rw [hs]; simp [setDisk]
    · rw [hs]; rfl
    · rw [hs]; rfl

set_option maxRecDepth 40000 in
/-- Witness for `c4_allocate_inode` on the freshly formatted state. -/
theorem c4_allocate_inode_witness :
    baseState.bitmapInode.length = blockSize baseState ∧
    allocate_inode baseState = Except.ok (97, c4ResultState) ∧
    ((1 ≤ 97 ∧ 8 * (baseState.sFirstIno + 1) ≤ 97 - 1 ∧
      bitTest baseState.bitmapInode (97 - 1) = false ∧
      ∀ k, 8 * (baseState.sFirstIno + 1) ≤ k → k < 97 - 1 →
        bitTest baseState.bitmapInode k = true) ∧
     c4ResultState.bitmapInode = bitmap_set baseState.bitmapInode 97 ∧
     c4ResultState.disk baseState.bgInodeBitmap =
       bitmap_set baseState.bitmapInode 97 ∧
     c4ResultState.sFreeInodesCount = baseState.sFreeInodesCount ∧
     c4ResultState.sFreeBlocksCount = baseState.sFreeBlocksCount ∧
     (∀ t n2 t', allocate_block t = .ok (n2, t') →
       t'.sFreeBlocksCount = t.sFreeBlocksCount ∧
       t'.sFreeInodesCount = t.sFreeInodesCount)) := by
  have hlen : baseState.bitmapInode.length = blockSize baseState := by decide
  have hrun : allocate_inode baseState = Except.ok (97, c4ResultState) := by rfl
  exact ⟨hlen, hrun, c4_allocate_inode baseState 97 c4ResultState hlen hrun⟩

/-! ## Claim C8 — visitor range errors -/

/-- `block_size()` is an exact multiple of 4. -/
theorem blockSize_div4_mul (s : RFSState) : blockSize s / 4 * 4 = blockSize s := by
  have h : blockSize s = 2 ^ s.sLogBlockSize * 1024 := by
    simp [blockSize, Nat.shiftLeft_eq]
  rw [h, Nat.mul_div_assoc _ (by norm_num : (4:Nat) ∣ 1024)]
  norm_num
  rw [Nat.mul_assoc]

/-- The pointer count per index block is at least 256. -/
theorem blockSize_div4_ge (s : RFSState) : 256 ≤ blockSize s / 4 := by
  have h : blockSize s = 2 ^ s.sLogBlockSize * 1024 := by
    simp [blockSize, Nat.shiftLeft_eq]
  rw [h, Nat.mul_div_assoc _ (by norm_num : (4:Nat) ∣ 1024)]
  have h2 : (1024:Nat) / 4 = 256 := by norm_num
  rw [h2]
  exact Nat.le_mul_of_pos_left 256 (Nat.two_pow_pos _)

/-- `block_size()` is an exact multiple of the inode record size. -/
theorem blockSize_div128_mul (s : RFSState) :
    blockSize s / 128 * 128 = blockSize s := by
  have h : blockSize s = 2 ^ s.sLogBlockSize * 1024 := by
    simp [blockSize, Nat.shiftLeft_eq]
  rw [h, Nat.mul_div_assoc _ (by norm_num : (128:Nat) ∣ 1024)]
  norm_num
  rw [Nat.mul_assoc]

/-- Every block holds at least one inode record. -/
theorem blockSize_div128_pos (s : RFSState) : 0 < blockSize s / 128 := by
  have h : blockSize s = 2 ^ s.sLogBlockSize * 1024 := by
    simp [blockSize, Nat.shiftLeft_eq]
  rw [h, Nat.mul_div_assoc _ (by norm_num : (128:Nat) ∣ 1024)]
  have h2 : (1024:Nat) / 128 = 8 := by norm_num
  rw [h2]
  exact Nat.mul_pos (Nat.two_pow_pos _) (by norm_num)

/-- The serialized inode record is exactly 128 bytes. -/
theorem inodeToBytes_length (n : Ext2INode) : (inodeToBytes n).length = 128 := by
  simp [inodeToBytes, u16leBytes, u32leBytes, List.range_succ]

/-- Replacing one disk block with a full block preserves the all-blocks
length invariant. -/
theorem setDisk_len (s : RFSState) (bn : Nat) (buf : List Nat)
    (hlen : ∀ b, (s.disk b).length = blockSize s)
    (hbuf : buf.length = blockSize s) :
    ∀ b, ((setDisk s bn buf).disk b).length = blockSize (setDisk s bn buf) := by
  intro b
  show (if b = bn then buf else s.disk b).length = blockSize s
  split
  · exact hbuf
  · exact hlen b

/-- On a state whose disk blocks all have full block length, `set_inode`
succeeds and only replaces the inode's enclosing block, with a full-length
buffer. -/
theorem set_inode_ok (s : RFSState) (ino : Nat) (inode : Ext2INode)
    (hlen : ∀ b, (s.disk b).length = blockSize s) :
    ∃ buf, set_inode s ino inode =
        .ok (setDisk s (fetch_inode_block_offset s ino).1 buf) ∧
      buf.length = blockSize s := by
  have hP : 0 < blockSize s / 128 := blockSize_div128_pos s
  have hPm : blockSize s / 128 * 128 = blockSize s := blockSize_div128_mul s
  have hoffle : (fetch_inode_block_offset s ino).2 + 128 ≤ blockSize s := by
    show (if ino ≤ 1 then ino else ino - 1) % (blockSize s / EXT2_INODE_SIZE) *
        EXT2_INODE_SIZE + 128 ≤ blockSize s
    have hm : (if ino ≤ 1 then ino else ino - 1) % (blockSize s / 128) <
        blockSize s / 128 := Nat.mod_lt _ hP
    show (if ino ≤ 1 then ino else ino - 1) % (blockSize s / 128) * 128 + 128 ≤
        blockSize s
    omega
  set bn := (fetch_inode_block_offset s ino).1 with hbn
  set off := (fetch_inode_block_offset s ino).2 with hoff
  have hwb : writeBytes (read_data_block s bn) off (inodeToBytes inode) =
      .ok ((read_data_block s bn).take off ++ inodeToBytes inode ++
        (read_data_block s bn).drop (off + natLen (inodeToBytes inode))) := by
    unfold writeBytes
    rw [if_pos]
    rw [natLen_eq, natLen_eq, inodeToBytes_length]
    show off + 128 ≤ (s.disk bn).length
    rw [hlen bn]
    exact hoffle
  have hbuflen : ((read_data_block s bn).take off ++ inodeToBytes inode ++
      (read_data_block s bn).drop (off + natLen (inodeToBytes inode))).length =
      blockSize s := by
    have h1 : (read_data_block s bn).length = blockSize s := hlen bn
    simp only [List.length_append, List.length_take, List.length_drop,
      natLen_eq, inodeToBytes_length, h1]
    omega
  refine ⟨_, ?_, hbuflen⟩
  show (do
    let buf' ← writeBytes (read_data_block s bn) off (inodeToBytes inode)
    write_data_block s bn buf') = _
  rw [hwb, exceptBindOk]
  unfold write_data_block
  rw [natLen_eq, hbuflen]
  rw [if_pos (Nat.le_refl _), if_pos (Nat.mod_self _)]

/-- `dump_index_table!` with an unmodified cache slot reduces to the inode
rewrite alone. -/
theorem dumpIndexTable_unmodified (s : RFSState) (ino : Nat) (inode : Ext2INode)
    (li : List Nat) (lm : List Bool) (ld : List (List Nat)) (l : Nat)
    (s' : RFSState) (hlm : lm.getD l false = false)
    (hset : set_inode s ino inode = .ok s') :
    dumpIndexTable s ino inode li lm ld l = .ok (s', lm) := by
  unfold dumpIndexTable
  rw [hset, exceptBindOk, if_neg]
  intro hcon
  rw [hlm] at hcon
  exact Bool.false_ne_true hcon.1

/-- A `range_step` list over a nonempty range starts at its lower bound. -/
theorem rangeStepList_cons (a b step : Nat) (hab : 0 < b - a) (hstep : 0 < step) :
    ∃ rest, rangeStepList a b step = a :: rest := by
  have hnum : step ≤ b - a + step - 1 := by omega
  have hpos : 0 < (b - a + step - 1) / step :=
    Nat.le_div_iff_mul_le hstep |>.mpr (by omega)
  obtain ⟨m, hm⟩ := Nat.exists_eq_succ_of_ne_zero (Nat.pos_iff_ne_zero.mp hpos)
  refine ⟨(List.range m).map (fun k => a + (k + 1) * step), ?_⟩
  unfold rangeStepList
  rw [hm, List.range_succ_eq_map]
  simp [Function.comp, Nat.succ_eq_add_one]

/-- The first iteration of the triple-indirect outer loop computes the
out-of-bounds offset `4·L` into an `L`-pointer (`4·L`-byte) index block and
fails the slice bounds check, whatever the callback is. -/
theorem visitL3ILoop_head_error
    (f : Nat → Nat → σ → Except String ((Bool × Bool) × σ))
    (bi i : Nat) (rest : List Nat) (v : LayerSt σ)
    (hlen : ∀ b, (v.s.disk b).length = blockSize v.s)
    (hld : (v.ld.getD 0 []).length = blockSize v.s)
    (hldne : v.ld ≠ [])
    (hi : i - threshold v.s 1 = (blockSize v.s / 4) * (blockSize v.s / 4)) :
    visitL3ILoop f bi (i :: rest) v = .error "slice index out of range" := by
  have hL4 : blockSize v.s / 4 * 4 = blockSize v.s := blockSize_div4_mul v.s
  have hLpos : 0 < blockSize v.s / 4 := by
    have := blockSize_div4_ge v.s; omega
  have hoffeq : (blockSize v.s / 4 * (blockSize v.s / 4)) <<< 2 /
      (blockSize v.s / 4) = blockSize v.s := by
    rw [Nat.shiftLeft_eq]
    norm_num
    rw [Nat.mul_assoc, Nat.mul_div_cancel_left _ hLpos, hL4]
  obtain ⟨ld0, ldrest, hvld⟩ := List.exists_cons_of_ne_nil hldne
  simp only [visitL3ILoop]
  by_cases hbr : v.li.getD 0 0 ≠ v.inode.i_block.getD 14 0
  · rw [if_pos hbr, exceptBindOk]
    simp only
    rw [hi, hoffeq]
    have hsub : subSlice
        ((v.ld.set 0 (read_data_block v.s (v.inode.i_block.getD 14 0))).getD 0 [])
        (blockSize v.s) 4 = .error "slice index out of range" := by
      unfold subSlice
      rw [if_neg]
      rw [natLen_eq, hvld]
      simp only [List.set_cons_zero, List.getD_cons_zero]
      rw [show (read_data_block v.s (v.inode.i_block.getD 14 0)).length =
        blockSize v.s from hlen _]
      omega
    rw [hsub, exceptBindError]
  · rw [if_neg hbr, exceptBindOk]
    rw [hi, hoffeq]
    have hsub : subSlice (v.ld.getD 0 []) (blockSize v.s) 4 =
        .error "slice index out of range" := by
      unfold subSlice
      rw [if_neg]
      rw [natLen_eq, hld]
      omega
    rw [hsub, exceptBindError]

/-- Claim C8: starting the block visitor past the largest representable
index `T₃ = 11 + L + 2·L + L²` yields an error (here the triple-indirect
phase's out-of-range slice panic, reached before any callback invocation),
never a silent success, for every callback, inode and fuel, on any state
whose disk blocks have full block length. -/
theorem c8_visit_past_end
    (f : Nat → Nat → σ → Except String ((Bool × Bool) × σ))
    (s : RFSState) (ino start : Nat) (cb0 : σ) (fuel : Nat)
    (hlen : ∀ b, (s.disk b).length = blockSize s)
    (hstart : threshold s 3 < start) :
    visit_blocks_inode f s ino start cb0 fuel =
      .error "slice index out of range" := by
  have hL : 256 ≤ blockSize s / 4 := blockSize_div4_ge s
  have ht0 : threshold s 0 = 12 := rfl
  have ht1 : threshold s 1 = 12 + blockSize s / 4 := rfl
  have ht2 : threshold s 2 = 12 + blockSize s / 4 +
      blockSize s / 4 * (blockSize s / 4) := rfl
  have ht3 : threshold s 3 = 11 + blockSize s / 4 + blockSize s / 4 * 2 +
      blockSize s / 4 * (blockSize s / 4) := rfl
  rw [ht3] at hstart
  have hc0 : threshold s 0 - start = 0 := by rw [ht0]; omega
  have hmax0 : max start (threshold s 0) = start :=
    Nat.max_eq_left (by rw [ht0]; omega)
  have hc1 : threshold s 1 - start = 0 := by rw [ht1]; omega
  obtain ⟨b1, hset1, hb1⟩ := set_inode_ok s ino (get_inode s ino) hlen
  set s1 := setDisk s (fetch_inode_block_offset s ino).1 b1 with hs1def
  have hlen1 : ∀ b, (s1.disk b).length = blockSize s1 := by
    rw [hs1def]; exact setDisk_len s _ b1 hlen hb1
  have hbs1 : blockSize s1 = blockSize s := by rw [hs1def]; rfl
  have hth1 : ∀ l, threshold s1 l = threshold s l := by
    intro l; rw [hs1def]; rfl
  obtain ⟨b2, hset2, hb2⟩ := set_inode_ok s1 ino (get_inode s ino) hlen1
  set s2 := setDisk s1 (fetch_inode_block_offset s1 ino).1 b2 with hs2def
  have hlen2 : ∀ b, (s2.disk b).length = blockSize s2 := by
    rw [hs2def]; exact setDisk_len s1 _ b2 hlen1 hb2
  have hbs2 : blockSize s2 = blockSize s := by rw [hs2def]; rw [hs1def]; rfl
  have hth2 : ∀ l, threshold s2 l = threshold s l := by
    intro l; rw [hs2def]; rw [hs1def]; rfl
  obtain ⟨b3, hset3, hb3⟩ := set_inode_ok s2 ino (get_inode s ino) hlen2
  set s3 := setDisk s2 (fetch_inode_block_offset s2 ino).1 b3 with hs3def
  have hlen3 : ∀ b, (s3.disk b).length = blockSize s3 := by
    rw [hs3def]; exact setDisk_len s2 _ b3 hlen2 hb3
  have hbs3 : blockSize s3 = blockSize s := by
    rw [hs3def]; rw [hs2def]; rw [hs1def]; rfl
  have hth3 : ∀ l, threshold s3 l = threshold s l := by
    intro l; rw [hs3def]; rw [hs2def]; rw [hs1def]; rfl
  have hd1 := dumpIndexTable_unmodified s ino (get_inode s ino)
    [usizeMAX, usizeMAX, usizeMAX] [false, false, false]
    [create_block_vec s, create_block_vec s, create_block_vec s] 0 s1
    (by rfl) hset1
  have hd2 := dumpIndexTable_unmodified s1 ino (get_inode s ino)
    [usizeMAX, usizeMAX, usizeMAX] [false, false, false]
    [create_block_vec s, create_block_vec s, create_block_vec s] 0 s2
    (by rfl) hset2
  have hd3 := dumpIndexTable_unmodified s2 ino (get_inode s ino)
    [usizeMAX, usizeMAX, usizeMAX] [false, false, false]
    [create_block_vec s, create_block_vec s, create_block_vec s] 1 s3
    (by rfl) hset3
  have hmax1 : max start (threshold s1 1) = start :=
    Nat.max_eq_left (by rw [hth1, ht1]; omega)
  have hc2 : threshold s1 2 - start = 0 := by
    rw [hth1, ht2]; omega
  obtain ⟨rest, hrsl⟩ := rangeStepList_cons (threshold s3 2) (threshold s3 3)
    (blockSize s3 / 4 * (blockSize s3 / 4))
    (by simp only [hth3]; rw [ht2, ht3]; omega)
    (by rw [hbs3]; exact Nat.mul_pos (by omega) (by omega))
  have herr := visitL3ILoop_head_error f start (threshold s3 2) rest
    { s := s3, inode := get_inode s ino,
      li := [usizeMAX, usizeMAX, usizeMAX], lm := [false, false, false],
      ld := [create_block_vec s, create_block_vec s, create_block_vec s],
      cb := cb0 }
    hlen3
    (by simp [create_block_vec, hbs3])
    (by simp)
    (by show threshold s3 2 - threshold s3 1 =
          blockSize s3 / 4 * (blockSize s3 / 4)
        simp only [hth3]
        rw [ht2, ht1, hbs3]
        omega)
  unfold visit_blocks_inode
  rw [hc0]
  simp only [visitDirectLoop, exceptBindOk]
  rw [hmax0, hc1]
  simp only [visitL1Loop, exceptBindOk]
  rw [hd1]
  simp only [exceptBindOk]
  rw [hmax1, hc2]
  simp only [visitL2Loop, exceptBindOk]
  rw [hd2]
  simp only [exceptBindOk]
  rw [hd3]
  simp only [exceptBindOk]
  rw [hrsl, herr]
  rfl

set_option maxRecDepth 10000 in
/-- Witness for `c8_visit_past_end`: on the freshly formatted state
(`T₃ = 66315`), starting at index 66316 errors out. -/
theorem c8_visit_past_end_witness :
    (∀ b, (baseState.disk b).length = blockSize baseState) ∧
    threshold baseState 3 < 66316 ∧
    visit_blocks_inode (tracedCb (fun _ _ => (true, false))) baseState 2 66316
      ([] : List (Nat × Nat)) 1 = .error "slice index out of range" := by
  have hlen : ∀ b, (baseState.disk b).length = blockSize baseState := by
    intro b
    show zeroBlock1024.length = blockSize baseState
    simp [zeroBlock1024, blockSize, baseState]
  exact ⟨hlen, by decide,
    c8_visit_past_end _ baseState 2 66316 [] 1 hlen (by decide)⟩

/-- `cacheFlush` as a fold of `flushStep`, a cache clear and an inner
flush. -/
theorem cacheFlush_eq (c : CacheDisk) :
    cacheFlush c =
      { c with inner := innerFlush (c.cache.foldl (flushStep c.block_log) c.inner),
               cache := [] } := rfl

/-- Left-shift then right-shift by the same amount is the identity. -/
theorem shiftLR (t log : Nat) : (t <<< log) >>> log = t := by
  rw [Nat.shiftLeft_eq, Nat.shiftRight_eq_div_pow]
  exact Nat.mul_div_cancel _ (Nat.two_pow_pos log)

/-- A flush step of a slot with another tag does not change block `t`. -/
theorem flushStep_data_ne (log : Nat) (inn : InnerDisk) (p : Nat × CacheItem)
    (t : Nat) (h : p.1 ≠ t) : (flushStep log inn p).data t = inn.data t := by
  unfold flushStep
  split
  · simp [innerWrite, innerSeekSet, shiftLR, h, Ne.symm h]
  · rfl

/-- Flush steps never count an inner flush. -/
theorem flushStep_flushes (log : Nat) (inn : InnerDisk) (p : Nat × CacheItem) :
    (flushStep log inn p).flushes = inn.flushes := by
  unfold flushStep
  split <;> rfl

/-- The flush fold over slots with other tags does not change block `t`. -/
theorem flushFold_data_ne (log t : Nat) :
    ∀ (l : List (Nat × CacheItem)) (inn : InnerDisk),
    (∀ p ∈ l, p.1 ≠ t) →
    (List.foldl (flushStep log) inn l).data t = inn.data t := by
  intro l
  induction l with
  | nil => intro inn _; rfl
  | cons q rest ih =>
    intro inn h
    rw [List.foldl_cons, ih _ (fun p hp => h p (List.mem_cons_of_mem _ hp)),
      flushStep_data_ne _ _ _ _ (h q (List.mem_cons_self _ _))]

/-- The flush fold keeps the inner flush counter. -/
theorem flushFold_flushes (log : Nat) :
    ∀ (l : List (Nat × CacheItem)) (inn : InnerDisk),
    (List.foldl (flushStep log) inn l).flushes = inn.flushes := by
  intro l
  induction l with
  | nil => intro inn; rfl
  | cons q rest ih =>
    intro inn
    rw [List.foldl_cons, ih, flushStep_flushes]

/-- The flush fold writes a dirty head slot's data to its block. -/
theorem flushFold_head (log t : Nat) (item : CacheItem)
    (rest : List (Nat × CacheItem)) (inn : InnerDisk)
    (hrest : ∀ p ∈ rest, p.1 ≠ t) (hd : item.dirty = true) :
    (List.foldl (flushStep log) inn ((t, item) :: rest)).data t = item.data := by
  rw [List.foldl_cons, flushFold_data_ne log t rest _ hrest]
  unfold flushStep
  rw [if_pos hd]
  simp [innerWrite, innerSeekSet, shiftLR]

/-- With pairwise distinct tags, the flush fold writes every dirty slot's
data to its block. -/
theorem flushFold_member (log : Nat) :
    ∀ (l : List (Nat × CacheItem)) (inn : InnerDisk) (t : Nat)
      (item : CacheItem),
    (l.map Prod.fst).Nodup → (t, item) ∈ l → item.dirty = true →
    (List.foldl (flushStep log) inn l).data t = item.data := by
  intro l
  induction l with
  | nil => intro inn t item _ hmem; exact absurd hmem (List.not_mem_nil _)
  | cons q rest ih =>
    intro inn t item hnod hmem hd
    rcases List.mem_cons.mp hmem with heq | hmem'
    · subst heq
      have hrest : ∀ p ∈ rest, p.1 ≠ t := by
        have h1 := (List.nodup_cons.mp hnod).1
        intro p hp hpt
        exact h1 (by
          show t ∈ rest.map Prod.fst
          rw [← hpt]
          exact List.mem_map_of_mem Prod.fst hp)
      exact flushFold_head log t item rest inn hrest hd
    · rw [List.foldl_cons]
      exact ih _ t item (List.nodup_cons.mp hnod).2 hmem' hd

/-- Write-back of an eviction victim does not change the cache list. -/
theorem write_back_item_cache (c : CacheDisk) (r : Option (Nat × CacheItem)) :
    (write_back_item c r).cache = c.cache := by
  unfold write_back_item
  split
  · split <;> rfl
  · rfl

/-- Write-back of an eviction victim does not flush the inner device. -/
theorem write_back_item_flushes (c : CacheDisk) (r : Option (Nat × CacheItem)) :
    (write_back_item c r).inner.flushes = c.inner.flushes := by
  unfold write_back_item
  split
  · split <;> rfl
  · rfl

/-- Write-back of an eviction victim keeps the block-size log. -/
theorem write_back_item_block_log (c : CacheDisk)
    (r : Option (Nat × CacheItem)) :
    (write_back_item c r).block_log = c.block_log := by
  unfold write_back_item
  split
  · split <;> rfl
  · rfl

/-- After a flush, a bypass read of the block of a dirty most-recent slot
whose tag occurs nowhere else in the cache returns that slot's data. -/
theorem cacheFlush_read_head (c2 : CacheDisk) (t : Nat) (buf : List Nat)
    (rest : List (Nat × CacheItem))
    (hc : c2.cache = (t, CacheItem.mk true buf) :: rest)
    (hrest : ∀ p ∈ rest, p.1 ≠ t) :
    innerReadBlock (cacheFlush c2).inner t = buf := by
  rw [cacheFlush_eq]
  show (innerFlush (List.foldl (flushStep c2.block_log) c2.inner
    c2.cache)).data t = buf
  rw [hc]
  exact flushFold_head _ _ _ _ _ hrest rfl

/-- A flush bumps the inner flush counter exactly once. -/
theorem cacheFlush_flushes_succ (c2 : CacheDisk) :
    (cacheFlush c2).inner.flushes = c2.inner.flushes + 1 := by
  rw [cacheFlush_eq]
  show (innerFlush _).flushes = _
  unfold innerFlush
  rw [flushFold_flushes]

/-- Claim C6: on a wellformed cached device (one full-block buffer per slot,
cache within its nonzero capacity), writing one device block `buf` at tag
`t` (after a seek to `t`'s address) succeeds, and a flush then makes a
bypass read of block `t` from the inner device return exactly `buf`;
moreover on any cached device with pairwise distinct slot tags a flush
writes every dirty slot's data back to its block, clears the cache, and
flushes the inner device once. -/
theorem c6_write_flush_read (c : CacheDisk) (t : Nat) (buf : List Nat)
    (hbuf : buf.length = c.unit)
    (hitems : ∀ p ∈ c.cache, (p : Nat × CacheItem).2.data.length = c.unit)
    (hcap1 : 0 < c.capacity)
    (hcap : c.cache.length ≤ c.capacity) :
    (∃ c2, cacheWriteOne (cacheSeekSet c (t <<< c.block_log)) buf = .ok c2 ∧
      innerReadBlock (cacheFlush c2).inner t = buf ∧
      (cacheFlush c2).cache = [] ∧
      (cacheFlush c2).inner.flushes = c.inner.flushes + 1) ∧
    ∀ (d : CacheDisk) (q : Nat × CacheItem),
      (d.cache.map Prod.fst).Nodup → q ∈ d.cache → q.2.dirty = true →
      innerReadBlock (cacheFlush d).inner q.1 = q.2.data ∧
      (cacheFlush d).cache = [] ∧
      (cacheFlush d).inner.flushes = d.inner.flushes + 1 := by
  constructor
  · have htag : get_offset_tag (cacheSeekSet c (t <<< c.block_log)) = t := by
      unfold get_offset_tag get_tag cacheSeekSet
      exact shiftLR t c.block_log
    unfold cacheWriteOne
    rw [if_neg (by simp [cacheSeekSet, hbuf])]
    rw [htag]
    simp only []
    cases hfind : (cacheSeekSet c (t <<< c.block_log)).cache.find?
        (fun p => p.1 = t) with
    | some item =>
      have hmem : item ∈ c.cache := List.mem_of_find?_eq_some hfind
      have htagit : item.1 = t := by
        have := List.find?_some hfind
        simpa using this
      simp only []
      rw [if_neg (show ¬ buf.length ≠ item.2.data.length from
        fun h => h (by rw [hbuf, hitems item hmem]))]
      refine ⟨_, rfl, ?_, rfl, ?_⟩
      · exact cacheFlush_read_head _ t buf _ rfl
          (fun p hp => by simpa using (List.of_mem_filter hp))
      · rw [cacheFlush_flushes_succ]
        rfl
    | none =>
      have hnone : ∀ p ∈ c.cache, p.1 ≠ t := by
        intro p hp
        have := List.find?_eq_none.mp hfind p hp
        simpa using this
      simp only []
      by_cases hev : (cacheSeekSet c (t <<< c.block_log)).capacity <
          ((t, CacheItem.mk true buf) ::
            (cacheSeekSet c (t <<< c.block_log)).cache).length
      · have hlen : c.cache.length = c.capacity := by
          have h1 : c.capacity < c.cache.length + 1 := by
            simpa [cacheSeekSet] using hev
          omega
        have hne : c.cache ≠ [] := by
          intro hnil
          rw [hnil] at hlen
          simp at hlen
          omega
        rw [if_pos hev]
        refine ⟨_, rfl, ?_, rfl, ?_⟩
        · refine cacheFlush_read_head _ t buf c.cache.dropLast ?_ ?_
          · show (write_back_item _ _).cache = _
            rw [write_back_item_cache]
            show ((t, CacheItem.mk true buf) :: c.cache).dropLast = _
            rw [List.dropLast_cons_of_ne_nil hne]
          · intro p hp
            exact hnone p (List.dropLast_subset _ hp)
        · rw [cacheFlush_flushes_succ]
          show (write_back_item _ _).inner.flushes + 1 = _
          rw [write_back_item_flushes]
          rfl
      · rw [if_neg hev]
        refine ⟨_, rfl, ?_, rfl, ?_⟩
        · exact cacheFlush_read_head _ t buf c.cache rfl hnone
        · rw [cacheFlush_flushes_succ]
          show (write_back_item _ _).inner.flushes + 1 = _
          rw [write_back_item_flushes]
          rfl
  · intro d q hnod hmem hd
    refine ⟨?_, rfl, ?_⟩
    · rw [cacheFlush_eq]
      show (List.foldl (flushStep d.block_log) _ _).data q.1 = q.2.data
      exact flushFold_member d.block_log d.cache d.inner q.1 q.2 hnod
        (by simpa using hmem) hd
    · rw [cacheFlush_eq]
      show (innerFlush _).flushes = _
      unfold innerFlush
      rw [flushFold_flushes]

/-- Witness for `c6_write_flush_read`: writing `[1,2,3,4]` at tag 3 and
flushing makes the inner device hold `[1,2,3,4]` at block 3. -/
theorem c6_write_flush_read_witness :
    ([1, 2, 3, 4] : List Nat).length = c6Base.unit ∧
    (∀ p ∈ c6Base.cache, (p : Nat × CacheItem).2.data.length = c6Base.unit) ∧
    0 < c6Base.capacity ∧
    c6Base.cache.length ≤ c6Base.capacity ∧
    ((∃ c2,
        cacheWriteOne (cacheSeekSet c6Base (3 <<< c6Base.block_log))
          [1, 2, 3, 4] = .ok c2 ∧
        innerReadBlock (cacheFlush c2).inner 3 = [1, 2, 3, 4] ∧
        (cacheFlush c2).cache = [] ∧
        (cacheFlush c2).inner.flushes = c6Base.inner.flushes + 1) ∧
      ∀ (d : CacheDisk) (q : Nat × CacheItem),
        (d.cache.map Prod.fst).Nodup → q ∈ d.cache → q.2.dirty = true →
        innerReadBlock (cacheFlush d).inner q.1 = q.2.data ∧
        (cacheFlush d).cache = [] ∧
        (cacheFlush d).inner.flushes = d.inner.flushes + 1) :=
  ⟨by decide, by decide, by decide, by decide,
    c6_write_flush_read c6Base 3 [1, 2, 3, 4] (by decide) (by decide)
      (by decide) (by decide)⟩

/-- A one-index segment is chained: every non-final invocation requested
allocation and stays at the same index. -/
theorem seg_chain (i : Nat) (endv : Bool × Bool) :
    ∀ (Δ : List ((Nat × Nat) × Bool × Bool)), Seg i Δ endv →
    Δ.Chain' stepFollows := by
  intro Δ
  induction Δ with
  | nil => intro _; exact List.chain'_nil
  | cons p rest ih =>
    intro hseg
    obtain ⟨-, hidx, hmid, hlast⟩ := hseg
    cases rest with
    | nil => exact List.chain'_singleton p
    | cons q rest2 =>
      refine List.chain'_cons.mpr ⟨?_, ?_⟩
      · refine Or.inr ⟨?_, ?_⟩
        · exact hmid p (by
            rw [List.dropLast_cons_of_ne_nil (List.cons_ne_nil q rest2)]
            exact List.mem_cons_self _ _)
        · rw [hidx q (by simp), hidx p (by simp)]
      · refine ih ⟨List.cons_ne_nil q rest2, ?_, ?_, ?_⟩
        · intro r hr; exact hidx r (List.mem_cons_of_mem _ hr)
        · intro r hr
          refine hmid r ?_
          rw [List.dropLast_cons_of_ne_nil (List.cons_ne_nil q rest2)]
          exact List.mem_cons_of_mem _ hr
        · intro r hr
          refine hlast r ?_
          have : (q :: rest2).getLast? = (p :: q :: rest2).getLast? := by
            rw [List.getLast?_cons_cons]
          rw [← this]
          exact hr

/-- A one-index segment is a range segment from `i` to `i`. -/
theorem seg_segT (i : Nat) (Δ : List ((Nat × Nat) × Bool × Bool))
    (endv : Bool × Bool) (h : Seg i Δ endv) :
    SegT i i Δ endv := by
  obtain ⟨hne, hidx, hmid, hlast⟩ := h
  refine ⟨hne, seg_chain i endv Δ ⟨hne, hidx, hmid, hlast⟩, ?_, ?_⟩
  · intro p hp; exact hidx p (List.mem_of_mem_head? hp)
  · intro p hp
    exact ⟨hidx p (List.mem_of_getLast?_eq_some hp), hlast p hp⟩

/-- Concatenation of a `(true, false)`-terminated range segment with a
range segment starting at the next index. -/
theorem segT_append (lo hi lo2 hi2 : Nat)
    (Δ1 Δ2 : List ((Nat × Nat) × Bool × Bool)) (endv : Bool × Bool)
    (h1 : SegT lo hi Δ1 (true, false)) (h2 : SegT lo2 hi2 Δ2 endv)
    (hlink : lo2 = hi + 1) :
    SegT lo hi2 (Δ1 ++ Δ2) endv := by
  obtain ⟨hne1, hch1, hhd1, hlast1⟩ := h1
  obtain ⟨hne2, hch2, hhd2, hlast2⟩ := h2
  refine ⟨by simp [hne1], ?_, ?_, ?_⟩
  · refine List.chain'_append.mpr ⟨hch1, hch2, ?_⟩
    intro x hx y hy
    refine Or.inl ⟨(hlast1 x hx).2, ?_⟩
    rw [hhd2 y hy, (hlast1 x hx).1, hlink]
  · intro p hp
    rw [List.head?_append] at hp
    cases hl : Δ1.head? with
    | none =>
      exact absurd (List.head?_eq_none_iff.mp hl) hne1
    | some q =>
      rw [hl] at hp
      refine hhd1 p ?_
      rw [hl]
      exact hp
  · intro p hp
    rw [List.getLast?_append] at hp
    cases hl : Δ2.getLast? with
    | none =>
      exact absurd (List.getLast?_eq_none_iff.mp hl) hne2
    | some q =>
      rw [hl] at hp
      refine hlast2 p ?_
      rw [hl]
      exact hp

/-- `setDisk` with a full block preserves `WfDisk`. -/
theorem wfDisk_setDisk (s : RFSState) (b : Nat) (buf : List Nat)
    (hwf : WfDisk s) (hbuf : buf.length = blockSize s) :
    WfDisk (setDisk s b buf) := by
  obtain ⟨h1, h2, h3⟩ := hwf
  refine ⟨?_, h2, h3⟩
  intro b'
  show (if b' = b then buf else s.disk b').length = blockSize s
  split
  · exact hbuf
  · exact h1 b'

/-- A full-block `write_data_block` takes the direct path. -/
theorem write_data_block_full (s : RFSState) (b : Nat) (buf : List Nat)
    (hbuf : buf.length = blockSize s) :
    write_data_block s b buf = .ok (setDisk s b buf) := by
  unfold write_data_block
  rw [natLen_eq, hbuf, if_pos (Nat.le_refl _), if_pos (Nat.mod_self _)]

/-- A successful byte copy preserves the destination length. -/
theorem writeBytes_len_eq (dst : List Nat) (off : Nat) (src out : List Nat)
    (h : writeBytes dst off src = .ok out) : out.length = dst.length := by
  unfold writeBytes at h
  by_cases hc : off + natLen src ≤ natLen dst
  · rw [if_pos hc] at h
    rw [natLen_eq, natLen_eq] at hc
    have := Except.ok.inj h
    rw [← this]
    simp [natLen_eq]
    omega
  · rw [if_neg hc] at h
    exact absurd h (by simp)

/-- A successful `set_inode` preserves `WfDisk` and the block size. -/
theorem set_inode_wf (s : RFSState) (ino : Nat) (inode : Ext2INode)
    (s' : RFSState) (hwf : WfDisk s) (h : set_inode s ino inode = .ok s') :
    WfDisk s' ∧ blockSize s' = blockSize s := by
  unfold set_inode at h
  rcases hfe : fetch_inode_block_offset s ino with ⟨bn, off⟩
  rw [hfe] at h
  simp only [] at h
  cases hw : writeBytes (read_data_block s bn) off (inodeToBytes inode) with
  | error e => rw [hw, exceptBindError] at h; exact absurd h (by simp)
  | ok buf' =>
    rw [hw, exceptBindOk] at h
    have hlenb : buf'.length = blockSize s := by
      rw [writeBytes_len_eq _ _ _ _ hw]
      exact hwf.1 _
    rw [write_data_block_full s _ buf' hlenb] at h
    have hs' := (Except.ok.inj h).symm
    subst hs'
    exact ⟨wfDisk_setDisk _ _ _ hwf hlenb, rfl⟩

/-- A single invocation with reply `endv` is a one-index segment. -/
theorem seg_single (b i : Nat) (endv : Bool × Bool) :
    Seg i [((b, i), endv)] endv := by
  refine ⟨List.cons_ne_nil _ _, by simp, by simp, by simp⟩

/-- Extending a one-index segment with an earlier allocation-requesting
invocation at the same index. -/
theorem seg_cons (b i : Nat) (r : Bool × Bool)
    (Δ : List ((Nat × Nat) × Bool × Bool)) (endv : Bool × Bool)
    (hseg : Seg i Δ endv) (hb : r.2 = true) :
    Seg i (((b, i), r) :: Δ) endv := by
  obtain ⟨hne, hidx, hmid, hlast⟩ := hseg
  refine ⟨List.cons_ne_nil _ _, ?_, ?_, ?_⟩
  · intro p hp
    rcases List.mem_cons.mp hp with h | h
    · rw [h]
    · exact hidx p h
  · intro p hp
    rw [List.dropLast_cons_of_ne_nil hne] at hp
    rcases List.mem_cons.mp hp with h | h
    · rw [h]; exact hb
    · exact hmid p h
  · intro p hp
    refine hlast p ?_
    cases Δ with
    | nil => exact absurd rfl hne
    | cons q rest => rw [List.getLast?_cons_cons] at hp; exact hp

/-- A successful `allocate_block` preserves `WfDisk` and the block size. -/
theorem allocate_block_wf (s : RFSState) (n : Nat) (s' : RFSState)
    (hwf : WfDisk s) (h : allocate_block s = .ok (n, s')) :
    WfDisk s' ∧ blockSize s' = blockSize s := by
  rw [allocate_block, allocate_bitmap] at h
  cases hs : bitmap_search s.bitmapData
      (1 + 1 + 1 + 1 + 1 + s.sInodesCount / EXT2_INODE_SIZE + 1) with
  | error e =>
    simp only [if_true, hs, exceptBindError] at h
    exact absurd h (by simp)
  | ok m =>
    simp only [if_true, hs, exceptBindOk] at h
    have hbm : (bitmap_set s.bitmapData m).length = blockSize s := by
      simp [bitmap_set]
      exact hwf.2.2
    rw [write_data_block_full { s with bitmapData := bitmap_set s.bitmapData m }
      s.bgBlockBitmap _ hbm, exceptBindOk] at h
    have hinj := Except.ok.inj h
    have hs' : s' = setDisk { s with bitmapData := bitmap_set s.bitmapData m }
        s.bgBlockBitmap (bitmap_set s.bitmapData m) :=
      (congrArg Prod.snd hinj).symm
    subst hs'
    refine ⟨wfDisk_setDisk _ _ _ ⟨hwf.1, hwf.2.1, hbm⟩ hbm, rfl⟩

/-- A successful `dump_index_table!` preserves `WfDisk` and the block size,
provided the dumped cache slot has full block length. -/
theorem dumpIndexTable_wf (s : RFSState) (ino : Nat) (inode : Ext2INode)
    (li : List Nat) (lm : List Bool) (ld : List (List Nat)) (l : Nat)
    (s' : RFSState) (lm' : List Bool) (hwf : WfDisk s)
    (hld : (ld.getD l []).length = blockSize s)
    (h : dumpIndexTable s ino inode li lm ld l = .ok (s', lm')) :
    WfDisk s' ∧ blockSize s' = blockSize s := by
  unfold dumpIndexTable at h
  cases hsi : set_inode s ino inode with
  | error e => rw [hsi, exceptBindError] at h; exact absurd h (by simp)
  | ok s1 =>
    rw [hsi, exceptBindOk] at h
    obtain ⟨hwf1, hbs1⟩ := set_inode_wf s ino inode s1 hwf hsi
    by_cases hc : lm.getD l false = true ∧ li.getD l 0 ≠ 0 ∧
        li.getD l 0 ≠ usizeMAX
    · rw [if_pos hc] at h
      rw [write_data_block_full s1 _ _ (by rw [hbs1]; exact hld),
        exceptBindOk] at h
      have hinj := Except.ok.inj h
      have hs' : s' = setDisk s1 (li.getD l 0) (ld.getD l []) :=
        (congrArg Prod.fst hinj).symm
      subst hs'
      refine ⟨wfDisk_setDisk _ _ _ hwf1 (by rw [hbs1]; exact hld), hbs1⟩
    · rw [if_neg hc] at h
      have hinj := Except.ok.inj h
      have hs' : s' = s1 := (congrArg Prod.fst hinj).symm
      subst hs'
      exact ⟨hwf1, hbs1⟩

/-- Trace and wellformedness of the direct-region inner loop: a successful
run either proceeds with a `(true, false)`-terminated one-index segment
appended, or stops with a `(false, false)`-terminated one-index segment
appended. -/
theorem visitDirectStep_trace
    (f : Nat → Nat → σ → Except String ((Bool × Bool) × σ)) (ino : Nat) :
    ∀ (fuel i : Nat) (d : DirectSt (TrState σ))
      (res : Flow (DirectSt (TrState σ)) (RFSState × TrState σ)),
    visitDirectStep (traced f) ino i fuel d = .ok res →
    WfDisk d.s →
    (∃ Δ d', res = .next d' ∧ d'.cb.2 = d.cb.2 ++ Δ ∧ Seg i Δ (true, false) ∧
      WfDisk d'.s ∧ blockSize d'.s = blockSize d.s) ∨
    (∃ Δ r, res = .stop r ∧ r.2.2 = d.cb.2 ++ Δ ∧ Seg i Δ (false, false)) := by
  intro fuel
  induction fuel with
  | zero =>
    intro i d res h hwf
    exact absurd h (by simp [visitDirectStep])
  | succ fuel ih =>
    intro i d res h hwf
    rw [visitDirectStep] at h
    cases hq : f (d.inode.i_block.getD i 0) i d.cb.1 with
    | error e =>
      simp only [traced, hq, exceptBindError] at h
      exact absurd h (by simp)
    | ok q =>
      obtain ⟨⟨r0, r1⟩, cnew⟩ := q
      simp only [traced, hq, exceptBindOk] at h
      cases r1 with
      | true =>
        rw [if_pos rfl] at h
        cases hal : allocate_block d.s with
        | error e => rw [hal, exceptBindError] at h; exact absurd h (by simp)
        | ok p =>
          obtain ⟨nb, s2⟩ := p
          rw [hal, exceptBindOk] at h
          simp only [] at h
          obtain ⟨hwf2, hbs2⟩ := allocate_block_wf d.s nb s2 hwf hal
          rcases ih i _ res h hwf2 with
            ⟨Δ, d', hres, hcb, hseg, hwfd, hbsd⟩ | ⟨Δ, r, hres, hcb, hseg⟩
          · left
            refine ⟨((d.inode.i_block.getD i 0, i), (r0, true)) :: Δ, d', hres,
              ?_, ?_, hwfd, ?_⟩
            · rw [hcb]
              show (d.cb.2 ++ [((d.inode.i_block.getD i 0, i), (r0, true))]) ++
                Δ = _
              rw [List.append_assoc]
              rfl
            · exact seg_cons _ i (r0, true) Δ _ hseg rfl
            · rw [hbsd]; exact hbs2
          · right
            refine ⟨((d.inode.i_block.getD i 0, i), (r0, true)) :: Δ, r, hres,
              ?_, ?_⟩
            · rw [hcb]
              show (d.cb.2 ++ [((d.inode.i_block.getD i 0, i), (r0, true))]) ++
                Δ = _
              rw [List.append_assoc]
              rfl
            · exact seg_cons _ i (r0, true) Δ _ hseg rfl
      | false =>
        rw [if_neg (by simp)] at h
        cases r0 with
        | false =>
          rw [if_pos (show (!false) = true from rfl)] at h
          by_cases hm : d.modified = true
          · rw [if_pos hm] at h
            cases hs2 : set_inode d.s ino d.inode with
            | error e => rw [hs2, exceptBindError] at h; exact absurd h (by simp)
            | ok s3 =>
              rw [hs2, exceptBindOk] at h
              right
              refine ⟨[((d.inode.i_block.getD i 0, i), (false, false))],
                (s3, (cnew,
                  d.cb.2 ++ [((d.inode.i_block.getD i 0, i), (false, false))])),
                (Except.ok.inj h).symm, rfl, ?_⟩
              exact seg_single _ i _
          · rw [if_neg hm] at h
            right
            refine ⟨[((d.inode.i_block.getD i 0, i), (false, false))],
              (d.s, (cnew,
                d.cb.2 ++ [((d.inode.i_block.getD i 0, i), (false, false))])),
              (Except.ok.inj h).symm, rfl, ?_⟩
            exact seg_single _ i _
        | true =>
          rw [if_neg (by simp)] at h
          left
          refine ⟨[((d.inode.i_block.getD i 0, i), (true, false))],
            { d with cb := (cnew,
              d.cb.2 ++ [((d.inode.i_block.getD i 0, i), (true, false))]) },
            (Except.ok.inj h).symm, rfl, ?_, hwf, rfl⟩
          exact seg_single _ i _

/-- Trace and wellformedness of the direct-region `for` loop. -/
theorem visitDirectLoop_trace
    (f : Nat → Nat → σ → Except String ((Bool × Bool) × σ)) (ino fuel : Nat) :
    ∀ (n i : Nat) (d : DirectSt (TrState σ))
      (res : Flow (DirectSt (TrState σ)) (RFSState × TrState σ)),
    visitDirectLoop (traced f) ino fuel n i d = .ok res →
    WfDisk d.s →
    (∃ d', res = .next d' ∧ WfDisk d'.s ∧ blockSize d'.s = blockSize d.s ∧
      ((n = 0 ∧ d'.cb.2 = d.cb.2) ∨
       (0 < n ∧ ∃ Δ, d'.cb.2 = d.cb.2 ++ Δ ∧
         SegT i (i + n - 1) Δ (true, false)))) ∨
    (∃ Δ r j, res = .stop r ∧ r.2.2 = d.cb.2 ++ Δ ∧
      SegT i j Δ (false, false)) := by
  intro n
  induction n with
  | zero =>
    intro i d res h hwf
    left
    refine ⟨d, (Except.ok.inj h).symm, hwf, rfl, Or.inl ⟨rfl, rfl⟩⟩
  | succ n ih =>
    intro i d res h hwf
    rw [visitDirectLoop] at h
    cases hstep : visitDirectStep (traced f) ino i fuel d with
    | error e => rw [hstep, exceptBindError] at h; exact absurd h (by simp)
    | ok flow =>
      rw [hstep, exceptBindOk] at h
      rcases visitDirectStep_trace f ino fuel i d flow hstep hwf with
        ⟨Δ1, d1, hflow, hcb1, hseg1, hwf1, hbs1⟩ | ⟨Δ1, r, hflow, hcb1, hseg1⟩
      · subst hflow
        simp only [] at h
        rcases ih (i + 1) d1 res h hwf1 with
          ⟨d', hres, hwf', hbs', hrest⟩ | ⟨Δ2, r, j, hres, hcb2, hsegT2⟩
        · left
          refine ⟨d', hres, hwf', by rw [hbs', hbs1], Or.inr ⟨Nat.succ_pos n, ?_⟩⟩
          rcases hrest with ⟨hn0, hcb⟩ | ⟨hpos, Δ2, hcb, hsegT⟩
          · subst hn0
            exact ⟨Δ1, by rw [hcb, hcb1], seg_segT i Δ1 _ hseg1⟩
          · refine ⟨Δ1 ++ Δ2, ?_, ?_⟩
            · rw [hcb, hcb1, List.append_assoc]
            · have := segT_append i i (i + 1) (i + 1 + n - 1) Δ1 Δ2 _
                (seg_segT i Δ1 _ hseg1) hsegT rfl
              rw [show i + (n + 1) - 1 = i + 1 + n - 1 from by omega]
              exact this
        · right
          refine ⟨Δ1 ++ Δ2, r, j, hres, ?_, ?_⟩
          · rw [hcb2, hcb1, List.append_assoc]
          · exact segT_append i i (i + 1) j Δ1 Δ2 _
              (seg_segT i Δ1 _ hseg1) hsegT2 rfl
      · subst hflow
        simp only [] at h
        right
        exact ⟨Δ1, r, i, (Except.ok.inj h).symm, hcb1, seg_segT i Δ1 _ hseg1⟩

/-- Cache-slot lengths from `WfV`. -/
theorem wfV_getD (v : LayerSt σ) (hwf : WfV v) (k : Nat)
    (hk : k < 3) : (v.ld.getD k []).length = blockSize v.s := by
  obtain ⟨-, hlen, hmem⟩ := hwf
  have hk' : k < v.ld.length := by rw [hlen]; exact hk
  rw [List.getD_eq_getElem?_getD, List.getElem?_eq_getElem hk']
  exact hmem _ (List.getElem_mem hk')

/-- Updating one cache slot with a full block keeps the slot invariant. -/
theorem wfV_set (v : LayerSt σ) (hwf : WfV v) (k : Nat)
    (x : List Nat) (hx : x.length = blockSize v.s) :
    (v.ld.set k x).length = 3 ∧
    ∀ d ∈ v.ld.set k x, d.length = blockSize v.s := by
  constructor
  · rw [List.length_set]; exact hwf.2.1
  · intro d hd
    rcases List.mem_or_eq_of_mem_set hd with h | h
    · exact hwf.2.2 d h
    · rw [h]; exact hx

/-- `visitPreDump` preserves the layer-state invariant, block size,
callback state and in-memory inode. -/
theorem visitPreDump_wf (ino slot bn : Nat)
    (v v1 : LayerSt σ) (hslot : slot < 3) (hwf : WfV v)
    (h : visitPreDump ino slot bn v = .ok v1) :
    WfV v1 ∧ blockSize v1.s = blockSize v.s ∧ v1.cb = v.cb ∧
      v1.inode = v.inode := by
  unfold visitPreDump at h
  by_cases hc : v.li.getD slot 0 ≠ bn ∧ bn ≠ 0
  · rw [if_pos hc] at h
    cases hd : dumpIndexTable v.s ino v.inode v.li v.lm v.ld slot with
    | error e => rw [hd, exceptBindError] at h; exact absurd h (by simp)
    | ok p =>
      obtain ⟨s1, lm1⟩ := p
      rw [hd, exceptBindOk] at h
      simp only [] at h
      obtain ⟨hwf1, hbs1⟩ := dumpIndexTable_wf v.s ino v.inode v.li v.lm v.ld
        slot s1 lm1 hwf.1 (wfV_getD v hwf slot hslot) hd
      have hv1 := (Except.ok.inj h).symm
      subst hv1
      obtain ⟨hl, hm⟩ := wfV_set v hwf slot (read_data_block s1 bn)
        (by rw [← hbs1]; exact hwf1.1 bn)
      refine ⟨⟨hwf1, hl, ?_⟩, hbs1, rfl, rfl⟩
      intro d hd2
      rw [show blockSize s1 = blockSize v.s from hbs1]
      exact hm d hd2
  · rw [if_neg hc] at h
    have hv1 := (Except.ok.inj h).symm
    subst hv1
    exact ⟨hwf, rfl, rfl, rfl⟩

/-- `visitL1Step` factored through `visitPreDump` and `visitL1StepRest`. -/
theorem visitL1Step_succ (f : Nat → Nat → σ → Except String ((Bool × Bool) × σ))
    (ino i fuel : Nat) (v : LayerSt σ) :
    visitL1Step f ino i (fuel + 1) v =
      visitPreDump ino 0 (v.inode.i_block.getD 12 0) v >>=
        visitL1StepRest f ino i fuel := by
  rw [visitL1Step]
  unfold visitPreDump
  by_cases hc : v.li.getD 0 0 ≠ v.inode.i_block.getD 12 0 ∧
      v.inode.i_block.getD 12 0 ≠ 0
  · rw [if_pos hc, if_pos hc]
    cases hd : dumpIndexTable v.s ino v.inode v.li v.lm v.ld 0 with
    | error e => rfl
    | ok p =>
      obtain ⟨s1, lm1⟩ := p
      rfl
  · rw [if_neg hc, if_neg hc]
    rfl

/-- Trace and wellformedness of the single-indirect inner loop. -/
theorem visitL1Step_trace
    (f : Nat → Nat → σ → Except String ((Bool × Bool) × σ)) (ino : Nat) :
    ∀ (fuel i : Nat) (v : LayerSt (TrState σ))
      (res : Flow (LayerSt (TrState σ)) (RFSState × TrState σ)),
    visitL1Step (traced f) ino i fuel v = .ok res →
    WfV v →
    (∃ Δ v', res = .next v' ∧ v'.cb.2 = v.cb.2 ++ Δ ∧ Seg i Δ (true, false) ∧
      WfV v' ∧ blockSize v'.s = blockSize v.s) ∨
    (∃ Δ r, res = .stop r ∧ r.2.2 = v.cb.2 ++ Δ ∧ Seg i Δ (false, false)) := by
  intro fuel
  induction fuel with
  | zero =>
    intro i v res h hwf
    exact absurd h (by simp [visitL1Step])
  | succ fuel ih =>
    intro i v res h hwf
    rw [visitL1Step_succ] at h
    cases hpre : visitPreDump ino 0 (v.inode.i_block.getD 12 0) v with
    | error e => rw [hpre, exceptBindError] at h; exact absurd h (by simp)
    | ok v1 =>
      rw [hpre, exceptBindOk] at h
      obtain ⟨hwf1, hbs1, hcb1, hinode1⟩ :=
        visitPreDump_wf ino 0 _ v v1 (by norm_num) hwf hpre
      unfold visitL1StepRest at h
      simp only [] at h
      cases hsl : subSlice (v1.ld.getD 0 []) ((i - threshold v1.s 0) <<< 2) 4 with
      | error e => rw [hsl, exceptBindError] at h; exact absurd h (by simp)
      | ok slice =>
        rw [hsl, exceptBindOk] at h
        obtain ⟨r0, r1, cnew, hq⟩ :
            ∃ r0 r1 cnew,
              f (u32FromBeBytes slice) i v1.cb.1 = .ok ((r0, r1), cnew) := by
          cases hq : f (u32FromBeBytes slice) i v1.cb.1 with
          | error e =>
            simp only [traced, hq, exceptBindError] at h
            exact absurd h (by simp)
          | ok p0 =>
            obtain ⟨⟨a0, a1⟩, c2⟩ := p0
            exact ⟨a0, a1, c2, rfl⟩
        simp only [traced, hq, exceptBindOk] at h
        cases r1 with
        | true =>
          rw [if_pos rfl] at h
          cases hal : allocate_block v1.s with
          | error e => rw [hal, exceptBindError] at h; exact absurd h (by simp)
          | ok p =>
            obtain ⟨nb, s2⟩ := p
            rw [hal, exceptBindOk] at h
            simp only [] at h
            obtain ⟨hwf2, hbs2⟩ := allocate_block_wf v1.s nb s2 hwf1.1 hal
            cases hwb : writeBytes (v1.ld.getD 0 [])
                ((i - threshold v1.s 0) <<< 2)
                (u32beBytes (nb % 4294967296)) with
            | error e => rw [hwb, exceptBindError] at h; exact absurd h (by simp)
            | ok ld0 =>
              rw [hwb, exceptBindOk] at h
              have hld0 : ld0.length = blockSize s2 := by
                rw [writeBytes_len_eq _ _ _ _ hwb, hbs2]
                exact wfV_getD v1 hwf1 0 (by norm_num)
              have hwfv2 : WfV
                  { v1 with
                    s := s2, ld := v1.ld.set 0 ld0, lm := v1.lm.set 0 true,
                    cb := (cnew,
                      v1.cb.2 ++ [((u32FromBeBytes slice, i), (r0, true))]) } := by
                obtain ⟨hl, hm⟩ := wfV_set v1 hwf1 0 ld0 (by rw [hld0, hbs2])
                refine ⟨hwf2, hl, ?_⟩
                intro d hd
                show d.length = blockSize s2
                rw [hbs2]
                exact hm d hd
              rcases ih i _ res h hwfv2 with
                ⟨Δ, v', hres, hcb, hseg, hwf', hbs'⟩ |
                ⟨Δ, r, hres, hcb, hseg⟩
              · left
                refine ⟨((u32FromBeBytes slice, i), (r0, true)) :: Δ, v', hres,
                  ?_, ?_, hwf', ?_⟩
                · rw [hcb]
                  show (v1.cb.2 ++
                    [((u32FromBeBytes slice, i), (r0, true))]) ++ Δ = _
                  rw [List.append_assoc, hcb1]
                  rfl
                · exact seg_cons _ i (r0, true) Δ _ hseg rfl
                · rw [hbs']
                  show blockSize s2 = _
                  rw [hbs2, hbs1]
              · right
                refine ⟨((u32FromBeBytes slice, i), (r0, true)) :: Δ, r, hres,
                  ?_, ?_⟩
                · rw [hcb]
                  show (v1.cb.2 ++
                    [((u32FromBeBytes slice, i), (r0, true))]) ++ Δ = _
                  rw [List.append_assoc, hcb1]
                  rfl
                · exact seg_cons _ i (r0, true) Δ _ hseg rfl
        | false =>
          rw [if_neg (by simp)] at h
          cases r0 with
          | false =>
            rw [if_pos (show (!false) = true from rfl)] at h
            cases hd : dumpIndexTable v1.s ino v1.inode v1.li v1.lm v1.ld 0 with
            | error e => rw [hd, exceptBindError] at h; exact absurd h (by simp)
            | ok p =>
              obtain ⟨s3, lm3⟩ := p
              rw [hd, exceptBindOk] at h
              simp only [] at h
              by_cases hlm : lm3.getD 0 false = true
              · rw [if_pos hlm] at h
                cases hsi : set_inode s3 ino v1.inode with
                | error e =>
                  rw [hsi, exceptBindError] at h; exact absurd h (by simp)
                | ok s4 =>
                  rw [hsi, exceptBindOk] at h
                  right
                  refine ⟨[((u32FromBeBytes slice, i), (false, false))], _,
                    (Except.ok.inj h).symm, by rw [hcb1], ?_⟩
                  exact seg_single _ i _
              · rw [if_neg hlm] at h
                right
                refine ⟨[((u32FromBeBytes slice, i), (false, false))], _,
                  (Except.ok.inj h).symm, by rw [hcb1], ?_⟩
                exact seg_single _ i _
          | true =>
            rw [if_neg (by simp)] at h
            left
            refine ⟨[((u32FromBeBytes slice, i), (true, false))],
              { v1 with cb := (cnew,
                v1.cb.2 ++ [((u32FromBeBytes slice, i), (true, false))]) },
              (Except.ok.inj h).symm, by rw [hcb1], ?_, ?_, hbs1⟩
            · exact seg_single _ i _
            · exact ⟨hwf1.1, hwf1.2.1, hwf1.2.2⟩

/-- Trace and wellformedness of one single-indirect `for` iteration
(including the on-demand allocation of the single-indirect index block). -/
theorem visitL1Iter_trace
    (f : Nat → Nat → σ → Except String ((Bool × Bool) × σ)) (ino fuel i : Nat)
    (v : LayerSt (TrState σ))
    (res : Flow (LayerSt (TrState σ)) (RFSState × TrState σ))
    (h : visitL1Iter (traced f) ino fuel i v = .ok res) (hwf : WfV v) :
    (∃ Δ v', res = .next v' ∧ v'.cb.2 = v.cb.2 ++ Δ ∧ Seg i Δ (true, false) ∧
      WfV v' ∧ blockSize v'.s = blockSize v.s) ∨
    (∃ Δ r, res = .stop r ∧ r.2.2 = v.cb.2 ++ Δ ∧ Seg i Δ (false, false)) := by
  unfold visitL1Iter at h
  simp only [] at h
  by_cases hb : v.inode.i_block.getD 12 0 = 0
  · rw [if_pos hb] at h
    cases hal : allocate_block v.s with
    | error e => rw [hal, exceptBindError] at h; exact absurd h (by simp)
    | ok p =>
      obtain ⟨nlb, s2⟩ := p
      rw [hal, exceptBindOk] at h
      simp only [] at h
      obtain ⟨hwf2, hbs2⟩ := allocate_block_wf v.s nlb s2 hwf.1 hal
      rw [write_data_block_full s2 nlb (create_block_vec s2)
        (by simp [create_block_vec]), exceptBindOk] at h
      have hwfv1 : WfV
          { v with
            s := setDisk s2 nlb (create_block_vec s2),
            inode := { v.inode with
                       i_block := v.inode.i_block.set 12 (nlb % 4294967296) },
            ld := v.ld.set 0 (read_data_block
              (setDisk s2 nlb (create_block_vec s2))
              (v.inode.i_block.getD 12 0)),
            li := v.li.set 0 (v.inode.i_block.getD 12 0) } := by
        have hwf3 : WfDisk (setDisk s2 nlb (create_block_vec s2)) :=
          wfDisk_setDisk s2 nlb _ hwf2 (by simp [create_block_vec])
        obtain ⟨hl, hm⟩ := wfV_set v hwf 0
          (read_data_block (setDisk s2 nlb (create_block_vec s2))
            (v.inode.i_block.getD 12 0))
          (by rw [show blockSize v.s =
                blockSize (setDisk s2 nlb (create_block_vec s2)) from
                  by rw [show blockSize (setDisk s2 nlb (create_block_vec s2)) =
                    blockSize s2 from rfl, hbs2]]
              exact hwf3.1 _)
        refine ⟨hwf3, hl, ?_⟩
        intro d hd
        show d.length = blockSize s2
        rw [hbs2]
        exact hm d hd
      rcases visitL1Step_trace f ino fuel i _ res h hwfv1 with
        ⟨Δ, v', hres, hcb, hseg, hwf', hbs'⟩ | ⟨Δ, r, hres, hcb, hseg⟩
      · left
        refine ⟨Δ, v', hres, hcb, hseg, hwf', ?_⟩
        rw [hbs']
        show blockSize s2 = _
        exact hbs2
      · right
        exact ⟨Δ, r, hres, hcb, hseg⟩
  · rw [if_neg hb] at h
    simp only [exceptBindOk] at h
    exact visitL1Step_trace f ino fuel i v res h hwf

/-- Trace and wellformedness of the single-indirect `for` loop. -/
theorem visitL1Loop_trace
    (f : Nat → Nat → σ → Except String ((Bool × Bool) × σ)) (ino fuel : Nat) :
    ∀ (n i : Nat) (v : LayerSt (TrState σ))
      (res : Flow (LayerSt (TrState σ)) (RFSState × TrState σ)),
    visitL1Loop (traced f) ino fuel n i v = .ok res →
    WfV v →
    (∃ v', res = .next v' ∧ WfV v' ∧ blockSize v'.s = blockSize v.s ∧
      ((n = 0 ∧ v'.cb.2 = v.cb.2) ∨
       (0 < n ∧ ∃ Δ, v'.cb.2 = v.cb.2 ++ Δ ∧
         SegT i (i + n - 1) Δ (true, false)))) ∨
    (∃ Δ r j, res = .stop r ∧ r.2.2 = v.cb.2 ++ Δ ∧
      SegT i j Δ (false, false)) := by
  intro n
  induction n with
  | zero =>
    intro i v res h hwf
    left
    refine ⟨v, (Except.ok.inj h).symm, hwf, rfl, Or.inl ⟨rfl, rfl⟩⟩
  | succ n ih =>
    intro i v res h hwf
    rw [visitL1Loop] at h
    cases hstep : visitL1Iter (traced f) ino fuel i v with
    | error e => rw [hstep, exceptBindError] at h; exact absurd h (by simp)
    | ok flow =>
      rw [hstep, exceptBindOk] at h
      rcases visitL1Iter_trace f ino fuel i v flow hstep hwf with
        ⟨Δ1, v1, hflow, hcb1, hseg1, hwf1, hbs1⟩ | ⟨Δ1, r, hflow, hcb1, hseg1⟩
      · subst hflow
        simp only [] at h
        rcases ih (i + 1) v1 res h hwf1 with
          ⟨v', hres, hwf', hbs', hrest⟩ | ⟨Δ2, r, j, hres, hcb2, hsegT2⟩
        · left
          refine ⟨v', hres, hwf', by rw [hbs', hbs1],
            Or.inr ⟨Nat.succ_pos n, ?_⟩⟩
          rcases hrest with ⟨hn0, hcb⟩ | ⟨hpos, Δ2, hcb, hsegT⟩
          · subst hn0
            exact ⟨Δ1, by rw [hcb, hcb1], seg_segT i Δ1 _ hseg1⟩
          · refine ⟨Δ1 ++ Δ2, ?_, ?_⟩
            · rw [hcb, hcb1, List.append_assoc]
            · have := segT_append i i (i + 1) (i + 1 + n - 1) Δ1 Δ2 _
                (seg_segT i Δ1 _ hseg1) hsegT rfl
              rw [show i + (n + 1) - 1 = i + 1 + n - 1 from by omega]
              exact this
        · right
          refine ⟨Δ1 ++ Δ2, r, j, hres, ?_, ?_⟩
          · rw [hcb2, hcb1, List.append_assoc]
          · exact segT_append i i (i + 1) j Δ1 Δ2 _
              (seg_segT i Δ1 _ hseg1) hsegT2 rfl
      · subst hflow
        simp only [] at h
        right
        exact ⟨Δ1, r, i, (Except.ok.inj h).symm, hcb1, seg_segT i Δ1 _ hseg1⟩

/-- `visitL2Step` factored through `visitPreDump` and `visitL2StepRest`. -/
theorem visitL2Step_succ (f : Nat → Nat → σ → Except String ((Bool × Bool) × σ))
    (ino i fuel : Nat) (v : LayerSt σ) :
    visitL2Step f ino i (fuel + 1) v =
      visitPreDump ino 0 (v.inode.i_block.getD 13 0) v >>=
        visitL2StepRest f ino i fuel := by
  rw [visitL2Step]
  unfold visitPreDump
  by_cases hc : v.li.getD 0 0 ≠ v.inode.i_block.getD 13 0 ∧
      v.inode.i_block.getD 13 0 ≠ 0
  · rw [if_pos hc, if_pos hc]
    cases hd : dumpIndexTable v.s ino v.inode v.li v.lm v.ld 0 with
    | error e => rfl
    | ok p =>
      obtain ⟨s1, lm1⟩ := p
      rfl
  · rw [if_neg hc, if_neg hc]
    rfl

/-- Trace and wellformedness of the double-indirect inner loop. -/
theorem visitL2Step_trace
    (f : Nat → Nat → σ → Except String ((Bool × Bool) × σ)) (ino : Nat) :
    ∀ (fuel i : Nat) (v : LayerSt (TrState σ))
      (res : Flow (LayerSt (TrState σ)) (RFSState × TrState σ)),
    visitL2Step (traced f) ino i fuel v = .ok res →
    WfV v →
    (∃ Δ v', res = .next v' ∧ v'.cb.2 = v.cb.2 ++ Δ ∧ Seg i Δ (true, false) ∧
      WfV v' ∧ blockSize v'.s = blockSize v.s) ∨
    (∃ Δ r, res = .stop r ∧ r.2.2 = v.cb.2 ++ Δ ∧ Seg i Δ (false, false)) := by
  intro fuel
  induction fuel with
  | zero =>
    intro i v res h hwf
    exact absurd h (by simp [visitL2Step])
  | succ fuel ih =>
    intro i v res h hwf
    have htail : ∀ (bn2 offset ls : Nat) (v2 : LayerSt (TrState σ))
        (res2 : Flow (LayerSt (TrState σ)) (RFSState × TrState σ)),
        visitL2StepRest2 (traced f) ino i fuel bn2 offset ls v2 = .ok res2 →
        WfV v2 →
        offset + 4 ≤ blockSize v2.s →
        (∃ Δ v', res2 = .next v' ∧ v'.cb.2 = v2.cb.2 ++ Δ ∧
          Seg i Δ (true, false) ∧ WfV v' ∧
          blockSize v'.s = blockSize v2.s) ∨
        (∃ Δ r, res2 = .stop r ∧ r.2.2 = v2.cb.2 ++ Δ ∧
          Seg i Δ (false, false)) := by
      intro bn2 offset ls v2 res2 h2 hwf2 hoff
      unfold visitL2StepRest2 at h2
      try simp only [] at h2
      cases hsl2 : subSlice (v2.ld.getD 1 []) (((i - 12) % ls) <<< 2) 4 with
      | error e => rw [hsl2, exceptBindError] at h2; exact absurd h2 (by simp)
      | ok slice2 =>
        rw [hsl2, exceptBindOk] at h2
        obtain ⟨r0, r1, cnew, hq⟩ :
            ∃ r0 r1 cnew,
              f (u32FromBeBytes slice2) i v2.cb.1 = .ok ((r0, r1), cnew) := by
          cases hq : f (u32FromBeBytes slice2) i v2.cb.1 with
          | error e =>
            simp only [traced, hq, exceptBindError] at h2
            exact absurd h2 (by simp)
          | ok p0 =>
            obtain ⟨⟨a0, a1⟩, c2⟩ := p0
            exact ⟨a0, a1, c2, rfl⟩
        simp only [traced, hq, exceptBindOk] at h2
        cases r1 with
        | true =>
          rw [if_pos rfl] at h2
          by_cases hbz : bn2 = 0
          · rw [if_pos hbz] at h2
            cases hal1 : allocate_block v2.s with
            | error e =>
              rw [hal1, exceptBindError] at h2; exact absurd h2 (by simp)
            | ok q =>
              obtain ⟨nb1, sa⟩ := q
              rw [hal1, exceptBindOk] at h2
              try simp only [] at h2
              obtain ⟨hwfa, hbsa⟩ := allocate_block_wf v2.s nb1 sa hwf2.1 hal1
              rw [write_data_block_full sa (nb1 % 4294967296)
                (create_block_vec sa) (by simp [create_block_vec]),
                exceptBindOk] at h2
              cases hwb0 : writeBytes (v2.ld.getD 0 []) offset
                  (u32beBytes (nb1 % 4294967296)) with
              | error e =>
                rw [hwb0, exceptBindError] at h2; exact absurd h2 (by simp)
              | ok ld0 =>
                rw [hwb0, exceptBindOk] at h2
                try simp only [] at h2
                cases hal2 : allocate_block
                    (setDisk sa (nb1 % 4294967296) (create_block_vec sa)) with
                | error e =>
                  rw [hal2, exceptBindError] at h2; exact absurd h2 (by simp)
                | ok q2 =>
                  obtain ⟨nb2, sb⟩ := q2
                  rw [hal2, exceptBindOk] at h2
                  try simp only [] at h2
                  have hwfsa3 : WfDisk
                      (setDisk sa (nb1 % 4294967296) (create_block_vec sa)) :=
                    wfDisk_setDisk sa _ _ hwfa (by simp [create_block_vec])
                  obtain ⟨hwfb, hbsb⟩ := allocate_block_wf _ nb2 sb hwfsa3 hal2
                  have hld0len : ld0.length = blockSize v2.s := by
                    rw [writeBytes_len_eq _ _ _ _ hwb0]
                    exact wfV_getD v2 hwf2 0 (by norm_num)
                  cases hwb1 : writeBytes
                      (((v2.ld.set 0 ld0).set 1
                        (read_data_block
                          (setDisk sa (nb1 % 4294967296) (create_block_vec sa))
                          (nb1 % 4294967296))).getD 1 [])
                      (((i - 12) % ls) <<< 2)
                      (u32beBytes (nb2 % 4294967296)) with
                  | error e =>
                    rw [hwb1, exceptBindError] at h2; exact absurd h2 (by simp)
                  | ok ld1 =>
                    rw [hwb1, exceptBindOk] at h2
                    have hldmid : ∀ d ∈ (v2.ld.set 0 ld0).set 1
                        (read_data_block
                          (setDisk sa (nb1 % 4294967296) (create_block_vec sa))
                          (nb1 % 4294967296)),
                        d.length = blockSize v2.s := by
                      intro d hd
                      rcases List.mem_or_eq_of_mem_set hd with hd' | hd'
                      · rcases List.mem_or_eq_of_mem_set hd' with hd'' | hd''
                        · exact hwf2.2.2 d hd''
                        · rw [hd'']; exact hld0len
                      · rw [hd']
                        show (read_data_block _ _).length = _
                        rw [show blockSize v2.s = blockSize
                          (setDisk sa (nb1 % 4294967296) (create_block_vec sa))
                          from by rw [show blockSize (setDisk sa
                            (nb1 % 4294967296) (create_block_vec sa)) =
                            blockSize sa from rfl, hbsa]]
                        exact hwfsa3.1 _
                    have hld1len : ld1.length = blockSize v2.s := by
                      rw [writeBytes_len_eq _ _ _ _ hwb1]
                      have h3 : (1 : Nat) <
                          ((v2.ld.set 0 ld0).set 1
                            (read_data_block
                              (setDisk sa (nb1 % 4294967296)
                                (create_block_vec sa))
                              (nb1 % 4294967296))).length := by
                        rw [List.length_set, List.length_set, hwf2.2.1]
                        norm_num
                      rw [List.getD_eq_getElem?_getD,
                        List.getElem?_eq_getElem h3]
                      exact hldmid _ (List.getElem_mem h3)
                    have hwfv4 : WfV
                        { v2 with
                          s := sb,
                          ld := ((v2.ld.set 0 ld0).set 1
                            (read_data_block
                              (setDisk sa (nb1 % 4294967296)
                                (create_block_vec sa))
                              (nb1 % 4294967296))).set 1 ld1,
                          lm := (v2.lm.set 0 true).set 1 true,
                          li := v2.li.set 1 (nb1 % 4294967296),
                          cb := (cnew, v2.cb.2 ++
                            [((u32FromBeBytes slice2, i), (r0, true))]) } := by
                      refine ⟨hwfb, ?_, ?_⟩
                      · show (_ : List (List Nat)).length = 3
                        rw [List.length_set, List.length_set, List.length_set]
                        exact hwf2.2.1
                      · intro d hd
                        show d.length = blockSize sb
                        rw [hbsb, show blockSize (setDisk sa
                          (nb1 % 4294967296) (create_block_vec sa)) =
                          blockSize sa from rfl, hbsa]
                        rcases List.mem_or_eq_of_mem_set hd with hd' | hd'
                        · exact hldmid d hd'
                        · rw [hd']; exact hld1len
                    rcases ih i _ res2 h2 hwfv4 with
                      ⟨Δ, v', hres, hcb, hseg, hwf', hbs'⟩ |
                      ⟨Δ, r, hres, hcb, hseg⟩
                    · left
                      refine ⟨((u32FromBeBytes slice2, i), (r0, true)) :: Δ,
                        v', hres, ?_, ?_, hwf', ?_⟩
                      · rw [hcb]
                        show (v2.cb.2 ++
                          [((u32FromBeBytes slice2, i), (r0, true))]) ++ Δ = _
                        rw [List.append_assoc]
                        rfl
                      · exact seg_cons _ i (r0, true) Δ _ hseg rfl
                      · rw [hbs']
                        show blockSize sb = _
                        rw [hbsb, show blockSize (setDisk sa
                          (nb1 % 4294967296) (create_block_vec sa)) =
                          blockSize sa from rfl, hbsa]
                    · right
                      refine ⟨((u32FromBeBytes slice2, i), (r0, true)) :: Δ,
                        r, hres, ?_, ?_⟩
                      · rw [hcb]
                        show (v2.cb.2 ++
                          [((u32FromBeBytes slice2, i), (r0, true))]) ++ Δ = _
                        rw [List.append_assoc]
                        rfl
                      · exact seg_cons _ i (r0, true) Δ _ hseg rfl
          · rw [if_neg hbz] at h2
            cases hal2 : allocate_block v2.s with
            | error e =>
              rw [hal2, exceptBindError] at h2; exact absurd h2 (by simp)
            | ok q2 =>
              obtain ⟨nb2, sb⟩ := q2
              rw [hal2, exceptBindOk] at h2
              try simp only [] at h2
              obtain ⟨hwfb, hbsb⟩ := allocate_block_wf v2.s nb2 sb hwf2.1 hal2
              cases hwb1 : writeBytes (v2.ld.getD 1 []) (((i - 12) % ls) <<< 2)
                  (u32beBytes (nb2 % 4294967296)) with
              | error e =>
                rw [hwb1, exceptBindError] at h2; exact absurd h2 (by simp)
              | ok ld1 =>
                rw [hwb1, exceptBindOk] at h2
                have hld1len : ld1.length = blockSize v2.s := by
                  rw [writeBytes_len_eq _ _ _ _ hwb1]
                  exact wfV_getD v2 hwf2 1 (by norm_num)
                have hwfv4 : WfV
                    { v2 with
                      s := sb, ld := v2.ld.set 1 ld1,
                      lm := v2.lm.set 1 true,
                      cb := (cnew, v2.cb.2 ++
                        [((u32FromBeBytes slice2, i), (r0, true))]) } := by
                  obtain ⟨hl, hm⟩ := wfV_set v2 hwf2 1 ld1 hld1len
                  refine ⟨hwfb, hl, ?_⟩
                  intro d hd
                  show d.length = blockSize sb
                  rw [hbsb]
                  exact hm d hd
                rcases ih i _ res2 h2 hwfv4 with
                  ⟨Δ, v', hres, hcb, hseg, hwf', hbs'⟩ |
                  ⟨Δ, r, hres, hcb, hseg⟩
                · left
                  refine ⟨((u32FromBeBytes slice2, i), (r0, true)) :: Δ, v',
                    hres, ?_, ?_, hwf', ?_⟩
                  · rw [hcb]
                    show (v2.cb.2 ++
                      [((u32FromBeBytes slice2, i), (r0, true))]) ++ Δ = _
                    rw [List.append_assoc]
                    rfl
                  · exact seg_cons _ i (r0, true) Δ _ hseg rfl
                  · rw [hbs']
                    show blockSize sb = _
                    exact hbsb
                · right
                  refine ⟨((u32FromBeBytes slice2, i), (r0, true)) :: Δ, r,
                    hres, ?_, ?_⟩
                  · rw [hcb]
                    show (v2.cb.2 ++
                      [((u32FromBeBytes slice2, i), (r0, true))]) ++ Δ = _
                    rw [List.append_assoc]
                    rfl
                  · exact seg_cons _ i (r0, true) Δ _ hseg rfl
        | false =>
          rw [if_neg (by simp)] at h2
          cases r0 with
          | false =>
            rw [if_pos (show (!false) = true from rfl)] at h2
            cases hda : dumpIndexTable v2.s ino v2.inode v2.li v2.lm v2.ld 0 with
            | error e =>
              rw [hda, exceptBindError] at h2; exact absurd h2 (by simp)
            | ok pa =>
              obtain ⟨sda, lma⟩ := pa
              rw [hda, exceptBindOk] at h2
              try simp only [] at h2
              cases hdb : dumpIndexTable sda ino v2.inode v2.li lma v2.ld 1 with
              | error e =>
                rw [hdb, exceptBindError] at h2; exact absurd h2 (by simp)
              | ok pb =>
                obtain ⟨sdb, lmb⟩ := pb
                rw [hdb, exceptBindOk] at h2
                try simp only [] at h2
                by_cases hm0 : lmb.getD 0 false = true
                · rw [if_pos hm0] at h2
                  cases hsi0 : set_inode sdb ino v2.inode with
                  | error e =>
                    rw [hsi0, exceptBindError] at h2; exact absurd h2 (by simp)
                  | ok sc =>
                    rw [hsi0, exceptBindOk] at h2
                    by_cases hm1 : lmb.getD 1 false = true
                    · rw [if_pos hm1] at h2
                      cases hsi1 : set_inode sc ino v2.inode with
                      | error e =>
                        rw [hsi1, exceptBindError] at h2
                        exact absurd h2 (by simp)
                      | ok sd =>
                        rw [hsi1, exceptBindOk] at h2
                        right
                        refine ⟨[((u32FromBeBytes slice2, i), (false, false))],
                          _, (Except.ok.inj h2).symm, rfl, ?_⟩
                        exact seg_single _ i _
                    · rw [if_neg hm1] at h2
                      right
                      refine ⟨[((u32FromBeBytes slice2, i), (false, false))],
                        _, (Except.ok.inj h2).symm, rfl, ?_⟩
                      exact seg_single _ i _
                · rw [if_neg hm0] at h2
                  by_cases hm1 : lmb.getD 1 false = true
                  · rw [if_pos hm1] at h2
                    cases hsi1 : set_inode sdb ino v2.inode with
                    | error e =>
                      rw [hsi1, exceptBindError] at h2
                      exact absurd h2 (by simp)
                    | ok sd =>
                      rw [hsi1, exceptBindOk] at h2
                      right
                      refine ⟨[((u32FromBeBytes slice2, i), (false, false))],
                        _, (Except.ok.inj h2).symm, rfl, ?_⟩
                      exact seg_single _ i _
                  · rw [if_neg hm1] at h2
                    right
                    refine ⟨[((u32FromBeBytes slice2, i), (false, false))],
                      _, (Except.ok.inj h2).symm, rfl, ?_⟩
                    exact seg_single _ i _
          | true =>
            rw [if_neg (by simp)] at h2
            left
            refine ⟨[((u32FromBeBytes slice2, i), (true, false))],
              { v2 with cb := (cnew, v2.cb.2 ++
                [((u32FromBeBytes slice2, i), (true, false))]) },
              (Except.ok.inj h2).symm, rfl, ?_, ?_, rfl⟩
            · exact seg_single _ i _
            · exact ⟨hwf2.1, hwf2.2.1, hwf2.2.2⟩
    rw [visitL2Step_succ] at h
    cases hpre : visitPreDump ino 0 (v.inode.i_block.getD 13 0) v with
    | error e => rw [hpre, exceptBindError] at h; exact absurd h (by simp)
    | ok v1 =>
      rw [hpre, exceptBindOk] at h
      obtain ⟨hwf1, hbs1, hcb1, hinode1⟩ :=
        visitPreDump_wf ino 0 _ v v1 (by norm_num) hwf hpre
      unfold visitL2StepRest at h
      try simp only [] at h
      cases hsl : subSlice (v1.ld.getD 0 [])
          (((i - threshold v1.s 1) / (blockSize v1.s / 4)) <<< 2) 4 with
      | error e => rw [hsl, exceptBindError] at h; exact absurd h (by simp)
      | ok slice =>
        rw [hsl, exceptBindOk] at h
        have hoffle : ((i - threshold v1.s 1) / (blockSize v1.s / 4)) <<< 2 + 4 ≤
            blockSize v1.s := by
          have := hsl
          unfold subSlice at this
          by_cases hle : ((i - threshold v1.s 1) / (blockSize v1.s / 4)) <<< 2 +
              4 ≤ natLen (v1.ld.getD 0 [])
          · rw [natLen_eq, wfV_getD v1 hwf1 0 (by norm_num)] at hle
            exact hle
          · rw [if_neg hle] at this
            exact absurd this (by simp)
        by_cases hc : v1.li.getD 1 0 ≠ u32FromBeBytes slice ∧
            u32FromBeBytes slice ≠ 0
        · rw [if_pos hc] at h
          cases hd : dumpIndexTable v1.s ino v1.inode v1.li v1.lm v1.ld 1 with
          | error e =>
            rw [hd, exceptBindError] at h
            exact absurd h (by simp)
          | ok p =>
            obtain ⟨s1, lm1⟩ := p
            rw [hd, exceptBindOk] at h
            try simp only [] at h
            rw [exceptBindOk] at h
            have hpre2 : visitPreDump ino 1 (u32FromBeBytes slice) v1 =
                .ok { v1 with
                      s := s1, lm := lm1,
                      ld := v1.ld.set 1
                        (read_data_block s1 (u32FromBeBytes slice)),
                      li := v1.li.set 1 (u32FromBeBytes slice) } := by
              unfold visitPreDump
              rw [if_pos hc, hd]
              rfl
            obtain ⟨hwf2, hbs2, hcb2, hinode2⟩ :=
              visitPreDump_wf ino 1 _ v1 _ (by norm_num) hwf1 hpre2
            have h3 : visitL2StepRest2 (traced f) ino i fuel
                (u32FromBeBytes slice)
                (((i - threshold v1.s 1) / (blockSize v1.s / 4)) <<< 2)
                (blockSize v1.s / 4)
                { v1 with
                  s := s1, lm := lm1,
                  ld := v1.ld.set 1
                    (read_data_block s1 (u32FromBeBytes slice)),
                  li := v1.li.set 1 (u32FromBeBytes slice) } = .ok res := h
            rcases htail _ _ _ _ res h3 hwf2 (by rw [hbs2]; exact hoffle) with
              ⟨Δ, v', hres, hcb, hseg, hwf', hbs'⟩ | ⟨Δ, r, hres, hcb, hseg⟩
            · left
              refine ⟨Δ, v', hres, ?_, hseg, hwf', ?_⟩
              · rw [hcb]
                show v1.cb.2 ++ Δ = _
                rw [hcb1]
              · rw [hbs']
                show blockSize s1 = _
                rw [hbs2]
                exact hbs1
            · right
              refine ⟨Δ, r, hres, ?_, hseg⟩
              rw [hcb]
              show v1.cb.2 ++ Δ = _
              rw [hcb1]
        · rw [if_neg hc] at h
          have h3 : visitL2StepRest2 (traced f) ino i fuel
              (u32FromBeBytes slice)
              (((i - threshold v1.s 1) / (blockSize v1.s / 4)) <<< 2)
              (blockSize v1.s / 4) v1 = .ok res := h
          rcases htail _ _ _ _ res h3 hwf1 hoffle with
            ⟨Δ, v', hres, hcb, hseg, hwf', hbs'⟩ | ⟨Δ, r, hres, hcb, hseg⟩
          · left
            refine ⟨Δ, v', hres, ?_, hseg, hwf', ?_⟩
            · rw [hcb, hcb1]
            · rw [hbs', hbs1]
          · right
            refine ⟨Δ, r, hres, ?_, hseg⟩
            rw [hcb, hcb1]

/-- Trace and wellformedness of one double-indirect `for` iteration. -/
theorem visitL2Iter_trace
    (f : Nat → Nat → σ → Except String ((Bool × Bool) × σ)) (ino fuel i : Nat)
    (v : LayerSt (TrState σ))
    (res : Flow (LayerSt (TrState σ)) (RFSState × TrState σ))
    (h : visitL2Iter (traced f) ino fuel i v = .ok res) (hwf : WfV v) :
    (∃ Δ v', res = .next v' ∧ v'.cb.2 = v.cb.2 ++ Δ ∧ Seg i Δ (true, false) ∧
      WfV v' ∧ blockSize v'.s = blockSize v.s) ∨
    (∃ Δ r, res = .stop r ∧ r.2.2 = v.cb.2 ++ Δ ∧ Seg i Δ (false, false)) := by
  unfold visitL2Iter at h
  simp only [] at h
  by_cases hb : v.inode.i_block.getD 13 0 = 0
  · rw [if_pos hb] at h
    cases hal : allocate_block v.s with
    | error e => rw [hal, exceptBindError] at h; exact absurd h (by simp)
    | ok p =>
      obtain ⟨nlb, s2⟩ := p
      rw [hal, exceptBindOk] at h
      simp only [] at h
      obtain ⟨hwf2, hbs2⟩ := allocate_block_wf v.s nlb s2 hwf.1 hal
      rw [write_data_block_full s2 nlb (create_block_vec s2)
        (by simp [create_block_vec]), exceptBindOk] at h
      have hwfv1 : WfV
          { v with
            s := setDisk s2 nlb (create_block_vec s2),
            inode := { v.inode with
                       i_block := v.inode.i_block.set 13 (nlb % 4294967296) },
            ld := v.ld.set 0 (read_data_block
              (setDisk s2 nlb (create_block_vec s2))
              (v.inode.i_block.getD 13 0)),
            li := v.li.set 0 (v.inode.i_block.getD 13 0) } := by
        have hwf3 : WfDisk (setDisk s2 nlb (create_block_vec s2)) :=
          wfDisk_setDisk s2 nlb _ hwf2 (by simp [create_block_vec])
        obtain ⟨hl, hm⟩ := wfV_set v hwf 0
          (read_data_block (setDisk s2 nlb (create_block_vec s2))
            (v.inode.i_block.getD 13 0))
          (by rw [show blockSize v.s =
                blockSize (setDisk s2 nlb (create_block_vec s2)) from
                  by rw [show blockSize (setDisk s2 nlb (create_block_vec s2)) =
                    blockSize s2 from rfl, hbs2]]
              exact hwf3.1 _)
        refine ⟨hwf3, hl, ?_⟩
        intro d hd
        show d.length = blockSize s2
        rw [hbs2]
        exact hm d hd
      rcases visitL2Step_trace f ino fuel i _ res h hwfv1 with
        ⟨Δ, v', hres, hcb, hseg, hwf', hbs'⟩ | ⟨Δ, r, hres, hcb, hseg⟩
      · left
        refine ⟨Δ, v', hres, hcb, hseg, hwf', ?_⟩
        rw [hbs']
        show blockSize s2 = _
        exact hbs2
      · right
        exact ⟨Δ, r, hres, hcb, hseg⟩
  · rw [if_neg hb] at h
    simp only [exceptBindOk] at h
    exact visitL2Step_trace f ino fuel i v res h hwf

/-- Trace and wellformedness of the double-indirect `for` loop. -/
theorem visitL2Loop_trace
    (f : Nat → Nat → σ → Except String ((Bool × Bool) × σ)) (ino fuel : Nat) :
    ∀ (n i : Nat) (v : LayerSt (TrState σ))
      (res : Flow (LayerSt (TrState σ)) (RFSState × TrState σ)),
    visitL2Loop (traced f) ino fuel n i v = .ok res →
    WfV v →
    (∃ v', res = .next v' ∧ WfV v' ∧ blockSize v'.s = blockSize v.s ∧
      ((n = 0 ∧ v'.cb.2 = v.cb.2) ∨
       (0 < n ∧ ∃ Δ, v'.cb.2 = v.cb.2 ++ Δ ∧
         SegT i (i + n - 1) Δ (true, false)))) ∨
    (∃ Δ r j, res = .stop r ∧ r.2.2 = v.cb.2 ++ Δ ∧
      SegT i j Δ (false, false)) := by
  intro n
  induction n with
  | zero =>
    intro i v res h hwf
    left
    refine ⟨v, (Except.ok.inj h).symm, hwf, rfl, Or.inl ⟨rfl, rfl⟩⟩
  | succ n ih =>
    intro i v res h hwf
    rw [visitL2Loop] at h
    cases hstep : visitL2Iter (traced f) ino fuel i v with
    | error e => rw [hstep, exceptBindError] at h; exact absurd h (by simp)
    | ok flow =>
      rw [hstep, exceptBindOk] at h
      rcases visitL2Iter_trace f ino fuel i v flow hstep hwf with
        ⟨Δ1, v1, hflow, hcb1, hseg1, hwf1, hbs1⟩ | ⟨Δ1, r, hflow, hcb1, hseg1⟩
      · subst hflow
        simp only [] at h
        rcases ih (i + 1) v1 res h hwf1 with
          ⟨v', hres, hwf', hbs', hrest⟩ | ⟨Δ2, r, j, hres, hcb2, hsegT2⟩
        · left
          refine ⟨v', hres, hwf', by rw [hbs', hbs1],
            Or.inr ⟨Nat.succ_pos n, ?_⟩⟩
          rcases hrest with ⟨hn0, hcb⟩ | ⟨hpos, Δ2, hcb, hsegT⟩
          · subst hn0
            exact ⟨Δ1, by rw [hcb, hcb1], seg_segT i Δ1 _ hseg1⟩
          · refine ⟨Δ1 ++ Δ2, ?_, ?_⟩
            · rw [hcb, hcb1, List.append_assoc]
            · have := segT_append i i (i + 1) (i + 1 + n - 1) Δ1 Δ2 _
                (seg_segT i Δ1 _ hseg1) hsegT rfl
              rw [show i + (n + 1) - 1 = i + 1 + n - 1 from by omega]
              exact this
        · right
          refine ⟨Δ1 ++ Δ2, r, j, hres, ?_, ?_⟩
          · rw [hcb2, hcb1, List.append_assoc]
          · exact segT_append i i (i + 1) j Δ1 Δ2 _
              (seg_segT i Δ1 _ hseg1) hsegT2 rfl
      · subst hflow
        simp only [] at h
        right
        exact ⟨Δ1, r, i, (Except.ok.inj h).symm, hcb1, seg_segT i Δ1 _ hseg1⟩

/-- Threshold values only depend on the block size. -/
theorem threshold_congr (s1 s2 : RFSState) (h : blockSize s1 = blockSize s2)
    (l : Nat) : threshold s1 l = threshold s2 l := by
  unfold threshold
  rw [h]

/-- A `(false, false)`-terminated range segment starting at `start` is a
wellformed completed trace. -/
theorem segT_traceWf (start j : Nat)
    (Δ : List ((Nat × Nat) × Bool × Bool))
    (h : SegT start j Δ (false, false)) :
    TraceWf start Δ := by
  obtain ⟨hne, hch, hhd, hlast⟩ := h
  exact ⟨hch, hhd, hne, fun p hp => (hlast p hp).2⟩

/-- Extending the accumulated prefix by a phase's `(true, false)`-terminated
segment. -/
theorem prefixTrace_extend (start lo hi lo2 : Nat)
    (Δ0 Δ : List ((Nat × Nat) × Bool × Bool))
    (h : PrefixTrace start lo Δ0) (h2 : SegT lo hi Δ (true, false))
    (hlo2 : lo2 = hi + 1) (hsl : start ≤ hi) :
    PrefixTrace start lo2 (Δ0 ++ Δ) := by
  right
  refine ⟨?_, by omega, by omega⟩
  rcases h with ⟨hnil, hlo⟩ | ⟨hseg, h3, h4⟩
  · subst hnil
    subst hlo
    rw [List.nil_append, show lo2 - 1 = hi from by omega]
    exact h2
  · rw [show lo2 - 1 = hi from by omega]
    exact segT_append start (lo - 1) lo hi Δ0 Δ _ hseg h2 (by omega)

/-- Closing the accumulated prefix with a `(false, false)`-terminated final
segment yields a wellformed completed trace. -/
theorem prefixTrace_close (start lo j : Nat)
    (Δ0 Δ : List ((Nat × Nat) × Bool × Bool)) (h : PrefixTrace start lo Δ0)
    (h2 : SegT lo j Δ (false, false)) :
    TraceWf start (Δ0 ++ Δ) := by
  rcases h with ⟨hnil, hlo⟩ | ⟨hseg, h3, h4⟩
  · subst hnil
    subst hlo
    rw [List.nil_append]
    exact segT_traceWf lo j Δ h2
  · exact segT_traceWf start j _
      (segT_append start (lo - 1) lo j Δ0 Δ _ hseg h2 (by omega))

/-- On a wellformed state, every *successful* traversal with an arbitrary
stateful callback invokes it in the claimed discipline: first invocation at
`start_index`, every next invocation either at the same index after a
`need_allocate` reply or at the next index after a plain continue, and a
final invocation whose reply was `(false, false)`. -/
theorem visit_traced_traceWf
    (f : Nat → Nat → σ → Except String ((Bool × Bool) × σ)) (s : RFSState)
    (ino start fuel : Nat) (c0 : σ) (out : RFSState × TrState σ)
    (hwf : WfDisk s)
    (h : visit_blocks_inode (traced f) s ino start
      ((c0, []) : TrState σ) fuel = .ok out) :
    TraceWf start out.2.2 := by
  have hT0 : threshold s 0 = 12 := rfl
  have hT1 : threshold s 1 = 12 + blockSize s / 4 := rfl
  have hT2 : threshold s 2 = 12 + blockSize s / 4 +
      blockSize s / 4 * (blockSize s / 4) := rfl
  have hT3 : threshold s 3 = 11 + blockSize s / 4 + blockSize s / 4 * 2 +
      blockSize s / 4 * (blockSize s / 4) := rfl
  have hL : 256 ≤ blockSize s / 4 := blockSize_div4_ge s
  unfold visit_blocks_inode at h
  try simp only [] at h
  cases hD : visitDirectLoop (traced f) ino fuel (threshold s 0 - start)
      start { s := s, inode := get_inode s ino, modified := false,
              cb := ((c0, []) : TrState σ) } with
  | error e => rw [hD, exceptBindError] at h; exact absurd h (by simp)
  | ok flowD =>
    rw [hD, exceptBindOk] at h
    rcases visitDirectLoop_trace f ino fuel (threshold s 0 - start) start _
        flowD hD hwf with
      ⟨d1, hflow, hwf1, hbs1, hrest0⟩ | ⟨Δ0, r, j, hflow, hcb0, hsegT0⟩
    · subst hflow
      try simp only [] at h
      have hth1 : ∀ l, threshold d1.s l = threshold s l := fun l =>
        threshold_congr d1.s s hbs1 l
      simp only [hth1] at h
      have hpre1 : ∃ Δd, d1.cb.2 = Δd ∧
          PrefixTrace start (max start (threshold s 0)) Δd := by
        rcases hrest0 with ⟨hn0, hcb⟩ | ⟨hpos, Δ0, hcb, hsegT⟩
        · refine ⟨[], hcb, Or.inl ⟨rfl, ?_⟩⟩
          rw [hT0] at hn0 ⊢
          omega
        · refine ⟨Δ0, by rw [hcb]; rfl, ?_⟩
          refine prefixTrace_extend start start (start + (threshold s 0 -
            start) - 1) _ [] Δ0 (Or.inl ⟨rfl, rfl⟩) hsegT ?_ ?_
          · rw [hT0] at hpos ⊢
            omega
          · rw [hT0] at hpos ⊢
            omega
      obtain ⟨Δd, hcbd, hpd⟩ := hpre1
      have hwfV0 : WfV
          { s := d1.s, inode := d1.inode,
            li := [usizeMAX, usizeMAX, usizeMAX], lm := [false, false, false],
            ld := [create_block_vec d1.s, create_block_vec d1.s,
                   create_block_vec d1.s],
            cb := d1.cb } := by
        refine ⟨hwf1, rfl, ?_⟩
        intro d hd
        simp only [List.mem_cons, List.not_mem_nil, or_false] at hd
        rcases hd with hd | hd | hd <;> rw [hd] <;> simp [create_block_vec]
      cases hL1 : visitL1Loop (traced f) ino fuel
          (threshold s 1 - max start (threshold s 0))
          (max start (threshold s 0))
          { s := d1.s, inode := d1.inode,
            li := [usizeMAX, usizeMAX, usizeMAX],
            lm := [false, false, false],
            ld := [create_block_vec d1.s, create_block_vec d1.s,
                   create_block_vec d1.s],
            cb := d1.cb } with
      | error e => rw [hL1, exceptBindError] at h; exact absurd h (by simp)
      | ok flow1 =>
        rw [hL1, exceptBindOk] at h
        rcases visitL1Loop_trace f ino fuel _ _ _ flow1 hL1 hwfV0 with
          ⟨v1, hflow1, hwfv1, hbsv1, hrest1⟩ |
          ⟨Δ1, r, j, hflow1, hcb1, hsegT1⟩
        · subst hflow1
          try simp only [] at h
          have hpre2 : ∃ Δe, v1.cb.2 = Δe ∧
              PrefixTrace start (max start (threshold s 1)) Δe := by
            rcases hrest1 with ⟨hn1, hcb⟩ | ⟨hpos, Δ1, hcb, hsegT⟩
            · refine ⟨Δd, by rw [hcb]; exact hcbd, ?_⟩
              have : max start (threshold s 1) = max start (threshold s 0) := by
                rw [hT0, hT1] at hn1 ⊢
                omega
              rw [this]
              exact hpd
            · refine ⟨Δd ++ Δ1, by rw [hcb, hcbd], ?_⟩
              refine prefixTrace_extend start (max start (threshold s 0))
                (max start (threshold s 0) +
                  (threshold s 1 - max start (threshold s 0)) - 1) _
                Δd Δ1 hpd hsegT ?_ ?_
              · rw [hT0, hT1] at hpos ⊢
                omega
              · rw [hT0, hT1] at hpos ⊢
                omega
          obtain ⟨Δe, hcbe, hpe⟩ := hpre2
          cases hdump1 : dumpIndexTable v1.s ino v1.inode v1.li v1.lm
              v1.ld 0 with
          | error e =>
            rw [hdump1, exceptBindError] at h; exact absurd h (by simp)
          | ok p1 =>
            obtain ⟨s2, lm2⟩ := p1
            rw [hdump1, exceptBindOk] at h
            try simp only [] at h
            obtain ⟨hwfs2, hbss2⟩ := dumpIndexTable_wf v1.s ino v1.inode
              v1.li v1.lm v1.ld 0 s2 lm2 hwfv1.1
              (wfV_getD v1 hwfv1 0 (by norm_num)) hdump1
            have hth2 : ∀ l, threshold s2 l = threshold s l := fun l =>
              threshold_congr s2 s (by rw [hbss2, hbsv1]
                                       show blockSize d1.s = blockSize s
                                       exact hbs1) l
            simp only [hth2] at h
            have hwfv2 : WfV { v1 with s := s2, lm := lm2 } := by
              refine ⟨hwfs2, hwfv1.2.1, ?_⟩
              intro d hd
              show d.length = blockSize s2
              rw [hbss2]
              exact hwfv1.2.2 d hd
            cases hL2 : visitL2Loop (traced f) ino fuel
                (threshold s 2 - max start (threshold s 1))
                (max start (threshold s 1)) { v1 with s := s2, lm := lm2 } with
            | error e => rw [hL2, exceptBindError] at h; exact absurd h (by simp)
            | ok flow2 =>
              rw [hL2, exceptBindOk] at h
              rcases visitL2Loop_trace f ino fuel _ _ _ flow2 hL2 hwfv2 with
                ⟨v3, hflow2, hwfv3, hbsv3, hrest2⟩ |
                ⟨Δ2, r, j, hflow2, hcb2, hsegT2⟩
              · subst hflow2
                try simp only [] at h
                cases hdump2 : dumpIndexTable v3.s ino v3.inode v3.li v3.lm
                    v3.ld 0 with
                | error e =>
                  rw [hdump2, exceptBindError] at h; exact absurd h (by simp)
                | ok p2 =>
                  obtain ⟨s4, lm4⟩ := p2
                  rw [hdump2, exceptBindOk] at h
                  try simp only [] at h
                  obtain ⟨hwfs4, hbss4⟩ := dumpIndexTable_wf v3.s ino v3.inode
                    v3.li v3.lm v3.ld 0 s4 lm4 hwfv3.1
                    (wfV_getD v3 hwfv3 0 (by norm_num)) hdump2
                  cases hdump3 : dumpIndexTable s4 ino v3.inode v3.li lm4
                      v3.ld 1 with
                  | error e =>
                    rw [hdump3, exceptBindError] at h
                    exact absurd h (by simp)
                  | ok p3 =>
                    obtain ⟨s5, lm5⟩ := p3
                    rw [hdump3, exceptBindOk] at h
                    try simp only [] at h
                    obtain ⟨hwfs5, hbss5⟩ := dumpIndexTable_wf s4 ino v3.inode
                      v3.li lm4 v3.ld 1 s5 lm5 hwfs4
                      (by rw [hbss4]; exact wfV_getD v3 hwfv3 1 (by norm_num))
                      hdump3
                    have hbs5s : blockSize s5 = blockSize s := by
                      rw [hbss5, hbss4, hbsv3]
                      show blockSize s2 = blockSize s
                      rw [hbss2, hbsv1]
                      show blockSize d1.s = blockSize s
                      exact hbs1
                    have hth5 : ∀ l, threshold s5 l = threshold s l := fun l =>
                      threshold_congr s5 s hbs5s l
                    simp only [hth5, hbs5s] at h
                    obtain ⟨rest, hrsl⟩ := rangeStepList_cons (threshold s 2)
                      (threshold s 3)
                      (blockSize s / 4 * (blockSize s / 4))
                      (by rw [hT2, hT3]; omega)
                      (Nat.mul_pos (by omega) (by omega))
                    rw [hrsl] at h
                    have hldlen5 : v3.ld.length = 3 := hwfv3.2.1
                    have herr := visitL3ILoop_head_error (traced f) start
                      (threshold s 2) rest
                      { v3 with s := s5, lm := lm5 }
                      (by intro b
                          show (s5.disk b).length = blockSize s5
                          exact hwfs5.1 b)
                      (by show (v3.ld.getD 0 []).length = blockSize s5
                          rw [hbss5, hbss4]
                          exact wfV_getD v3 hwfv3 0 (by norm_num))
                      (by show v3.ld ≠ []
                          intro hnil
                          rw [hnil] at hldlen5
                          simp at hldlen5)
                      (by show threshold s 2 - threshold s5 1 =
                            blockSize s5 / 4 * (blockSize s5 / 4)
                          rw [hth5, hbs5s, hT2, hT1]
                          omega)
                    rw [herr, exceptBindError] at h
                    exact absurd h (by simp)
              · subst hflow2
                try simp only [] at h
                have hout : out = r := (Except.ok.inj h).symm
                rw [hout, hcb2]
                show TraceWf start (v1.cb.2 ++ Δ2)
                rw [hcbe]
                exact prefixTrace_close start _ j Δe Δ2 hpe hsegT2
        · subst hflow1
          try simp only [] at h
          have hout : out = r := (Except.ok.inj h).symm
          rw [hout, hcb1]
          show TraceWf start (d1.cb.2 ++ Δ1)
          rw [hcbd]
          exact prefixTrace_close start _ j Δd Δ1 hpd hsegT1
    · subst hflow
      try simp only [] at h
      have hout : out = r := (Except.ok.inj h).symm
      rw [hout, hcb0]
      show TraceWf start ([] ++ Δ0)
      rw [List.nil_append]
      exact segT_traceWf start j Δ0 hsegT0

set_option maxRecDepth 200000 in
/-- Claim C1 (counterexample): on the freshly formatted state, starting the
visitor at the in-range index `T₂ = 65804` (≤ `T₃ = 66315`) returns the
triple-indirect slice panic instead of invoking the callback — even with a
callback that stops immediately, so no trace at all is produced, refuting
the claimed invoke-at-`start_index` discipline. -/
theorem c1_counterexample :
    (visit_blocks_inode (tracedCb (fun _ _ => (false, false))) baseState 2
        65804 ([] : List (Nat × Nat)) 1).map (fun p => p.2) =
      .error "slice index out of range" ∧
    threshold baseState 2 = 65804 ∧ 65804 ≤ threshold baseState 3 := by
  refine ⟨by rfl, by decide, by decide⟩

/-- Overwritten slot of a list update. -/
theorem getD_set_self : ∀ (l : List α) (n : Nat) (a d : α),
    n < l.length → (l.set n a).getD n d = a
  | [], n, _, _, h => absurd h (Nat.not_lt_zero n)
  | _ :: _, 0, _, _, _ => rfl
  | _ :: xs, n + 1, a, d, h => getD_set_self xs n a d (Nat.lt_of_succ_lt_succ h)

/-- Untouched slots of a list update. -/
theorem getD_set_ne : ∀ (l : List α) (m n : Nat) (a d : α),
    m ≠ n → (l.set m a).getD n d = l.getD n d
  | [], _, _, _, _, _ => rfl
  | _ :: _, 0, 0, _, _, h => absurd rfl h
  | _ :: _, 0, _ + 1, _, _, _ => rfl
  | _ :: _, _ + 1, 0, _, _, _ => rfl
  | _ :: xs, m + 1, n + 1, a, d, h =>
    getD_set_ne xs m n a d (fun he => h (by rw [he]))

/-- `u32::to_be_bytes` always yields four bytes. -/
theorem u32beBytes_length (v : Nat) : (u32beBytes v).length = 4 := rfl

/-- Big-endian 32-bit serialize/deserialize roundtrip. -/
theorem u32FromBeBytes_beBytes (v : Nat) (h : v < 4294967296) :
    u32FromBeBytes (u32beBytes v) = v := by
  show 16777216 * (v / 16777216 % 256) + 65536 * (v / 65536 % 256) +
    256 * (v / 256 % 256) + v % 256 = v
  omega

/-- Reading back the range just written by a successful byte copy yields
the written bytes. -/
theorem writeBytes_readback (dst : List Nat) (off : Nat) (src out : List Nat)
    (h : writeBytes dst off src = .ok out) :
    subSlice out off src.length = .ok src := by
  unfold writeBytes at h
  by_cases hc : off + natLen src ≤ natLen dst
  · rw [if_pos hc] at h
    have hout : out = dst.take off ++ src ++ dst.drop (off + natLen src) :=
      (Except.ok.inj h).symm
    subst hout
    simp only [natLen_eq] at hc
    have hA : (dst.take off).length = off := by
      rw [List.length_take]
      omega
    have hcond : off + src.length ≤
        natLen (dst.take off ++ src ++ dst.drop (off + natLen src)) := by
      simp only [natLen_eq, List.length_append, List.length_take,
        List.length_drop]
      omega
    unfold subSlice
    rw [if_pos hcond, List.append_assoc, List.drop_left' hA,
      List.take_left' rfl]
  · rw [if_neg hc] at h
    exact absurd h (by simp)

/-- `visitPreDump` when the requested index block is already cached (or is
block 0): no state change. -/
theorem visitPreDump_noop (ino slot bn : Nat) (v : LayerSt σ)
    (h : ¬(v.li.getD slot 0 ≠ bn ∧ bn ≠ 0)) :
    visitPreDump ino slot bn v = .ok v := by
  unfold visitPreDump
  rw [if_neg h]

/-- `visitDirectStep` factored through the callback invocation and
`visitDirectPost`. -/
theorem visitDirectStep_succ
    (f : Nat → Nat → σ → Except String ((Bool × Bool) × σ))
    (ino i fuel : Nat) (d : DirectSt σ) :
    visitDirectStep f ino i (fuel + 1) d =
      f (d.inode.i_block.getD i 0) i d.cb >>=
        visitDirectPost f ino i fuel d := by
  rw [visitDirectStep]
  cases f (d.inode.i_block.getD i 0) i d.cb with
  | error e => rfl
  | ok p =>
    obtain ⟨⟨r0, r1⟩, cb⟩ := p
    rfl

/-- `visitL1StepRest` factored through the pointer read, the callback
invocation and `visitL1Post`. -/
theorem visitL1StepRest_post
    (f : Nat → Nat → σ → Except String ((Bool × Bool) × σ))
    (ino i fuel : Nat) (v : LayerSt σ) :
    visitL1StepRest f ino i fuel v =
      subSlice (v.ld.getD 0 []) ((i - threshold v.s 0) <<< 2) 4 >>=
        fun slice =>
          f (u32FromBeBytes slice) i v.cb >>=
            visitL1Post f ino i fuel ((i - threshold v.s 0) <<< 2) v := rfl

/-- `visitL2StepRest2` factored through the second-level pointer read, the
callback invocation and `visitL2Post`. -/
theorem visitL2StepRest2_post
    (f : Nat → Nat → σ → Except String ((Bool × Bool) × σ))
    (ino i fuel bn2 offset ls : Nat) (v : LayerSt σ) :
    visitL2StepRest2 f ino i fuel bn2 offset ls v =
      subSlice (v.ld.getD 1 []) (((i - 12) % ls) <<< 2) 4 >>= fun slice2 =>
        f (u32FromBeBytes slice2) i v.cb >>=
          visitL2Post f ino i fuel bn2 offset (((i - 12) % ls) <<< 2) v := rfl

/-- `visitL2StepRest` factored through the first-level pointer read, the
mid-level reload and `visitL2StepRest2`. -/
theorem visitL2StepRest_eq
    (f : Nat → Nat → σ → Except String ((Bool × Bool) × σ))
    (ino i fuel : Nat) (v : LayerSt σ) :
    visitL2StepRest f ino i fuel v =
      subSlice (v.ld.getD 0 [])
          (((i - threshold v.s 1) / (blockSize v.s / 4)) <<< 2) 4 >>=
        fun slice =>
          visitPreDump ino 1 (u32FromBeBytes slice) v >>=
            visitL2StepRest2 f ino i fuel (u32FromBeBytes slice)
              (((i - threshold v.s 1) / (blockSize v.s / 4)) <<< 2)
              (blockSize v.s / 4) := by
  unfold visitL2StepRest
  simp only []
  cases subSlice (v.ld.getD 0 [])
      (((i - threshold v.s 1) / (blockSize v.s / 4)) <<< 2) 4 with
  | error e => rfl
  | ok slice =>
    simp only [exceptBindOk]
    unfold visitPreDump
    by_cases hc : v.li.getD 1 0 ≠ u32FromBeBytes slice ∧
        u32FromBeBytes slice ≠ 0
    · rw [if_pos hc, if_pos hc]
      cases dumpIndexTable v.s ino v.inode v.li v.lm v.ld 1 with
      | error e => rfl
      | ok p =>
        obtain ⟨s1, lm1⟩ := p
        rfl
    · rw [if_neg hc, if_neg hc]
      rfl

/-- A `need_allocate` reply in the direct region: allocate a block and
retry with the inode's pointer slot updated. -/
theorem visitDirectPost_allocates
    (f : Nat → Nat → σ → Except String ((Bool × Bool) × σ))
    (ino i fuel : Nat) (d : DirectSt σ) (r0 : Bool) (cb : σ)
    (nb : Nat) (s' : RFSState)
    (hal : allocate_block d.s = .ok (nb, s')) :
    visitDirectPost f ino i fuel d ((r0, true), cb) =
      visitDirectStep f ino i fuel
        { s := s',
          inode := { d.inode with
                     i_block := d.inode.i_block.set i (nb % 4294967296) },
          modified := true, cb := cb } := by
  have h1 : visitDirectPost f ino i fuel d ((r0, true), cb) =
      allocate_block d.s >>= fun q =>
        visitDirectStep f ino i fuel
          { s := q.2,
            inode := { d.inode with
                       i_block := d.inode.i_block.set i (q.1 % 4294967296) },
            modified := true, cb := cb } := rfl
  rw [h1, hal, exceptBindOk]

/-- A `continue = false` reply in the direct region: persist the modified
inode and stop. -/
theorem visitDirectPost_stops
    (f : Nat → Nat → σ → Except String ((Bool × Bool) × σ))
    (ino i fuel : Nat) (d : DirectSt σ) (cb : σ) :
    visitDirectPost f ino i fuel d ((false, false), cb) =
      if d.modified then
        set_inode d.s ino d.inode >>= fun s => Except.ok (.stop (s, cb))
      else Except.ok (.stop (d.s, cb)) := rfl

/-- A `need_allocate` reply in the single-indirect region: allocate a
block and retry with the pointer written into the cached index block,
which is marked dirty for write-back. -/
theorem visitL1Post_allocates
    (f : Nat → Nat → σ → Except String ((Bool × Bool) × σ))
    (ino i fuel offset : Nat) (v : LayerSt σ) (r0 : Bool) (cb : σ)
    (nb : Nat) (s' : RFSState) (ld0 : List Nat)
    (hal : allocate_block v.s = .ok (nb, s'))
    (hwb : writeBytes (v.ld.getD 0 []) offset (u32beBytes (nb % 4294967296)) =
      .ok ld0) :
    visitL1Post f ino i fuel offset v ((r0, true), cb) =
      visitL1Step f ino i fuel
        { v with s := s', ld := v.ld.set 0 ld0, lm := v.lm.set 0 true,
                 cb := cb } := by
  have h1 : visitL1Post f ino i fuel offset v ((r0, true), cb) =
      allocate_block v.s >>= fun q =>
        writeBytes (v.ld.getD 0 []) offset (u32beBytes (q.1 % 4294967296)) >>=
          fun ld0 =>
            visitL1Step f ino i fuel
              { v with s := q.2, ld := v.ld.set 0 ld0, lm := v.lm.set 0 true,
                       cb := cb } := rfl
  rw [h1]
  simp only [hal, hwb, exceptBindOk]

/-- A `continue = false` reply in the single-indirect region: dump the
cached index block (writing it back if dirty), write the inode back, and
stop. -/
theorem visitL1Post_stops
    (f : Nat → Nat → σ → Except String ((Bool × Bool) × σ))
    (ino i fuel offset : Nat) (v : LayerSt σ) (cb : σ) :
    visitL1Post f ino i fuel offset v ((false, false), cb) =
      dumpIndexTable v.s ino v.inode v.li v.lm v.ld 0 >>= fun q =>
        if q.2.getD 0 false then
          set_inode q.1 ino v.inode >>= fun s => Except.ok (.stop (s, cb))
        else Except.ok (.stop (q.1, cb)) := rfl

/-- A `need_allocate` reply in the double-indirect region (mid-level index
block present): allocate a block and retry with the pointer written into
the cached mid-level index block, which is marked dirty for write-back. -/
theorem visitL2Post_allocates
    (f : Nat → Nat → σ → Except String ((Bool × Bool) × σ))
    (ino i fuel bn2 offset offset2 : Nat) (v : LayerSt σ) (r0 : Bool)
    (cb : σ) (nb : Nat) (s' : RFSState) (ld1 : List Nat)
    (hbz : bn2 ≠ 0)
    (hal : allocate_block v.s = .ok (nb, s'))
    (hwb : writeBytes (v.ld.getD 1 []) offset2
      (u32beBytes (nb % 4294967296)) = .ok ld1) :
    visitL2Post f ino i fuel bn2 offset offset2 v ((r0, true), cb) =
      visitL2Step f ino i fuel
        { v with s := s', ld := v.ld.set 1 ld1, lm := v.lm.set 1 true,
                 cb := cb } := by
  unfold visitL2Post
  simp only []
  rw [if_pos trivial, if_neg hbz]
  simp only [hal, hwb, exceptBindOk]

/-- A `continue = false` reply in the double-indirect region: dump both
cached index blocks (writing dirty ones back), write the inode back, and
stop. -/
theorem visitL2Post_stops
    (f : Nat → Nat → σ → Except String ((Bool × Bool) × σ))
    (ino i fuel bn2 offset offset2 : Nat) (v : LayerSt σ) (cb : σ) :
    visitL2Post f ino i fuel bn2 offset offset2 v ((false, false), cb) =
      dumpIndexTable v.s ino v.inode v.li v.lm v.ld 0 >>= fun q =>
        dumpIndexTable q.1 ino v.inode v.li q.2 v.ld 1 >>= fun q2 =>
          if q2.2.getD 0 false then
            set_inode q2.1 ino v.inode >>= fun s =>
              if q2.2.getD 1 false then
                set_inode s ino v.inode >>= fun s2 =>
                  Except.ok (.stop (s2, cb))
              else Except.ok (.stop (s, cb))
          else
            if q2.2.getD 1 false then
              set_inode q2.1 ino v.inode >>= fun s2 =>
                Except.ok (.stop (s2, cb))
            else Except.ok (.stop (q2.1, cb)) := rfl

/-- Direct region, two steps: after a `need_allocate` reply the traversal
allocates a new block, updates the inode's pointer at slot `i`, and
re-invokes the callback at the *same* index with the newly allocated block
number. -/
theorem visitDirectStep_allocates
    (f : Nat → Nat → σ → Except String ((Bool × Bool) × σ))
    (ino i fuel : Nat) (d : DirectSt σ) (r0 : Bool) (cb : σ)
    (nb : Nat) (s' : RFSState)
    (hi : i < d.inode.i_block.length)
    (hf : f (d.inode.i_block.getD i 0) i d.cb = .ok ((r0, true), cb))
    (hal : allocate_block d.s = .ok (nb, s')) :
    visitDirectStep f ino i (fuel + 2) d =
      f (nb % 4294967296) i cb >>=
        visitDirectPost f ino i fuel
          { s := s',
            inode := { d.inode with
                       i_block := d.inode.i_block.set i (nb % 4294967296) },
            modified := true, cb := cb } := by
  show visitDirectStep f ino i (fuel + 1 + 1) d = _
  rw [visitDirectStep_succ]
  simp only [hf, exceptBindOk]
  rw [visitDirectPost_allocates f ino i (fuel + 1) d r0 cb nb s' hal,
    visitDirectStep_succ,
    show ({ s := s',
            inode := { d.inode with
                       i_block := d.inode.i_block.set i (nb % 4294967296) },
            modified := true, cb := cb } : DirectSt σ).inode.i_block.getD i 0 =
        nb % 4294967296 from getD_set_self _ _ _ _ hi]

/-- Single-indirect region, two steps: with the index block cached, after a
`need_allocate` reply the traversal allocates a new block, writes its
number into the cached index block at the pointer slot for index `i`
(marking it dirty for write-back), and re-invokes the callback at the
*same* index with the newly allocated block number. -/
theorem visitL1Step_allocates
    (f : Nat → Nat → σ → Except String ((Bool × Bool) × σ))
    (ino i fuel : Nat) (v : LayerSt σ) (slice : List Nat) (r0 : Bool)
    (cb : σ) (nb : Nat) (s' : RFSState) (ld0 : List Nat)
    (hli : v.li.getD 0 0 = v.inode.i_block.getD 12 0)
    (hld : 0 < v.ld.length)
    (hsl : subSlice (v.ld.getD 0 []) ((i - threshold v.s 0) <<< 2) 4 =
      .ok slice)
    (hf : f (u32FromBeBytes slice) i v.cb = .ok ((r0, true), cb))
    (hal : allocate_block v.s = .ok (nb, s'))
    (hwb : writeBytes (v.ld.getD 0 []) ((i - threshold v.s 0) <<< 2)
      (u32beBytes (nb % 4294967296)) = .ok ld0) :
    visitL1Step f ino i (fuel + 2) v =
      f (nb % 4294967296) i cb >>=
        visitL1Post f ino i fuel ((i - threshold v.s 0) <<< 2)
          { v with s := s', ld := v.ld.set 0 ld0, lm := v.lm.set 0 true,
                   cb := cb } := by
  have hrb : subSlice ld0 ((i - threshold v.s 0) <<< 2) 4 =
      .ok (u32beBytes (nb % 4294967296)) := by
    have h4 := writeBytes_readback _ _ _ _ hwb
    rwa [u32beBytes_length] at h4
  show visitL1Step f ino i (fuel + 1 + 1) v = _
  rw [visitL1Step_succ,
    visitPreDump_noop ino 0 (v.inode.i_block.getD 12 0) v
      (by rw [hli]; simp),
    exceptBindOk, visitL1StepRest_post]
  simp only [hsl, exceptBindOk, hf]
  rw [visitL1Post_allocates f ino i (fuel + 1) ((i - threshold v.s 0) <<< 2)
    v r0 cb nb s' ld0 hal hwb]
  set v2 : LayerSt σ :=
    { v with s := s', ld := v.ld.set 0 ld0, lm := v.lm.set 0 true,
             cb := cb } with hv2
  have hli2 : v2.li = v.li := by rw [hv2]
  have hin2 : v2.inode = v.inode := by rw [hv2]
  have hgd : v2.ld.getD 0 [] = ld0 := by
    rw [hv2]
    exact getD_set_self v.ld 0 ld0 [] hld
  have hth2 : threshold v2.s 0 = threshold v.s 0 := rfl
  have hcb2 : v2.cb = cb := by rw [hv2]
  rw [visitL1Step_succ,
    visitPreDump_noop ino 0 (v2.inode.i_block.getD 12 0) v2
      (by rw [hli2, hin2, hli]; simp),
    exceptBindOk, visitL1StepRest_post, hth2, hgd]
  simp only [hrb, exceptBindOk]
  rw [u32FromBeBytes_beBytes (nb % 4294967296) (Nat.mod_lt _ (by norm_num))]

/-- Double-indirect region, two steps: with both index blocks cached and
the mid-level index block present, after a `need_allocate` reply the
traversal allocates a new block, writes its number into the cached
mid-level index block at the pointer slot for index `i` (marking it dirty
for write-back), and re-invokes the callback at the *same* index with the
newly allocated block number. -/
theorem visitL2Step_allocates
    (f : Nat → Nat → σ → Except String ((Bool × Bool) × σ))
    (ino i fuel : Nat) (v : LayerSt σ) (slice0 slice2 : List Nat)
    (r0 : Bool) (cb : σ) (nb : Nat) (s' : RFSState) (ld1 : List Nat)
    (hwf : WfDisk v.s)
    (hld3 : v.ld.length = 3)
    (hli0 : v.li.getD 0 0 = v.inode.i_block.getD 13 0)
    (hsl0 : subSlice (v.ld.getD 0 [])
      (((i - threshold v.s 1) / (blockSize v.s / 4)) <<< 2) 4 = .ok slice0)
    (hli1 : v.li.getD 1 0 = u32FromBeBytes slice0)
    (hbz : u32FromBeBytes slice0 ≠ 0)
    (hsl2 : subSlice (v.ld.getD 1 [])
      (((i - 12) % (blockSize v.s / 4)) <<< 2) 4 = .ok slice2)
    (hf : f (u32FromBeBytes slice2) i v.cb = .ok ((r0, true), cb))
    (hal : allocate_block v.s = .ok (nb, s'))
    (hwb : writeBytes (v.ld.getD 1 [])
      (((i - 12) % (blockSize v.s / 4)) <<< 2)
      (u32beBytes (nb % 4294967296)) = .ok ld1) :
    visitL2Step f ino i (fuel + 2) v =
      f (nb % 4294967296) i cb >>=
        visitL2Post f ino i fuel (u32FromBeBytes slice0)
          (((i - threshold v.s 1) / (blockSize v.s / 4)) <<< 2)
          (((i - 12) % (blockSize v.s / 4)) <<< 2)
          { v with s := s', ld := v.ld.set 1 ld1, lm := v.lm.set 1 true,
                   cb := cb } := by
  have hbs' : blockSize s' = blockSize v.s :=
    (allocate_block_wf v.s nb s' hwf hal).2
  have hrb : subSlice ld1 (((i - 12) % (blockSize v.s / 4)) <<< 2) 4 =
      .ok (u32beBytes (nb % 4294967296)) := by
    have h4 := writeBytes_readback _ _ _ _ hwb
    rwa [u32beBytes_length] at h4
  show visitL2Step f ino i (fuel + 1 + 1) v = _
  rw [visitL2Step_succ,
    visitPreDump_noop ino 0 (v.inode.i_block.getD 13 0) v
      (by rw [hli0]; simp),
    exceptBindOk, visitL2StepRest_eq]
  simp only [hsl0, exceptBindOk]
  rw [visitPreDump_noop ino 1 (u32FromBeBytes slice0) v
      (by rw [hli1]; simp),
    exceptBindOk, visitL2StepRest2_post]
  simp only [hsl2, exceptBindOk, hf]
  rw [visitL2Post_allocates f ino i (fuel + 1) (u32FromBeBytes slice0)
    (((i - threshold v.s 1) / (blockSize v.s / 4)) <<< 2)
    (((i - 12) % (blockSize v.s / 4)) <<< 2) v r0 cb nb s' ld1 hbz hal hwb]
  set v2 : LayerSt σ :=
    { v with s := s', ld := v.ld.set 1 ld1, lm := v.lm.set 1 true,
             cb := cb } with hv2
  have hv2s : v2.s = s' := by rw [hv2]
  have hli2 : v2.li = v.li := by rw [hv2]
  have hin2 : v2.inode = v.inode := by rw [hv2]
  have hbs2 : blockSize v2.s = blockSize v.s := by rw [hv2s, hbs']
  have hth : threshold v2.s 1 = threshold v.s 1 :=
    threshold_congr v2.s v.s hbs2 1
  have hgd0 : v2.ld.getD 0 [] = v.ld.getD 0 [] := by
    rw [hv2]
    exact getD_set_ne v.ld 1 0 ld1 [] (by norm_num)
  have hgd1 : v2.ld.getD 1 [] = ld1 := by
    rw [hv2]
    exact getD_set_self v.ld 1 ld1 [] (by omega)
  have hcb2 : v2.cb = cb := by rw [hv2]
  rw [visitL2Step_succ,
    visitPreDump_noop ino 0 (v2.inode.i_block.getD 13 0) v2
      (by rw [hli2, hin2, hli0]; simp),
    exceptBindOk, visitL2StepRest_eq, hth, hbs2, hgd0]
  simp only [hsl0, exceptBindOk]
  rw [visitPreDump_noop ino 1 (u32FromBeBytes slice0) v2
      (by rw [hli2, hli1]; simp),
    exceptBindOk, visitL2StepRest2_post, hgd1]
  simp only [hrb, exceptBindOk]
  rw [u32FromBeBytes_beBytes (nb % 4294967296) (Nat.mod_lt _ (by norm_num))]

/-- Claim C1 (amended): for every *stateful* callback `f`, (1) every
successful traversal invokes `f` in the claimed discipline — first
invocation at `start_index`, the index advancing by exactly one after each
`(continue, ¬need_allocate)` reply and revisited after each `need_allocate`
reply, ending with the invocation whose reply was `(false, false)`; (2)/(4)/(6)
in the direct, single- and double-indirect regions a `need_allocate` reply
makes the traversal allocate a new data block, update the pointer that
references that slot (the inode's block array, or the cached parent index
block which is marked dirty for write-back), and re-invoke `f` at the same
index with the newly allocated block number; (3)/(5)/(7) a
`continue = false` reply makes it persist pending modifications (the inode
and any dirty index block) and stop. -/
theorem c1_visit_discipline :
    (∀ (σ : Type) (f : Nat → Nat → σ → Except String ((Bool × Bool) × σ))
       (s : RFSState) (ino start fuel : Nat) (c0 : σ)
       (out : RFSState × TrState σ),
       WfDisk s →
       visit_blocks_inode (traced f) s ino start ((c0, []) : TrState σ)
         fuel = .ok out →
       TraceWf start out.2.2) ∧
    (∀ (σ : Type) (f : Nat → Nat → σ → Except String ((Bool × Bool) × σ))
       (ino i fuel : Nat) (d : DirectSt σ) (r0 : Bool) (cb : σ)
       (nb : Nat) (s' : RFSState),
       i < d.inode.i_block.length →
       f (d.inode.i_block.getD i 0) i d.cb = .ok ((r0, true), cb) →
       allocate_block d.s = .ok (nb, s') →
       visitDirectStep f ino i (fuel + 2) d =
         f (nb % 4294967296) i cb >>=
           visitDirectPost f ino i fuel
             { s := s',
               inode := { d.inode with
                          i_block :=
                            d.inode.i_block.set i (nb % 4294967296) },
               modified := true, cb := cb }) ∧
    (∀ (σ : Type) (f : Nat → Nat → σ → Except String ((Bool × Bool) × σ))
       (ino i fuel : Nat) (d : DirectSt σ) (cb : σ),
       visitDirectPost f ino i fuel d ((false, false), cb) =
         if d.modified then
           set_inode d.s ino d.inode >>= fun s => Except.ok (.stop (s, cb))
         else Except.ok (.stop (d.s, cb))) ∧
    (∀ (σ : Type) (f : Nat → Nat → σ → Except String ((Bool × Bool) × σ))
       (ino i fuel : Nat) (v : LayerSt σ) (slice : List Nat) (r0 : Bool)
       (cb : σ) (nb : Nat) (s' : RFSState) (ld0 : List Nat),
       v.li.getD 0 0 = v.inode.i_block.getD 12 0 →
       0 < v.ld.length →
       subSlice (v.ld.getD 0 []) ((i - threshold v.s 0) <<< 2) 4 =
         .ok slice →
       f (u32FromBeBytes slice) i v.cb = .ok ((r0, true), cb) →
       allocate_block v.s = .ok (nb, s') →
       writeBytes (v.ld.getD 0 []) ((i - threshold v.s 0) <<< 2)
         (u32beBytes (nb % 4294967296)) = .ok ld0 →
       visitL1Step f ino i (fuel + 2) v =
         f (nb % 4294967296) i cb >>=
           visitL1Post f ino i fuel ((i - threshold v.s 0) <<< 2)
             { v with s := s', ld := v.ld.set 0 ld0, lm := v.lm.set 0 true,
                      cb := cb }) ∧
    (∀ (σ : Type) (f : Nat → Nat → σ → Except String ((Bool × Bool) × σ))
       (ino i fuel offset : Nat) (v : LayerSt σ) (cb : σ),
       visitL1Post f ino i fuel offset v ((false, false), cb) =
         dumpIndexTable v.s ino v.inode v.li v.lm v.ld 0 >>= fun q =>
           if q.2.getD 0 false then
             set_inode q.1 ino v.inode >>= fun s => Except.ok (.stop (s, cb))
           else Except.ok (.stop (q.1, cb))) ∧
    (∀ (σ : Type) (f : Nat → Nat → σ → Except String ((Bool × Bool) × σ))
       (ino i fuel : Nat) (v : LayerSt σ) (slice0 slice2 : List Nat)
       (r0 : Bool) (cb : σ) (nb : Nat) (s' : RFSState) (ld1 : List Nat),
       WfDisk v.s →
       v.ld.length = 3 →
       v.li.getD 0 0 = v.inode.i_block.getD 13 0 →
       subSlice (v.ld.getD 0 [])
         (((i - threshold v.s 1) / (blockSize v.s / 4)) <<< 2) 4 =
         .ok slice0 →
       v.li.getD 1 0 = u32FromBeBytes slice0 →
       u32FromBeBytes slice0 ≠ 0 →
       subSlice (v.ld.getD 1 [])
         (((i - 12) % (blockSize v.s / 4)) <<< 2) 4 = .ok slice2 →
       f (u32FromBeBytes slice2) i v.cb = .ok ((r0, true), cb) →
       allocate_block v.s = .ok (nb, s') →
       writeBytes (v.ld.getD 1 [])
         (((i - 12) % (blockSize v.s / 4)) <<< 2)
         (u32beBytes (nb % 4294967296)) = .ok ld1 →
       visitL2Step f ino i (fuel + 2) v =
         f (nb % 4294967296) i cb >>=
           visitL2Post f ino i fuel (u32FromBeBytes slice0)
             (((i - threshold v.s 1) / (blockSize v.s / 4)) <<< 2)
             (((i - 12) % (blockSize v.s / 4)) <<< 2)
             { v with s := s', ld := v.ld.set 1 ld1, lm := v.lm.set 1 true,
                      cb := cb }) ∧
    (∀ (σ : Type) (f : Nat → Nat → σ → Except String ((Bool × Bool) × σ))
       (ino i fuel bn2 offset offset2 : Nat) (v : LayerSt σ) (cb : σ),
       visitL2Post f ino i fuel bn2 offset offset2 v ((false, false), cb) =
         dumpIndexTable v.s ino v.inode v.li v.lm v.ld 0 >>= fun q =>
           dumpIndexTable q.1 ino v.inode v.li q.2 v.ld 1 >>= fun q2 =>
             if q2.2.getD 0 false then
               set_inode q2.1 ino v.inode >>= fun s =>
                 if q2.2.getD 1 false then
                   set_inode s ino v.inode >>= fun s2 =>
                     Except.ok (.stop (s2, cb))
                 else Except.ok (.stop (s, cb))
             else
               if q2.2.getD 1 false then
                 set_inode q2.1 ino v.inode >>= fun s2 =>
                   Except.ok (.stop (s2, cb))
               else Except.ok (.stop (q2.1, cb))) := by
  refine ⟨?_, ?_, ?_, ?_, ?_, ?_, ?_⟩
  · intro σ f s ino start fuel c0 out hwf h
    exact visit_traced_traceWf f s ino start fuel c0 out hwf h
  · intro σ f ino i fuel d r0 cb nb s' hi hf hal
    exact visitDirectStep_allocates f ino i fuel d r0 cb nb s' hi hf hal
  · intro σ f ino i fuel d cb
    exact visitDirectPost_stops f ino i fuel d cb
  · intro σ f ino i fuel v slice r0 cb nb s' ld0 hli hld hsl hf hal hwb
    exact visitL1Step_allocates f ino i fuel v slice r0 cb nb s' ld0 hli hld
      hsl hf hal hwb
  · intro σ f ino i fuel offset v cb
    exact visitL1Post_stops f ino i fuel offset v cb
  · intro σ f ino i fuel v slice0 slice2 r0 cb nb s' ld1 hwf hld3 hli0 hsl0
      hli1 hbz hsl2 hf hal hwb
    exact visitL2Step_allocates f ino i fuel v slice0 slice2 r0 cb nb s' ld1
      hwf hld3 hli0 hsl0 hli1 hbz hsl2 hf hal hwb
  · intro σ f ino i fuel bn2 offset offset2 v cb
    exact visitL2Post_stops f ino i fuel bn2 offset offset2 v cb

set_option maxRecDepth 100000 in
/-- Witness for `c1_visit_discipline`: on the freshly formatted state, a
stateful callback that stops at once yields the single-invocation recorded
trace `[((0, 0), (false, false))]`, which is wellformed. -/
theorem c1_visit_discipline_witness :
    WfDisk baseState ∧
    visit_blocks_inode
      (traced (fun _ _ (c : Nat) => .ok ((false, false), c))) baseState 2 0
      ((0, []) : TrState Nat) 2 =
      .ok (baseState, (0, [((0, 0), (false, false))])) ∧
    TraceWf 0 [((0, 0), (false, false))] := by
  have hwf : WfDisk baseState :=
    ⟨fun b => by show zeroBlock1024.length = blockSize baseState; decide,
     by show zeroBlock1024.length = blockSize baseState; decide,
     by show zeroBlock1024.length = blockSize baseState; decide⟩
  have hrun : visit_blocks_inode
      (traced (fun _ _ (c : Nat) => .ok ((false, false), c))) baseState 2 0
      ((0, []) : TrState Nat) 2 =
      .ok (baseState, (0, [((0, 0), (false, false))])) := by rfl
  exact ⟨hwf, hrun,
    c1_visit_discipline.1 Nat (fun _ _ c => .ok ((false, false), c))
      baseState 2 0 2 0 (baseState, (0, [((0, 0), (false, false))]))
      hwf hrun⟩

theorem bitmapsGrow_refl (s : RFSState) : bitmapsGrow s s :=
  ⟨fun _ h => h, fun _ h => h⟩

theorem bitmapsGrow_trans {s t u : RFSState} (h1 : bitmapsGrow s t)
    (h2 : bitmapsGrow t u) : bitmapsGrow s u :=
  ⟨fun k h => h2.1 k (h1.1 k h), fun k h => h2.2 k (h1.2 k h)⟩

/-- Unchanged bitmaps trivially grow. -/
theorem bitmapsGrow_of_eq {s t : RFSState}
    (h1 : t.bitmapInode = s.bitmapInode) (h2 : t.bitmapData = s.bitmapData) :
    bitmapsGrow s t := by
  refine ⟨fun k h => ?_, fun k h => ?_⟩
  · rw [h1]; exact h
  · rw [h2]; exact h

/-- The packed-bit test in terms of `Nat.testBit`. -/
theorem bitTest_eq_testBit (bm : List Nat) (k : Nat) :
    bitTest bm k = (getByte bm (k / 8)).testBit (k % 8) := by
  unfold bitTest
  rw [Nat.testBit_to_div_mod]
  rw [show (getByte bm (k / 8) >>> (k % 8)) &&& 1 =
    getByte bm (k / 8) / 2 ^ (k % 8) % 2 from by
      rw [Nat.and_one_is_mod, Nat.shiftRight_eq_div_pow]]

/-- `bitmap_set` never clears a set bit. -/
theorem bitTest_bitmap_set (bm : List Nat) (n k : Nat)
    (h : bitTest bm k = true) : bitTest (bitmap_set bm n) k = true := by
  unfold bitmap_set
  simp only []
  rw [bitTest_eq_testBit] at h ⊢
  by_cases hlen : (if n = 0 then 0 else n - 1) / 8 < bm.length
  · by_cases hk : k / 8 = (if n = 0 then 0 else n - 1) / 8
    · rw [show getByte (bm.set ((if n = 0 then 0 else n - 1) / 8)
          (getByte bm ((if n = 0 then 0 else n - 1) / 8) |||
            1 <<< ((if n = 0 then 0 else n - 1) % 8))) (k / 8) =
          getByte bm ((if n = 0 then 0 else n - 1) / 8) |||
            1 <<< ((if n = 0 then 0 else n - 1) % 8) from by
        unfold getByte
        simp only [List.getD_eq_getElem?_getD]
        rw [hk, List.getElem?_set_self hlen]
        rfl]
      rw [Nat.testBit_or]
      rw [hk] at h
      rw [h]
      rfl
    · rw [show getByte (bm.set ((if n = 0 then 0 else n - 1) / 8)
          (getByte bm ((if n = 0 then 0 else n - 1) / 8) |||
            1 <<< ((if n = 0 then 0 else n - 1) % 8))) (k / 8) =
          getByte bm (k / 8) from by
        unfold getByte
        simp only [List.getD_eq_getElem?_getD]
        rw [List.getElem?_set_ne (fun he => hk he.symm)]]
      exact h
  · rw [List.set_eq_of_length_le (by omega)]
    exact h

/-- `setDisk` leaves both bitmaps unchanged. -/
theorem setDisk_bitmaps (s : RFSState) (b : Nat) (buf : List Nat) :
    (setDisk s b buf).bitmapInode = s.bitmapInode ∧
    (setDisk s b buf).bitmapData = s.bitmapData := ⟨rfl, rfl⟩

/-- A successful `write_data_block` leaves both bitmaps unchanged. -/
theorem write_data_block_bitmaps (s : RFSState) (b : Nat) (buf : List Nat)
    (s2 : RFSState) (h : write_data_block s b buf = .ok s2) :
    s2.bitmapInode = s.bitmapInode ∧ s2.bitmapData = s.bitmapData := by
  obtain ⟨content, hshape⟩ := write_data_block_shape s b buf s2 h
  rw [hshape]
  exact ⟨rfl, rfl⟩

/-- A successful `set_inode` leaves both bitmaps unchanged. -/
theorem set_inode_bitmaps (s : RFSState) (ino : Nat) (inode : Ext2INode)
    (s' : RFSState) (h : set_inode s ino inode = .ok s') :
    s'.bitmapInode = s.bitmapInode ∧ s'.bitmapData = s.bitmapData := by
  unfold set_inode at h
  rcases hfe : fetch_inode_block_offset s ino with ⟨bn, off⟩
  rw [hfe] at h
  simp only [] at h
  cases hw : writeBytes (read_data_block s bn) off (inodeToBytes inode) with
  | error e => rw [hw, exceptBindError] at h; exact absurd h (by simp)
  | ok buf' =>
    rw [hw, exceptBindOk] at h
    exact write_data_block_bitmaps s bn buf' s' h

/-- A successful `dump_index_table!` leaves both bitmaps unchanged. -/
theorem dumpIndexTable_bitmaps (s : RFSState) (ino : Nat) (inode : Ext2INode)
    (li : List Nat) (lm : List Bool) (ld : List (List Nat)) (l : Nat)
    (s' : RFSState) (lm' : List Bool)
    (h : dumpIndexTable s ino inode li lm ld l = .ok (s', lm')) :
    s'.bitmapInode = s.bitmapInode ∧ s'.bitmapData = s.bitmapData := by
  unfold dumpIndexTable at h
  cases hsi : set_inode s ino inode with
  | error e => rw [hsi, exceptBindError] at h; exact absurd h (by simp)
  | ok s1 =>
    rw [hsi, exceptBindOk] at h
    obtain ⟨h1, h2⟩ := set_inode_bitmaps s ino inode s1 hsi
    by_cases hc : lm.getD l false = true ∧ li.getD l 0 ≠ 0 ∧
        li.getD l 0 ≠ usizeMAX
    · rw [if_pos hc] at h
      cases hw : write_data_block s1 (li.getD l 0) (ld.getD l []) with
      | error e => rw [hw, exceptBindError] at h; exact absurd h (by simp)
      | ok s2 =>
        rw [hw, exceptBindOk] at h
        obtain ⟨h3, h4⟩ := write_data_block_bitmaps s1 _ _ s2 hw
        have hs' : s' = s2 := (congrArg Prod.fst (Except.ok.inj h)).symm
        subst hs'
        exact ⟨by rw [h3, h1], by rw [h4, h2]⟩
    · rw [if_neg hc] at h
      have hs' : s' = s1 := (congrArg Prod.fst (Except.ok.inj h)).symm
      subst hs'
      exact ⟨h1, h2⟩

/-- A successful `allocate_block` only sets a data-bitmap bit. -/
theorem allocate_block_grow (s : RFSState) (n : Nat) (s' : RFSState)
    (h : allocate_block s = .ok (n, s')) : bitmapsGrow s s' := by
  rw [allocate_block, allocate_bitmap] at h
  cases hs : bitmap_search s.bitmapData
      (1 + 1 + 1 + 1 + 1 + s.sInodesCount / EXT2_INODE_SIZE + 1) with
  | error e =>
    simp only [if_true, hs, exceptBindError] at h
    exact absurd h (by simp)
  | ok m =>
    simp only [if_true, hs, exceptBindOk] at h
    cases hw : write_data_block { s with bitmapData := bitmap_set s.bitmapData m }
        s.bgBlockBitmap (bitmap_set s.bitmapData m) with
    | error e => rw [hw, exceptBindError] at h; exact absurd h (by simp)
    | ok s2 =>
      rw [hw, exceptBindOk] at h
      obtain ⟨h1, h2⟩ := write_data_block_bitmaps _ _ _ s2 hw
      have hs' : s' = s2 := (congrArg Prod.snd (Except.ok.inj h)).symm
      subst hs'
      refine ⟨fun k hk => ?_, fun k hk => ?_⟩
      · rw [h1]; exact hk
      · rw [h2]
        exact bitTest_bitmap_set s.bitmapData m k hk

/-- A successful `allocate_inode` only sets an inode-bitmap bit. -/
theorem allocate_inode_grow (s : RFSState) (n : Nat) (s' : RFSState)
    (h : allocate_inode s = .ok (n, s')) : bitmapsGrow s s' := by
  rw [allocate_inode, allocate_bitmap] at h
  cases hs : bitmap_search s.bitmapInode (s.sFirstIno + 1) with
  | error e =>
    simp only [hs, exceptBindError, Bool.false_eq_true, if_false] at h
    exact absurd h (by simp)
  | ok m =>
    simp only [hs, exceptBindOk, Bool.false_eq_true, if_false] at h
    cases hw : write_data_block { s with bitmapInode := bitmap_set s.bitmapInode m }
        s.bgInodeBitmap (bitmap_set s.bitmapInode m) with
    | error e => rw [hw, exceptBindError] at h; exact absurd h (by simp)
    | ok s2 =>
      rw [hw, exceptBindOk] at h
      obtain ⟨h1, h2⟩ := write_data_block_bitmaps _ _ _ s2 hw
      have hs' : s' = s2 := (congrArg Prod.snd (Except.ok.inj h)).symm
      subst hs'
      refine ⟨fun k hk => ?_, fun k hk => ?_⟩
      · rw [h1]
        exact bitTest_bitmap_set s.bitmapInode m k hk
      · rw [h2]; exact hk

theorem flowGrowD_trans {s0 s1 : RFSState}
    {res : Flow (DirectSt σ) (RFSState × σ)} (h1 : bitmapsGrow s0 s1)
    (h2 : flowGrowD s1 res) : flowGrowD s0 res := by
  cases res with
  | next d => exact bitmapsGrow_trans h1 h2
  | stop r => exact bitmapsGrow_trans h1 h2

theorem flowGrowL_trans {s0 s1 : RFSState}
    {res : Flow (LayerSt σ) (RFSState × σ)} (h1 : bitmapsGrow s0 s1)
    (h2 : flowGrowL s1 res) : flowGrowL s0 res := by
  cases res with
  | next v => exact bitmapsGrow_trans h1 h2
  | stop r => exact bitmapsGrow_trans h1 h2

/-- The direct-region inner loop only grows the bitmaps. -/
theorem visitDirectStep_grow
    (f : Nat → Nat → σ → Except String ((Bool × Bool) × σ)) (ino : Nat) :
    ∀ (fuel i : Nat) (d : DirectSt σ)
      (res : Flow (DirectSt σ) (RFSState × σ)),
    visitDirectStep f ino i fuel d = .ok res → flowGrowD d.s res := by
  intro fuel
  induction fuel with
  | zero =>
    intro i d res h
    exact absurd h (by simp [visitDirectStep])
  | succ fuel ih =>
    intro i d res h
    rw [visitDirectStep] at h
    cases hf : f (d.inode.i_block.getD i 0) i d.cb with
    | error e => rw [hf, exceptBindError] at h; exact absurd h (by simp)
    | ok p =>
      obtain ⟨⟨r0, r1⟩, cb⟩ := p
      rw [hf, exceptBindOk] at h
      try simp only [] at h
      cases r1 with
      | true =>
        rw [if_pos rfl] at h
        cases hal : allocate_block d.s with
        | error e => rw [hal, exceptBindError] at h; exact absurd h (by simp)
        | ok p2 =>
          obtain ⟨nb, s2⟩ := p2
          rw [hal, exceptBindOk] at h
          try simp only [] at h
          exact flowGrowD_trans (allocate_block_grow d.s nb s2 hal)
            (ih i _ res h)
      | false =>
        rw [if_neg (by simp)] at h
        cases r0 with
        | false =>
          rw [if_pos (show (!false) = true from rfl)] at h
          by_cases hm : d.modified = true
          · rw [if_pos hm] at h
            cases hs2 : set_inode d.s ino d.inode with
            | error e =>
              rw [hs2, exceptBindError] at h; exact absurd h (by simp)
            | ok s3 =>
              rw [hs2, exceptBindOk] at h
              have hres := (Except.ok.inj h).symm
              subst hres
              obtain ⟨ha, hb⟩ := set_inode_bitmaps d.s ino d.inode s3 hs2
              exact bitmapsGrow_of_eq ha hb
          · rw [if_neg hm] at h
            have hres := (Except.ok.inj h).symm
            subst hres
            exact bitmapsGrow_refl d.s
        | true =>
          rw [if_neg (by simp)] at h
          have hres := (Except.ok.inj h).symm
          subst hres
          exact bitmapsGrow_refl d.s

/-- The direct-region `for` loop only grows the bitmaps. -/
theorem visitDirectLoop_grow
    (f : Nat → Nat → σ → Except String ((Bool × Bool) × σ)) (ino fuel : Nat) :
    ∀ (n i : Nat) (d : DirectSt σ) (res : Flow (DirectSt σ) (RFSState × σ)),
    visitDirectLoop f ino fuel n i d = .ok res → flowGrowD d.s res := by
  intro n
  induction n with
  | zero =>
    intro i d res h
    have hres := (Except.ok.inj h).symm
    subst hres
    exact bitmapsGrow_refl d.s
  | succ n ih =>
    intro i d res h
    rw [visitDirectLoop] at h
    cases hstep : visitDirectStep f ino i fuel d with
    | error e => rw [hstep, exceptBindError] at h; exact absurd h (by simp)
    | ok flow =>
      rw [hstep, exceptBindOk] at h
      have hg1 := visitDirectStep_grow f ino fuel i d flow hstep
      cases flow with
      | next d1 =>
        try simp only [] at h
        exact flowGrowD_trans hg1 (ih (i + 1) d1 res h)
      | stop r =>
        try simp only [] at h
        have hres := (Except.ok.inj h).symm
        subst hres
        exact hg1

/-- The on-demand index-block reload only grows the bitmaps (it leaves them
unchanged). -/
theorem visitPreDump_grow (ino slot bn : Nat) (v v1 : LayerSt σ)
    (h : visitPreDump ino slot bn v = .ok v1) : bitmapsGrow v.s v1.s := by
  unfold visitPreDump at h
  by_cases hc : v.li.getD slot 0 ≠ bn ∧ bn ≠ 0
  · rw [if_pos hc] at h
    cases hd : dumpIndexTable v.s ino v.inode v.li v.lm v.ld slot with
    | error e => rw [hd, exceptBindError] at h; exact absurd h (by simp)
    | ok p =>
      obtain ⟨s1, lm1⟩ := p
      rw [hd, exceptBindOk] at h
      try simp only [] at h
      have hv1 := (Except.ok.inj h).symm
      subst hv1
      obtain ⟨ha, hb⟩ :=
        dumpIndexTable_bitmaps v.s ino v.inode v.li v.lm v.ld slot s1 lm1 hd
      exact bitmapsGrow_of_eq ha hb
  · rw [if_neg hc] at h
    have hv1 := (Except.ok.inj h).symm
    subst hv1
    exact bitmapsGrow_refl _

/-- The single-indirect inner loop only grows the bitmaps. -/
theorem visitL1Step_grow
    (f : Nat → Nat → σ → Except String ((Bool × Bool) × σ)) (ino : Nat) :
    ∀ (fuel i : Nat) (v : LayerSt σ) (res : Flow (LayerSt σ) (RFSState × σ)),
    visitL1Step f ino i fuel v = .ok res → flowGrowL v.s res := by
  intro fuel
  induction fuel with
  | zero =>
    intro i v res h
    exact absurd h (by simp [visitL1Step])
  | succ fuel ih =>
    intro i v res h
    rw [visitL1Step_succ] at h
    cases hpre : visitPreDump ino 0 (v.inode.i_block.getD 12 0) v with
    | error e => rw [hpre, exceptBindError] at h; exact absurd h (by simp)
    | ok v1 =>
      rw [hpre, exceptBindOk] at h
      refine flowGrowL_trans (visitPreDump_grow ino 0 _ v v1 hpre) ?_
      unfold visitL1StepRest at h
      try simp only [] at h
      cases hsl : subSlice (v1.ld.getD 0 []) ((i - threshold v1.s 0) <<< 2) 4
          with
      | error e => rw [hsl, exceptBindError] at h; exact absurd h (by simp)
      | ok slice =>
        rw [hsl, exceptBindOk] at h
        try simp only [] at h
        cases hf : f (u32FromBeBytes slice) i v1.cb with
        | error e => rw [hf, exceptBindError] at h; exact absurd h (by simp)
        | ok p =>
          obtain ⟨⟨r0, r1⟩, cb⟩ := p
          rw [hf, exceptBindOk] at h
          try simp only [] at h
          cases r1 with
          | true =>
            rw [if_pos rfl] at h
            cases hal : allocate_block v1.s with
            | error e =>
              rw [hal, exceptBindError] at h; exact absurd h (by simp)
            | ok p2 =>
              obtain ⟨nb, s2⟩ := p2
              rw [hal, exceptBindOk] at h
              try simp only [] at h
              cases hwb : writeBytes (v1.ld.getD 0 [])
                  ((i - threshold v1.s 0) <<< 2)
                  (u32beBytes (nb % 4294967296)) with
              | error e =>
                rw [hwb, exceptBindError] at h; exact absurd h (by simp)
              | ok ld0 =>
                rw [hwb, exceptBindOk] at h
                exact flowGrowL_trans (allocate_block_grow v1.s nb s2 hal)
                  (ih i _ res h)
          | false =>
            rw [if_neg (by simp)] at h
            cases r0 with
            | false =>
              rw [if_pos (show (!false) = true from rfl)] at h
              cases hd : dumpIndexTable v1.s ino v1.inode v1.li v1.lm
                  v1.ld 0 with
              | error e =>
                rw [hd, exceptBindError] at h; exact absurd h (by simp)
              | ok p3 =>
                obtain ⟨s3, lm3⟩ := p3
                rw [hd, exceptBindOk] at h
                try simp only [] at h
                obtain ⟨hd1, hd2⟩ := dumpIndexTable_bitmaps v1.s ino v1.inode
                  v1.li v1.lm v1.ld 0 s3 lm3 hd
                by_cases hlm : lm3.getD 0 false = true
                · rw [if_pos hlm] at h
                  cases hsi : set_inode s3 ino v1.inode with
                  | error e =>
                    rw [hsi, exceptBindError] at h; exact absurd h (by simp)
                  | ok s4 =>
                    rw [hsi, exceptBindOk] at h
                    have hres := (Except.ok.inj h).symm
                    subst hres
                    obtain ⟨ha, hb⟩ := set_inode_bitmaps s3 ino v1.inode s4 hsi
                    exact bitmapsGrow_trans (bitmapsGrow_of_eq hd1 hd2)
                      (bitmapsGrow_of_eq ha hb)
                · rw [if_neg hlm] at h
                  have hres := (Except.ok.inj h).symm
                  subst hres
                  exact bitmapsGrow_of_eq hd1 hd2
            | true =>
              rw [if_neg (by simp)] at h
              have hres := (Except.ok.inj h).symm
              subst hres
              exact bitmapsGrow_refl v1.s

/-- One single-indirect `for` iteration only grows the bitmaps. -/
theorem visitL1Iter_grow
    (f : Nat → Nat → σ → Except String ((Bool × Bool) × σ)) (ino fuel i : Nat)
    (v : LayerSt σ) (res : Flow (LayerSt σ) (RFSState × σ))
    (h : visitL1Iter f ino fuel i v = .ok res) : flowGrowL v.s res := by
  unfold visitL1Iter at h
  try simp only [] at h
  by_cases hb : v.inode.i_block.getD 12 0 = 0
  · rw [if_pos hb] at h
    cases hal : allocate_block v.s with
    | error e => rw [hal, exceptBindError] at h; exact absurd h (by simp)
    | ok p =>
      obtain ⟨nlb, s2⟩ := p
      rw [hal, exceptBindOk] at h
      try simp only [] at h
      rw [write_data_block_full s2 nlb (create_block_vec s2)
        (by simp [create_block_vec]), exceptBindOk] at h
      exact flowGrowL_trans
        (bitmapsGrow_trans (allocate_block_grow v.s nlb s2 hal)
          (bitmapsGrow_of_eq rfl rfl))
        (visitL1Step_grow f ino fuel i _ res h)
  · rw [if_neg hb] at h
    simp only [exceptBindOk] at h
    exact visitL1Step_grow f ino fuel i v res h

/-- The single-indirect `for` loop only grows the bitmaps. -/
theorem visitL1Loop_grow
    (f : Nat → Nat → σ → Except String ((Bool × Bool) × σ)) (ino fuel : Nat) :
    ∀ (n i : Nat) (v : LayerSt σ) (res : Flow (LayerSt σ) (RFSState × σ)),
    visitL1Loop f ino fuel n i v = .ok res → flowGrowL v.s res := by
  intro n
  induction n with
  | zero =>
    intro i v res h
    have hres := (Except.ok.inj h).symm
    subst hres
    exact bitmapsGrow_refl v.s
  | succ n ih =>
    intro i v res h
    rw [visitL1Loop] at h
    cases hstep : visitL1Iter f ino fuel i v with
    | error e => rw [hstep, exceptBindError] at h; exact absurd h (by simp)
    | ok flow =>
      rw [hstep, exceptBindOk] at h
      have hg1 := visitL1Iter_grow f ino fuel i v flow hstep
      cases flow with
      | next v1 =>
        try simp only [] at h
        exact flowGrowL_trans hg1 (ih (i + 1) v1 res h)
      | stop r =>
        try simp only [] at h
        have hres := (Except.ok.inj h).symm
        subst hres
        exact hg1

/-- The double-indirect inner loop only grows the bitmaps. -/
theorem visitL2Step_grow
    (f : Nat → Nat → σ → Except String ((Bool × Bool) × σ)) (ino : Nat) :
    ∀ (fuel i : Nat) (v : LayerSt σ) (res : Flow (LayerSt σ) (RFSState × σ)),
    visitL2Step f ino i fuel v = .ok res → flowGrowL v.s res := by
  intro fuel
  induction fuel with
  | zero =>
    intro i v res h
    exact absurd h (by simp [visitL2Step])
  | succ fuel ih =>
    intro i v res h
    have htail : ∀ (bn2 offset ls : Nat) (v2 : LayerSt σ)
        (res2 : Flow (LayerSt σ) (RFSState × σ)),
        visitL2StepRest2 f ino i fuel bn2 offset ls v2 = .ok res2 →
        flowGrowL v2.s res2 := by
      intro bn2 offset ls v2 res2 h2
      unfold visitL2StepRest2 at h2
      try simp only [] at h2
      cases hsl2 : subSlice (v2.ld.getD 1 []) (((i - 12) % ls) <<< 2) 4 with
      | error e => rw [hsl2, exceptBindError] at h2; exact absurd h2 (by simp)
      | ok slice2 =>
        rw [hsl2, exceptBindOk] at h2
        try simp only [] at h2
        cases hf : f (u32FromBeBytes slice2) i v2.cb with
        | error e => rw [hf, exceptBindError] at h2; exact absurd h2 (by simp)
        | ok p =>
          obtain ⟨⟨r0, r1⟩, cb⟩ := p
          simp only [hf, exceptBindOk] at h2
          cases r1 with
          | true =>
            rw [if_pos rfl] at h2
            by_cases hbz : bn2 = 0
            · rw [if_pos hbz] at h2
              cases hal1 : allocate_block v2.s with
              | error e =>
                rw [hal1, exceptBindError] at h2; exact absurd h2 (by simp)
              | ok q =>
                obtain ⟨nb1, sa⟩ := q
                rw [hal1, exceptBindOk] at h2
                try simp only [] at h2
                rw [write_data_block_full sa (nb1 % 4294967296)
                  (create_block_vec sa) (by simp [create_block_vec]),
                  exceptBindOk] at h2
                cases hwb0 : writeBytes (v2.ld.getD 0 []) offset
                    (u32beBytes (nb1 % 4294967296)) with
                | error e =>
                  rw [hwb0, exceptBindError] at h2; exact absurd h2 (by simp)
                | ok ld0 =>
                  rw [hwb0, exceptBindOk] at h2
                  try simp only [] at h2
                  cases hal2 : allocate_block
                      (setDisk sa (nb1 % 4294967296) (create_block_vec sa))
                      with
                  | error e =>
                    rw [hal2, exceptBindError] at h2; exact absurd h2 (by simp)
                  | ok q2 =>
                    obtain ⟨nb2, sb⟩ := q2
                    rw [hal2, exceptBindOk] at h2
                    try simp only [] at h2
                    cases hwb1 : writeBytes
                        (((v2.ld.set 0 ld0).set 1
                          (read_data_block
                            (setDisk sa (nb1 % 4294967296)
                              (create_block_vec sa))
                            (nb1 % 4294967296))).getD 1 [])
                        (((i - 12) % ls) <<< 2)
                        (u32beBytes (nb2 % 4294967296)) with
                    | error e =>
                      rw [hwb1, exceptBindError] at h2
                      exact absurd h2 (by simp)
                    | ok ld1 =>
                      rw [hwb1, exceptBindOk] at h2
                      refine flowGrowL_trans
                        (bitmapsGrow_trans (allocate_block_grow v2.s nb1 sa
                          hal1)
                          (bitmapsGrow_trans (bitmapsGrow_of_eq rfl rfl)
                            (allocate_block_grow
                              (setDisk sa (nb1 % 4294967296)
                                (create_block_vec sa)) nb2 sb hal2)))
                        (ih i _ res2 h2)
            · rw [if_neg hbz] at h2
              cases hal2 : allocate_block v2.s with
              | error e =>
                rw [hal2, exceptBindError] at h2; exact absurd h2 (by simp)
              | ok q2 =>
                obtain ⟨nb2, sb⟩ := q2
                rw [hal2, exceptBindOk] at h2
                try simp only [] at h2
                cases hwb1 : writeBytes (v2.ld.getD 1 [])
                    (((i - 12) % ls) <<< 2)
                    (u32beBytes (nb2 % 4294967296)) with
                | error e =>
                  rw [hwb1, exceptBindError] at h2; exact absurd h2 (by simp)
                | ok ld1 =>
                  rw [hwb1, exceptBindOk] at h2
                  exact flowGrowL_trans (allocate_block_grow v2.s nb2 sb hal2)
                    (ih i _ res2 h2)
          | false =>
            rw [if_neg (by simp)] at h2
            cases r0 with
            | false =>
              rw [if_pos (show (!false) = true from rfl)] at h2
              cases hda : dumpIndexTable v2.s ino v2.inode v2.li v2.lm
                  v2.ld 0 with
              | error e =>
                rw [hda, exceptBindError] at h2; exact absurd h2 (by simp)
              | ok pa =>
                obtain ⟨sda, lma⟩ := pa
                rw [hda, exceptBindOk] at h2
                try simp only [] at h2
                obtain ⟨ha1, ha2⟩ := dumpIndexTable_bitmaps v2.s ino v2.inode
                  v2.li v2.lm v2.ld 0 sda lma hda
                cases hdb : dumpIndexTable sda ino v2.inode v2.li lma
                    v2.ld 1 with
                | error e =>
                  rw [hdb, exceptBindError] at h2; exact absurd h2 (by simp)
                | ok pb =>
                  obtain ⟨sdb, lmb⟩ := pb
                  rw [hdb, exceptBindOk] at h2
                  try simp only [] at h2
                  obtain ⟨hb1, hb2⟩ := dumpIndexTable_bitmaps sda ino v2.inode
                    v2.li lma v2.ld 1 sdb lmb hdb
                  have hgd : bitmapsGrow v2.s sdb :=
                    bitmapsGrow_trans (bitmapsGrow_of_eq ha1 ha2)
                      (bitmapsGrow_of_eq hb1 hb2)
                  by_cases hm0 : lmb.getD 0 false = true
                  · rw [if_pos hm0] at h2
                    cases hsi0 : set_inode sdb ino v2.inode with
                    | error e =>
                      rw [hsi0, exceptBindError] at h2
                      exact absurd h2 (by simp)
                    | ok sc =>
                      rw [hsi0, exceptBindOk] at h2
                      obtain ⟨hc1, hc2⟩ :=
                        set_inode_bitmaps sdb ino v2.inode sc hsi0
                      have hgc : bitmapsGrow v2.s sc :=
                        bitmapsGrow_trans hgd (bitmapsGrow_of_eq hc1 hc2)
                      by_cases hm1 : lmb.getD 1 false = true
                      · rw [if_pos hm1] at h2
                        cases hsi1 : set_inode sc ino v2.inode with
                        | error e =>
                          rw [hsi1, exceptBindError] at h2
                          exact absurd h2 (by simp)
                        | ok sd =>
                          rw [hsi1, exceptBindOk] at h2
                          have hres := (Except.ok.inj h2).symm
                          subst hres
                          obtain ⟨he1, he2⟩ :=
                            set_inode_bitmaps sc ino v2.inode sd hsi1
                          exact bitmapsGrow_trans hgc
                            (bitmapsGrow_of_eq he1 he2)
                      · rw [if_neg hm1] at h2
                        have hres := (Except.ok.inj h2).symm
                        subst hres
                        exact hgc
                  · rw [if_neg hm0] at h2
                    by_cases hm1 : lmb.getD 1 false = true
                    · rw [if_pos hm1] at h2
                      cases hsi1 : set_inode sdb ino v2.inode with
                      | error e =>
                        rw [hsi1, exceptBindError] at h2
                        exact absurd h2 (by simp)
                      | ok sd =>
                        rw [hsi1, exceptBindOk] at h2
                        have hres := (Except.ok.inj h2).symm
                        subst hres
                        obtain ⟨he1, he2⟩ :=
                          set_inode_bitmaps sdb ino v2.inode sd hsi1
                        exact bitmapsGrow_trans hgd
                          (bitmapsGrow_of_eq he1 he2)
                    · rw [if_neg hm1] at h2
                      have hres := (Except.ok.inj h2).symm
                      subst hres
                      exact hgd
            | true =>
              rw [if_neg (by simp)] at h2
              have hres := (Except.ok.inj h2).symm
              subst hres
              exact bitmapsGrow_refl v2.s
    rw [visitL2Step_succ] at h
    cases hpre : visitPreDump ino 0 (v.inode.i_block.getD 13 0) v with
    | error e => rw [hpre, exceptBindError] at h; exact absurd h (by simp)
    | ok v1 =>
      rw [hpre, exceptBindOk] at h
      refine flowGrowL_trans (visitPreDump_grow ino 0 _ v v1 hpre) ?_
      unfold visitL2StepRest at h
      try simp only [] at h
      cases hsl : subSlice (v1.ld.getD 0 [])
          (((i - threshold v1.s 1) / (blockSize v1.s / 4)) <<< 2) 4 with
      | error e => rw [hsl, exceptBindError] at h; exact absurd h (by simp)
      | ok slice =>
        rw [hsl, exceptBindOk] at h
        by_cases hc : v1.li.getD 1 0 ≠ u32FromBeBytes slice ∧
            u32FromBeBytes slice ≠ 0
        · rw [if_pos hc] at h
          cases hd : dumpIndexTable v1.s ino v1.inode v1.li v1.lm v1.ld 1 with
          | error e => rw [hd, exceptBindError] at h; exact absurd h (by simp)
          | ok p =>
            obtain ⟨s1, lm1⟩ := p
            rw [hd, exceptBindOk] at h
            try simp only [] at h
            rw [exceptBindOk] at h
            obtain ⟨hd1, hd2⟩ := dumpIndexTable_bitmaps v1.s ino v1.inode
              v1.li v1.lm v1.ld 1 s1 lm1 hd
            have h3 : visitL2StepRest2 f ino i fuel
                (u32FromBeBytes slice)
                (((i - threshold v1.s 1) / (blockSize v1.s / 4)) <<< 2)
                (blockSize v1.s / 4)
                { v1 with
                  s := s1, lm := lm1,
                  ld := v1.ld.set 1
                    (read_data_block s1 (u32FromBeBytes slice)),
                  li := v1.li.set 1 (u32FromBeBytes slice) } = .ok res := h
            exact flowGrowL_trans (bitmapsGrow_of_eq hd1 hd2)
              (htail _ _ _ _ res h3)
        · rw [if_neg hc] at h
          have h3 : visitL2StepRest2 f ino i fuel
              (u32FromBeBytes slice)
              (((i - threshold v1.s 1) / (blockSize v1.s / 4)) <<< 2)
              (blockSize v1.s / 4) v1 = .ok res := h
          exact htail _ _ _ _ res h3

/-- One double-indirect `for` iteration only grows the bitmaps. -/
theorem visitL2Iter_grow
    (f : Nat → Nat → σ → Except String ((Bool × Bool) × σ)) (ino fuel i : Nat)
    (v : LayerSt σ) (res : Flow (LayerSt σ) (RFSState × σ))
    (h : visitL2Iter f ino fuel i v = .ok res) : flowGrowL v.s res := by
  unfold visitL2Iter at h
  try simp only [] at h
  by_cases hb : v.inode.i_block.getD 13 0 = 0
  · rw [if_pos hb] at h
    cases hal : allocate_block v.s with
    | error e => rw [hal, exceptBindError] at h; exact absurd h (by simp)
    | ok p =>
      obtain ⟨nlb, s2⟩ := p
      rw [hal, exceptBindOk] at h
      try simp only [] at h
      rw [write_data_block_full s2 nlb (create_block_vec s2)
        (by simp [create_block_vec]), exceptBindOk] at h
      exact flowGrowL_trans
        (bitmapsGrow_trans (allocate_block_grow v.s nlb s2 hal)
          (bitmapsGrow_of_eq rfl rfl))
        (visitL2Step_grow f ino fuel i _ res h)
  · rw [if_neg hb] at h
    simp only [exceptBindOk] at h
    exact visitL2Step_grow f ino fuel i v res h

/-- The double-indirect `for` loop only grows the bitmaps. -/
theorem visitL2Loop_grow
    (f : Nat → Nat → σ → Except String ((Bool × Bool) × σ)) (ino fuel : Nat) :
    ∀ (n i : Nat) (v : LayerSt σ) (res : Flow (LayerSt σ) (RFSState × σ)),
    visitL2Loop f ino fuel n i v = .ok res → flowGrowL v.s res := by
  intro n
  induction n with
  | zero =>
    intro i v res h
    have hres := (Except.ok.inj h).symm
    subst hres
    exact bitmapsGrow_refl v.s
  | succ n ih =>
    intro i v res h
    rw [visitL2Loop] at h
    cases hstep : visitL2Iter f ino fuel i v with
    | error e => rw [hstep, exceptBindError] at h; exact absurd h (by simp)
    | ok flow =>
      rw [hstep, exceptBindOk] at h
      have hg1 := visitL2Iter_grow f ino fuel i v flow hstep
      cases flow with
      | next v1 =>
        try simp only [] at h
        exact flowGrowL_trans hg1 (ih (i + 1) v1 res h)
      | stop r =>
        try simp only [] at h
        have hres := (Except.ok.inj h).symm
        subst hres
        exact hg1

/-- The innermost triple-indirect loop only grows the bitmaps (it never
touches the filesystem state at all). -/
theorem visitL3KLoop_grow
    (f : Nat → Nat → σ → Except String ((Bool × Bool) × σ))
    (block_index block : Nat) :
    ∀ (n k : Nat) (v : LayerSt σ) (res : Flow (LayerSt σ) (RFSState × σ)),
    visitL3KLoop f block_index block n k v = .ok res → flowGrowL v.s res := by
  intro n
  induction n with
  | zero =>
    intro k v res h
    have hres := (Except.ok.inj h).symm
    subst hres
    exact bitmapsGrow_refl v.s
  | succ n ih =>
    have hrest : ∀ (k : Nat) (v2 : LayerSt σ)
        (res2 : Flow (LayerSt σ) (RFSState × σ)),
        visitL3KRest f block_index block n k v2 = .ok res2 →
        flowGrowL v2.s res2 := by
      intro k v2 res2 h2
      unfold visitL3KRest at h2
      try simp only [] at h2
      cases hsl : subSlice (v2.ld.getD 2 [])
          (((k - 12) % (blockSize v2.s / 4)) <<< 2) 4 with
      | error e => rw [hsl, exceptBindError] at h2; exact absurd h2 (by simp)
      | ok slice =>
        rw [hsl, exceptBindOk] at h2
        try simp only [] at h2
        cases hf : f (u32FromBeBytes slice) k v2.cb with
        | error e => rw [hf, exceptBindError] at h2; exact absurd h2 (by simp)
        | ok p =>
          obtain ⟨⟨r0, r1⟩, cb⟩ := p
          simp only [hf, exceptBindOk] at h2
          cases r0 with
          | false =>
            rw [if_pos (show (!false) = true from rfl)] at h2
            have hres := (Except.ok.inj h2).symm
            subst hres
            exact bitmapsGrow_refl v2.s
          | true =>
            rw [if_neg (by simp)] at h2
            exact ih (k + 1) { v2 with cb := cb } res2 h2
    intro k v res h
    rw [visitL3KLoop] at h
    by_cases hb : block_index > k
    · rw [if_pos hb] at h
      exact ih (k + 1) v res h
    · rw [if_neg hb] at h
      try simp only [] at h
      by_cases hc : v.li.getD 2 0 ≠ block
      · rw [if_pos hc] at h
        rw [exceptBindOk] at h
        have h2 : visitL3KRest f block_index block n k
            { v with ld := v.ld.set 2 (read_data_block v.s block),
                     li := v.li.set 2 block } = .ok res := h
        exact hrest k
          { v with ld := v.ld.set 2 (read_data_block v.s block),
                   li := v.li.set 2 block } res h2
      · rw [if_neg hc] at h
        rw [exceptBindOk] at h
        have h2 : visitL3KRest f block_index block n k v = .ok res := h
        exact hrest k v res h2

/-- The middle triple-indirect loop only grows the bitmaps. -/
theorem visitL3JLoop_grow
    (f : Nat → Nat → σ → Except String ((Bool × Bool) × σ))
    (block_index block : Nat) :
    ∀ (n j : Nat) (v : LayerSt σ) (res : Flow (LayerSt σ) (RFSState × σ)),
    visitL3JLoop f block_index block n j v = .ok res → flowGrowL v.s res := by
  intro n
  induction n with
  | zero =>
    intro j v res h
    have hres := (Except.ok.inj h).symm
    subst hres
    exact bitmapsGrow_refl v.s
  | succ n ih =>
    have hrest : ∀ (j : Nat) (v2 : LayerSt σ)
        (res2 : Flow (LayerSt σ) (RFSState × σ)),
        visitL3JRest f block_index block n j v2 = .ok res2 →
        flowGrowL v2.s res2 := by
      intro j v2 res2 h2
      unfold visitL3JRest at h2
      try simp only [] at h2
      cases hsl : subSlice (v2.ld.getD 1 [])
          ((((j - 12) % (blockSize v2.s / 4)) / (blockSize v2.s / 4)) <<< 2)
          4 with
      | error e => rw [hsl, exceptBindError] at h2; exact absurd h2 (by simp)
      | ok slice =>
        rw [hsl, exceptBindOk] at h2
        try simp only [] at h2
        cases hk : visitL3KLoop f block_index (u32FromBeBytes slice)
            (blockSize v2.s / 4) j v2 with
        | error e => rw [hk, exceptBindError] at h2; exact absurd h2 (by simp)
        | ok flow =>
          rw [hk, exceptBindOk] at h2
          have hg1 := visitL3KLoop_grow f block_index (u32FromBeBytes slice)
            (blockSize v2.s / 4) j v2 flow hk
          cases flow with
          | next v3 =>
            try simp only [] at h2
            exact flowGrowL_trans hg1 (ih (j + 1) v3 res2 h2)
          | stop r =>
            try simp only [] at h2
            have hres := (Except.ok.inj h2).symm
            subst hres
            exact hg1
    intro j v res h
    rw [visitL3JLoop] at h
    by_cases hbj : block_index > j
    · rw [if_pos hbj] at h
      exact ih (j + 1) v res h
    · rw [if_neg hbj] at h
      try simp only [] at h
      by_cases hc : v.li.getD 1 0 ≠ block
      · rw [if_pos hc] at h
        rw [exceptBindOk] at h
        have h2 : visitL3JRest f block_index block n j
            { v with ld := v.ld.set 1 (read_data_block v.s block),
                     li := v.li.set 1 block } = .ok res := h
        exact hrest j
          { v with ld := v.ld.set 1 (read_data_block v.s block),
                   li := v.li.set 1 block } res h2
      · rw [if_neg hc] at h
        rw [exceptBindOk] at h
        have h2 : visitL3JRest f block_index block n j v = .ok res := h
        exact hrest j v res h2

/-- The outer triple-indirect loop only grows the bitmaps. -/
theorem visitL3ILoop_grow
    (f : Nat → Nat → σ → Except String ((Bool × Bool) × σ))
    (block_index : Nat) :
    ∀ (is : List Nat) (v : LayerSt σ)
      (res : Flow (LayerSt σ) (RFSState × σ)),
    visitL3ILoop f block_index is v = .ok res → flowGrowL v.s res := by
  intro is
  induction is with
  | nil =>
    intro v res h
    have hres := (Except.ok.inj h).symm
    subst hres
    exact bitmapsGrow_refl v.s
  | cons i rest ih =>
    have hrest : ∀ (v2 : LayerSt σ) (res2 : Flow (LayerSt σ) (RFSState × σ)),
        visitL3IRest f block_index i rest v2 = .ok res2 →
        flowGrowL v2.s res2 := by
      intro v2 res2 h2
      unfold visitL3IRest at h2
      try simp only [] at h2
      cases hsl : subSlice (v2.ld.getD 0 [])
          (((i - threshold v2.s 1) <<< 2) / (blockSize v2.s / 4)) 4 with
      | error e => rw [hsl, exceptBindError] at h2; exact absurd h2 (by simp)
      | ok slice =>
        rw [hsl, exceptBindOk] at h2
        try simp only [] at h2
        cases hj : visitL3JLoop f block_index (u32FromBeBytes slice)
            (blockSize v2.s / 4 * (blockSize v2.s / 4)) i v2 with
        | error e => rw [hj, exceptBindError] at h2; exact absurd h2 (by simp)
        | ok flow =>
          rw [hj, exceptBindOk] at h2
          have hg1 := visitL3JLoop_grow f block_index (u32FromBeBytes slice)
            (blockSize v2.s / 4 * (blockSize v2.s / 4)) i v2 flow hj
          cases flow with
          | next v3 =>
            try simp only [] at h2
            exact flowGrowL_trans hg1 (ih v3 res2 h2)
          | stop r =>
            try simp only [] at h2
            have hres := (Except.ok.inj h2).symm
            subst hres
            exact hg1
    intro v res h
    rw [visitL3ILoop] at h
    try simp only [] at h
    by_cases hc : v.li.getD 0 0 ≠ v.inode.i_block.getD 14 0
    · rw [if_pos hc] at h
      rw [exceptBindOk] at h
      have h2 : visitL3IRest f block_index i rest
          { v with
            ld := v.ld.set 0
              (read_data_block v.s (v.inode.i_block.getD 14 0)),
            li := v.li.set 0 (v.inode.i_block.getD 14 0) } = .ok res := h
      exact hrest
        { v with
          ld := v.ld.set 0
            (read_data_block v.s (v.inode.i_block.getD 14 0)),
          li := v.li.set 0 (v.inode.i_block.getD 14 0) } res h2
    · rw [if_neg hc] at h
      rw [exceptBindOk] at h
      have h2 : visitL3IRest f block_index i rest v = .ok res := h
      exact hrest v res h2

/-- A successful run of the whole block visitor only grows the bitmaps, for
every callback. -/
theorem visit_blocks_inode_grow
    (f : Nat → Nat → σ → Except String ((Bool × Bool) × σ)) (s : RFSState)
    (ino start : Nat) (cb0 : σ) (fuel : Nat) (out : RFSState × σ)
    (h : visit_blocks_inode f s ino start cb0 fuel = .ok out) :
    bitmapsGrow s out.1 := by
  unfold visit_blocks_inode at h
  try simp only [] at h
  cases hD : visitDirectLoop f ino fuel (threshold s 0 - start) start
      { s := s, inode := get_inode s ino, modified := false, cb := cb0 } with
  | error e => rw [hD, exceptBindError] at h; exact absurd h (by simp)
  | ok flowD =>
    rw [hD, exceptBindOk] at h
    have hgD := visitDirectLoop_grow f ino fuel (threshold s 0 - start) start
      _ flowD hD
    cases flowD with
    | stop r =>
      try simp only [] at h
      have hr : bitmapsGrow s r.1 := hgD
      rw [Except.ok.inj h] at hr
      exact hr
    | next d =>
      try simp only [] at h
      have hacc0 : bitmapsGrow s d.s := hgD
      cases hL1 : visitL1Loop f ino fuel
          (threshold d.s 1 - max start (threshold d.s 0))
          (max start (threshold d.s 0))
          { s := d.s, inode := d.inode,
            li := [usizeMAX, usizeMAX, usizeMAX],
            lm := [false, false, false],
            ld := [create_block_vec d.s, create_block_vec d.s,
                   create_block_vec d.s],
            cb := d.cb } with
      | error e => rw [hL1, exceptBindError] at h; exact absurd h (by simp)
      | ok flow1 =>
        rw [hL1, exceptBindOk] at h
        have hg1 := visitL1Loop_grow f ino fuel
          (threshold d.s 1 - max start (threshold d.s 0))
          (max start (threshold d.s 0)) _ flow1 hL1
        cases flow1 with
        | stop r =>
          try simp only [] at h
          have hr : bitmapsGrow d.s r.1 := hg1
          rw [Except.ok.inj h] at hr
          exact bitmapsGrow_trans hacc0 hr
        | next v1 =>
          try simp only [] at h
          have hacc1 : bitmapsGrow s v1.s :=
            bitmapsGrow_trans hacc0 hg1
          cases hdump1 : dumpIndexTable v1.s ino v1.inode v1.li v1.lm
              v1.ld 0 with
          | error e =>
            rw [hdump1, exceptBindError] at h; exact absurd h (by simp)
          | ok p1 =>
            obtain ⟨s2, lm2⟩ := p1
            rw [hdump1, exceptBindOk] at h
            try simp only [] at h
            obtain ⟨hd1, hd2⟩ := dumpIndexTable_bitmaps v1.s ino v1.inode
              v1.li v1.lm v1.ld 0 s2 lm2 hdump1
            have hacc2 : bitmapsGrow s s2 :=
              bitmapsGrow_trans hacc1 (bitmapsGrow_of_eq hd1 hd2)
            cases hL2 : visitL2Loop f ino fuel
                (threshold s2 2 - max start (threshold s2 1))
                (max start (threshold s2 1))
                { v1 with s := s2, lm := lm2 } with
            | error e =>
              rw [hL2, exceptBindError] at h; exact absurd h (by simp)
            | ok flow2 =>
              rw [hL2, exceptBindOk] at h
              have hg2 := visitL2Loop_grow f ino fuel
                (threshold s2 2 - max start (threshold s2 1))
                (max start (threshold s2 1)) _ flow2 hL2
              cases flow2 with
              | stop r =>
                try simp only [] at h
                have hr : bitmapsGrow s2 r.1 := hg2
                rw [Except.ok.inj h] at hr
                exact bitmapsGrow_trans hacc2 hr
              | next v3 =>
                try simp only [] at h
                have hacc3 : bitmapsGrow s v3.s :=
                  bitmapsGrow_trans hacc2 hg2
                cases hdump2 : dumpIndexTable v3.s ino v3.inode v3.li v3.lm
                    v3.ld 0 with
                | error e =>
                  rw [hdump2, exceptBindError] at h; exact absurd h (by simp)
                | ok p2 =>
                  obtain ⟨s4, lm4⟩ := p2
                  rw [hdump2, exceptBindOk] at h
                  try simp only [] at h
                  obtain ⟨he1, he2⟩ := dumpIndexTable_bitmaps v3.s ino
                    v3.inode v3.li v3.lm v3.ld 0 s4 lm4 hdump2
                  have hacc4 : bitmapsGrow s s4 :=
                    bitmapsGrow_trans hacc3 (bitmapsGrow_of_eq he1 he2)
                  cases hdump3 : dumpIndexTable s4 ino v3.inode v3.li lm4
                      v3.ld 1 with
                  | error e =>
                    rw [hdump3, exceptBindError] at h
                    exact absurd h (by simp)
                  | ok p3 =>
                    obtain ⟨s5, lm5⟩ := p3
                    rw [hdump3, exceptBindOk] at h
                    try simp only [] at h
                    obtain ⟨hf1, hf2⟩ := dumpIndexTable_bitmaps s4 ino
                      v3.inode v3.li lm4 v3.ld 1 s5 lm5 hdump3
                    have hacc5 : bitmapsGrow s s5 :=
                      bitmapsGrow_trans hacc4 (bitmapsGrow_of_eq hf1 hf2)
                    cases hI : visitL3ILoop f start
                        (rangeStepList (threshold s5 2) (threshold s5 3)
                          (blockSize s5 / 4 * (blockSize s5 / 4)))
                        { v3 with s := s5, lm := lm5 } with
                    | error e =>
                      rw [hI, exceptBindError] at h
                      exact absurd h (by simp)
                    | ok flowI =>
                      rw [hI, exceptBindOk] at h
                      have hgI := visitL3ILoop_grow f start
                        (rangeStepList (threshold s5 2) (threshold s5 3)
                          (blockSize s5 / 4 * (blockSize s5 / 4)))
                        _ flowI hI
                      cases flowI with
                      | stop r =>
                        try simp only [] at h
                        have hr : bitmapsGrow s5 r.1 := hgI
                        rw [Except.ok.inj h] at hr
                        exact bitmapsGrow_trans hacc5 hr
                      | next vz =>
                        try simp only [] at h
                        have hvz : bitmapsGrow s5 vz.s := hgI
                        have hout : out = (vz.s, vz.cb) :=
                          (Except.ok.inj h).symm
                        rw [hout]
                        exact bitmapsGrow_trans hacc5 hvz

/-- Inversion of a successful `Except` bind. -/
theorem exceptBindOkOut (m : Except String α) (f : α → Except String β)
    (b : β) (h : m >>= f = .ok b) : ∃ a, m = .ok a ∧ f a = .ok b := by
  cases m with
  | error e => rw [exceptBindError] at h; exact absurd h (by simp)
  | ok a => rw [exceptBindOk] at h; exact ⟨a, rfl, h⟩

/-- The data-emission loop of `rfs_write` leaves both bitmaps unchanged. -/
theorem writeBlocksFrom_bitmaps (s : RFSState) (blocks : List Nat)
    (data : List Nat) (size sz offset : Nat) (r : RFSState × Nat)
    (h : writeBlocksFrom s blocks data size sz offset = .ok r) :
    r.1.bitmapInode = s.bitmapInode ∧ r.1.bitmapData = s.bitmapData := by
  unfold writeBlocksFrom at h
  have key : ∀ (l : List (Nat × Nat)) (acc : RFSState × Nat)
      (r : RFSState × Nat),
      l.foldlM (fun (acc : RFSState × Nat) (ib : Nat × Nat) => do
        let (s, offset) := acc
        let (i, block) := ib
        let right := min ((i + 1) * sz) size
        let chunk ← subSlice data (i * sz) (right - i * sz)
        let s ← write_data_block s block chunk
        .ok (s, offset + (right - i * sz))) acc = .ok r →
      r.1.bitmapInode = acc.1.bitmapInode ∧
      r.1.bitmapData = acc.1.bitmapData := by
    intro l
    induction l with
    | nil =>
      intro acc r h2
      have hr : acc = r := Except.ok.inj h2
      rw [← hr]
      exact ⟨rfl, rfl⟩
    | cons ib t ih =>
      intro acc r h2
      rw [List.foldlM_cons] at h2
      obtain ⟨sa, offa⟩ := acc
      obtain ⟨i, block⟩ := ib
      try simp only [] at h2
      cases hch : subSlice data (i * sz) (min ((i + 1) * sz) size - i * sz)
          with
      | error e => rw [hch, exceptBindError] at h2; exact absurd h2 (by simp)
      | ok chunk =>
        rw [hch, exceptBindOk] at h2
        try simp only [] at h2
        cases hwd : write_data_block sa block chunk with
        | error e => rw [hwd, exceptBindError] at h2; exact absurd h2 (by simp)
        | ok sb =>
          rw [hwd, exceptBindOk] at h2
          rw [exceptBindOk] at h2
          obtain ⟨hb1, hb2⟩ := write_data_block_bitmaps sa block chunk sb hwd
          obtain ⟨hi1, hi2⟩ :=
            ih (sb, offa + (min ((i + 1) * sz) size - i * sz)) r h2
          exact ⟨by rw [hi1]; exact hb1, by rw [hi2]; exact hb2⟩
  exact key blocks.enum (s, offset) r h

/-- A successful `rfs_getattr` only grows the bitmaps. -/
theorem rfs_getattr_grow (s : RFSState) (ino : Nat)
    (out : Ext2INode × RFSState) (h : rfs_getattr s ino = .ok out) :
    bitmapsGrow s out.2 := by
  unfold rfs_getattr at h
  have hout : out = (get_inode s (shift_ino ino), s) := (Except.ok.inj h).symm
  rw [hout]
  exact bitmapsGrow_refl s

/-- A successful `rfs_setattr` only grows the bitmaps. -/
theorem rfs_setattr_grow (s : RFSState) (ino : Nat)
    (mode uid gid size atime mtime chgtime bkuptime flags : Option Nat)
    (out : Ext2INode × RFSState)
    (h : rfs_setattr s ino mode uid gid size atime mtime chgtime bkuptime
      flags = .ok out) : bitmapsGrow s out.2 := by
  unfold rfs_setattr at h
  try simp only [] at h
  obtain ⟨s1, hsi, h⟩ := exceptBindOkOut _ _ _ h
  obtain ⟨e1, e2⟩ := set_inode_bitmaps s _ _ s1 hsi
  rw [← congrArg Prod.snd (Except.ok.inj h)]
  exact bitmapsGrow_of_eq e1 e2

/-- A successful `rfs_lookup` only grows the bitmaps. -/
theorem rfs_lookup_grow (s : RFSState) (parent : Nat) (name : List Nat)
    (out : (Nat × Ext2INode) × RFSState)
    (h : rfs_lookup s parent name = .ok out) : bitmapsGrow s out.2 := by
  unfold rfs_lookup at h
  try simp only [] at h
  obtain ⟨entries, hge, h⟩ := exceptBindOkOut _ _ _ h
  try simp only [] at h
  cases hfind : entries.find? (fun d => d.name.take d.name_len == name) with
  | some d =>
    rw [hfind] at h
    try simp only [] at h
    have hout : out = ((d.inode, get_inode s d.inode), s) :=
      (Except.ok.inj h).symm
    rw [hout]
    exact bitmapsGrow_refl s
  | none =>
    rw [hfind] at h
    exact absurd h (by simp)

/-- A successful `rfs_readdir` only grows the bitmaps. -/
theorem rfs_readdir_grow (s : RFSState) (ino offset : Nat)
    (out : List Ext2DirEntry × RFSState)
    (h : rfs_readdir s ino offset = .ok out) : bitmapsGrow s out.2 := by
  unfold rfs_readdir at h
  try simp only [] at h
  obtain ⟨entries, hge, h⟩ := exceptBindOkOut _ _ _ h
  have hout : out = (entries.drop offset, s) := (Except.ok.inj h).symm
  rw [hout]
  exact bitmapsGrow_refl s

/-- A successful `rfs_read` only grows the bitmaps. -/
theorem rfs_read_grow (s : RFSState) (ino offset size fuel : Nat)
    (out : List Nat × RFSState)
    (h : rfs_read s ino offset size fuel = .ok out) :
    bitmapsGrow s out.2 := by
  unfold rfs_read at h
  try simp only [] at h
  by_cases ha : offset % blockSize s ≠ 0
  · rw [if_pos ha] at h
    exact absurd h (by simp)
  · rw [if_neg ha] at h
    try simp only [] at h
    obtain ⟨p, hv, h⟩ := exceptBindOkOut _ _ _ h
    obtain ⟨s1, c⟩ := p
    have hg1 : bitmapsGrow s s1 :=
      visit_blocks_inode_grow _ _ _ _ _ _ _ hv
    try simp only [] at h
    obtain ⟨d2, hrb, h⟩ := exceptBindOkOut _ _ _ h
    have hout : out = (d2, s1) := (Except.ok.inj h).symm
    rw [hout]
    exact hg1

/-- A successful `rfs_write` only grows the bitmaps. -/
theorem rfs_write_grow (s : RFSState) (ino offset : Nat) (data : List Nat)
    (fuel : Nat) (out : Nat × RFSState)
    (h : rfs_write s ino offset data fuel = .ok out) :
    bitmapsGrow s out.2 := by
  unfold rfs_write at h
  try simp only [] at h
  by_cases ha : offset % blockSize s ≠ 0
  · rw [if_pos ha] at h
    exact absurd h (by simp)
  · rw [if_neg ha] at h
    try simp only [] at h
    obtain ⟨p, hv, h⟩ := exceptBindOkOut _ _ _ h
    obtain ⟨s1, c⟩ := p
    have hg1 : bitmapsGrow s s1 :=
      visit_blocks_inode_grow _ _ _ _ _ _ _ hv
    try simp only [] at h
    obtain ⟨q, hwbf, h⟩ := exceptBindOkOut _ _ _ h
    obtain ⟨s2, off2⟩ := q
    have hg2 : bitmapsGrow s1 s2 := by
      obtain ⟨e1, e2⟩ := writeBlocksFrom_bitmaps _ _ _ _ _ _ _ hwbf
      exact bitmapsGrow_of_eq e1 e2
    try simp only [] at h
    by_cases hof : off2 > (get_inode s2 (shift_ino ino)).i_size +
        (get_inode s2 (shift_ino ino)).i_size_high * 4294967296
    · rw [if_pos hof] at h
      obtain ⟨s3, hsi, h⟩ := exceptBindOkOut _ _ _ h
      obtain ⟨e1, e2⟩ := set_inode_bitmaps s2 _ _ s3 hsi
      have hout : out = (off2 - offset, s3) := (Except.ok.inj h).symm
      rw [hout]
      exact bitmapsGrow_trans hg1
        (bitmapsGrow_trans hg2 (bitmapsGrow_of_eq e1 e2))
    · rw [if_neg hof] at h
      rw [exceptBindOk] at h
      have hout : out = (off2 - offset, s2) := (Except.ok.inj h).symm
      rw [hout]
      exact bitmapsGrow_trans hg1 hg2

/-- The inode write-back phase of `make_node` leaves the bitmaps
unchanged. -/
theorem makeNodeTail4_grow (ino_free parent : Nat)
    (inode_parent : Ext2INode) (p : RFSState × Ext2INode)
    (out : (Nat × Ext2INode) × RFSState)
    (h : makeNodeTail4 ino_free parent inode_parent p = .ok out) :
    bitmapsGrow p.1 out.2 := by
  unfold makeNodeTail4 at h
  obtain ⟨s0, inode0⟩ := p
  try simp only [] at h
  obtain ⟨s1, hsi1, h⟩ := exceptBindOkOut _ _ _ h
  obtain ⟨e1, e2⟩ := set_inode_bitmaps s0 _ _ s1 hsi1
  try simp only [] at h
  obtain ⟨s2, hsi2, h⟩ := exceptBindOkOut _ _ _ h
  obtain ⟨f1, f2⟩ := set_inode_bitmaps s1 _ _ s2 hsi2
  have hout : out = ((ino_free, inode0), s2) := (Except.ok.inj h).symm
  rw [hout]
  exact bitmapsGrow_trans (bitmapsGrow_of_eq e1 e2) (bitmapsGrow_of_eq f1 f2)

/-- The entry-serialization phase of `make_node` only grows the bitmaps. -/
theorem makeNodeTail3_grow (node_type : Ext2FileType)
    (block_size parent ino_free data_block_free : Nat)
    (inode inode_parent : Ext2INode) (entry : Ext2DirEntry)
    (last_block_i : Nat) (init_directory_done : Bool) (s : RFSState)
    (data_block : List Nat) (offset_cnt : Nat)
    (out : (Nat × Ext2INode) × RFSState)
    (h : makeNodeTail3 node_type block_size parent ino_free data_block_free
      inode inode_parent entry last_block_i init_directory_done s data_block
      offset_cnt = .ok out) : bitmapsGrow s out.2 := by
  unfold makeNodeTail3 at h
  try simp only [] at h
  obtain ⟨bytes, hsub, h⟩ := exceptBindOkOut _ _ _ h
  try simp only [] at h
  obtain ⟨db2, hwb, h⟩ := exceptBindOkOut _ _ _ h
  try simp only [] at h
  obtain ⟨s1, hwd, h⟩ := exceptBindOkOut _ _ _ h
  obtain ⟨e1, e2⟩ := write_data_block_bitmaps s _ _ s1 hwd
  have hg1 : bitmapsGrow s s1 := bitmapsGrow_of_eq e1 e2
  try simp only [] at h
  cases node_type with
  | Directory =>
    try simp only [] at h
    by_cases hd : init_directory_done = true
    · rw [if_pos hd] at h
      rw [exceptBindOk] at h
      have h4 : makeNodeTail4 ino_free parent inode_parent (s1, inode) =
          .ok out := h
      exact bitmapsGrow_trans hg1
        (makeNodeTail4_grow _ _ _ _ _ h4)
    · rw [if_neg hd] at h
      obtain ⟨q, hind, h⟩ := exceptBindOkOut _ _ _ h
      obtain ⟨dirb, inode'⟩ := q
      try simp only [] at h
      obtain ⟨s2, hwd2, h⟩ := exceptBindOkOut _ _ _ h
      obtain ⟨f1, f2⟩ := write_data_block_bitmaps s1 _ _ s2 hwd2
      rw [exceptBindOk] at h
      have h4 : makeNodeTail4 ino_free parent inode_parent (s2, inode') =
          .ok out := h
      exact bitmapsGrow_trans hg1
        (bitmapsGrow_trans (bitmapsGrow_of_eq f1 f2)
          (makeNodeTail4_grow _ _ _ _ _ h4))
  | RegularFile =>
    try simp only [] at h
    rw [exceptBindOk] at h
    have h4 : makeNodeTail4 ino_free parent inode_parent
        (s1, { inode with
               i_block := inode.i_block.set 0
                 (data_block_free % 4294967296) }) = .ok out := h
    exact bitmapsGrow_trans hg1 (makeNodeTail4_grow _ _ _ _ _ h4)
  | Unknown =>
    try simp only [] at h
    rw [exceptBindOk] at h
    have h4 : makeNodeTail4 ino_free parent inode_parent (s1, inode) =
        .ok out := h
    exact bitmapsGrow_trans hg1 (makeNodeTail4_grow _ _ _ _ _ h4)
  | CharDevice =>
    try simp only [] at h
    rw [exceptBindOk] at h
    have h4 : makeNodeTail4 ino_free parent inode_parent (s1, inode) =
        .ok out := h
    exact bitmapsGrow_trans hg1 (makeNodeTail4_grow _ _ _ _ _ h4)
  | BlockDevice =>
    try simp only [] at h
    rw [exceptBindOk] at h
    have h4 : makeNodeTail4 ino_free parent inode_parent (s1, inode) =
        .ok out := h
    exact bitmapsGrow_trans hg1 (makeNodeTail4_grow _ _ _ _ _ h4)
  | NamedPipe =>
    try simp only [] at h
    rw [exceptBindOk] at h
    have h4 : makeNodeTail4 ino_free parent inode_parent (s1, inode) =
        .ok out := h
    exact bitmapsGrow_trans hg1 (makeNodeTail4_grow _ _ _ _ _ h4)
  | Socket =>
    try simp only [] at h
    rw [exceptBindOk] at h
    have h4 : makeNodeTail4 ino_free parent inode_parent (s1, inode) =
        .ok out := h
    exact bitmapsGrow_trans hg1 (makeNodeTail4_grow _ _ _ _ _ h4)
  | Symlink =>
    try simp only [] at h
    rw [exceptBindOk] at h
    have h4 : makeNodeTail4 ino_free parent inode_parent (s1, inode) =
        .ok out := h
    exact bitmapsGrow_trans hg1 (makeNodeTail4_grow _ _ _ _ _ h4)

/-- The entry-placement phase of `make_node` only grows the bitmaps. -/
theorem makeNodeRest_grow (node_type : Ext2FileType)
    (block_size parent ino_free data_block_free : Nat) (inode : Ext2INode)
    (t : RFSState × Ext2INode × Ext2DirEntry × Nat × Bool)
    (out : (Nat × Ext2INode) × RFSState)
    (h : makeNodeRest node_type block_size parent ino_free data_block_free
      inode t = .ok out) : bitmapsGrow t.1 out.2 := by
  unfold makeNodeRest at h
  obtain ⟨s0, ip0, e0, lbi0, idd0⟩ := t
  try simp only [] at h
  split at h
  · exact absurd h (by simp)
  · split at h
    · split at h
      · try rw [exceptBindError] at h
        exact absurd h (by simp)
      · obtain ⟨q, hal, h⟩ := exceptBindOkOut _ _ _ h
        obtain ⟨bf, s1⟩ := q
        have hg : bitmapsGrow s0 s1 := allocate_block_grow s0 bf s1 hal
        try simp only [] at h
        rw [exceptBindOk] at h
        try simp only [] at h
        split at h
        · obtain ⟨bytes0, hsb, h⟩ := exceptBindOkOut _ _ _ h
          try simp only [] at h
          obtain ⟨dbx, hwx, h⟩ := exceptBindOkOut _ _ _ h
          try simp only [] at h
          rw [exceptBindOk] at h
          try simp only [] at h
          exact bitmapsGrow_trans hg
            (makeNodeTail3_grow _ _ _ _ _ _ _ _ _ _ _ _ _ _ h)
        · rw [exceptBindOk] at h
          try simp only [] at h
          exact bitmapsGrow_trans hg
            (makeNodeTail3_grow _ _ _ _ _ _ _ _ _ _ _ _ _ _ h)
    · rw [exceptBindOk] at h
      try simp only [] at h
      split at h
      · obtain ⟨bytes0, hsb, h⟩ := exceptBindOkOut _ _ _ h
        try simp only [] at h
        obtain ⟨dbx, hwx, h⟩ := exceptBindOkOut _ _ _ h
        try simp only [] at h
        rw [exceptBindOk] at h
        try simp only [] at h
        exact makeNodeTail3_grow _ _ _ _ _ _ _ _ _ _ _ _ _ _ h
      · rw [exceptBindOk] at h
        try simp only [] at h
        exact makeNodeTail3_grow _ _ _ _ _ _ _ _ _ _ _ _ _ _ h

/-- Inversion of a successful `Except` if-then-else. -/
theorem exceptIteOkOut (c : Prop) [Decidable c] (a b : Except String α)
    (r : α) (h : (if c then a else b) = .ok r) :
    (c ∧ a = .ok r) ∨ (¬ c ∧ b = .ok r) := by
  by_cases hc : c
  · rw [if_pos hc] at h
    exact Or.inl ⟨hc, h⟩
  · rw [if_neg hc] at h
    exact Or.inr ⟨hc, h⟩

/-- A bind of an error never succeeds. -/
theorem exceptErrorBindNe (e : ε) (f : α → Except ε β) (b : β) :
    ¬ ((Except.error e : Except ε α) >>= f = .ok b) := by
  rw [exceptBindError]
  simp

set_option maxHeartbeats 1600000 in
/-- A successful `make_node` only grows the bitmaps. -/
theorem make_node_grow (s : RFSState) (parent : Nat) (name : List Nat)
    (mode : Nat) (node_type : Ext2FileType) (now : Nat)
    (out : (Nat × Ext2INode) × RFSState)
    (h : make_node s parent name mode node_type now = .ok out) :
    bitmapsGrow s out.2 := by
  unfold make_node at h
  obtain ⟨p1, hai, h⟩ := exceptBindOkOut _ _ _ h
  obtain ⟨ino_free, s1⟩ := p1
  have hg1 : bitmapsGrow s s1 := allocate_inode_grow s ino_free s1 hai
  obtain ⟨entry0, hen, h⟩ := exceptBindOkOut _ _ _ h
  cases node_type with
  | Directory =>
    obtain ⟨p2, hal, h⟩ := exceptBindOkOut _ _ _ h
    obtain ⟨dbf, s2⟩ := p2
    have hg2 : bitmapsGrow s1 s2 := allocate_block_grow s1 dbf s2 hal
    obtain ⟨q, hq, h⟩ := exceptBindOkOut _ _ _ h
    have hqb : q = (dbf, s2) := (Except.ok.inj hq).symm
    subst hqb
    rcases exceptIteOkOut _ _ _ _ h with ⟨hc1, h⟩ | ⟨hc1, h⟩
    · rcases exceptIteOkOut _ _ _ _ h with ⟨hc2, h⟩ | ⟨hc2, h⟩
      · obtain ⟨p3, hal2, h⟩ := exceptBindOkOut _ _ _ h
        obtain ⟨pdbf, s3⟩ := p3
        have hg3 : bitmapsGrow s2 s3 := allocate_block_grow s2 pdbf s3 hal2
        obtain ⟨p4, hind, h⟩ := exceptBindOkOut _ _ _ h
        obtain ⟨dirb, ipp⟩ := p4
        obtain ⟨s4, hwd, h⟩ := exceptBindOkOut _ _ _ h
        obtain ⟨e1, e2⟩ := write_data_block_bitmaps _ _ _ _ hwd
        have hg4 : bitmapsGrow s3 s4 := bitmapsGrow_of_eq e1 e2
        obtain ⟨t5, ht5, h⟩ := exceptBindOkOut _ _ _ h
        have ht5b : t5 = (s4, ipp,
            { entry0 with inode := ino_free % 4294967296 }, 0, true) :=
          (Except.ok.inj ht5).symm
        subst ht5b
        have h5 : makeNodeRest Ext2FileType.Directory (blockSize s2) parent
            ino_free dbf
            { inodeDefault now with
              i_mode := (mode &&& 0xFFF) |||
                ((Ext2FileType.Directory.toNat <<< 12) % 65536) }
            (s4, ipp, { entry0 with inode := ino_free % 4294967296 }, 0,
             true) = .ok out := h
        exact bitmapsGrow_trans hg1 (bitmapsGrow_trans hg2
          (bitmapsGrow_trans hg3 (bitmapsGrow_trans hg4
            (makeNodeRest_grow _ _ _ _ _ _ _ _ h5))))
      · exact absurd rfl hc2
    · obtain ⟨t5, ht5, h⟩ := exceptBindOkOut _ _ _ h
      have ht5b : t5 = (s2, get_inode s parent,
          { entry0 with inode := ino_free % 4294967296 },
          (get_inode s parent).i_block.enum.foldl
            (fun acc (id : Nat × Nat) => if id.2 ≠ 0 then id.1 else acc)
            usizeMAX,
          false) := (Except.ok.inj ht5).symm
      subst ht5b
      have h5 : makeNodeRest Ext2FileType.Directory (blockSize s2) parent
          ino_free dbf
          { inodeDefault now with
            i_mode := (mode &&& 0xFFF) |||
              ((Ext2FileType.Directory.toNat <<< 12) % 65536) }
          (s2, get_inode s parent,
           { entry0 with inode := ino_free % 4294967296 },
           (get_inode s parent).i_block.enum.foldl
             (fun acc (id : Nat × Nat) => if id.2 ≠ 0 then id.1 else acc)
             usizeMAX,
           false) = .ok out := h
      exact bitmapsGrow_trans hg1 (bitmapsGrow_trans hg2
        (makeNodeRest_grow _ _ _ _ _ _ _ _ h5))
  | RegularFile =>
    obtain ⟨p2, hal, h⟩ := exceptBindOkOut _ _ _ h
    obtain ⟨dbf, s2⟩ := p2
    have hg2 : bitmapsGrow s1 s2 := allocate_block_grow s1 dbf s2 hal
    obtain ⟨q, hq, h⟩ := exceptBindOkOut _ _ _ h
    have hqb : q = (dbf, s2) := (Except.ok.inj hq).symm
    subst hqb
    rcases exceptIteOkOut _ _ _ _ h with ⟨hc1, h⟩ | ⟨hc1, h⟩
    · rcases exceptIteOkOut _ _ _ _ h with ⟨hc2, h⟩ | ⟨hc2, h⟩
      · exact absurd hc2 (by decide)
      · exact absurd h (exceptErrorBindNe _ _ _)
    · obtain ⟨t5, ht5, h⟩ := exceptBindOkOut _ _ _ h
      have ht5b : t5 = (s2, get_inode s parent,
          { entry0 with inode := ino_free % 4294967296 },
          (get_inode s parent).i_block.enum.foldl
            (fun acc (id : Nat × Nat) => if id.2 ≠ 0 then id.1 else acc)
            usizeMAX,
          false) := (Except.ok.inj ht5).symm
      subst ht5b
      have h5 : makeNodeRest Ext2FileType.RegularFile (blockSize s2) parent
          ino_free dbf
          { inodeDefault now with
            i_mode := (mode &&& 0xFFF) |||
              ((Ext2FileType.RegularFile.toNat <<< 12) % 65536) }
          (s2, get_inode s parent,
           { entry0 with inode := ino_free % 4294967296 },
           (get_inode s parent).i_block.enum.foldl
             (fun acc (id : Nat × Nat) => if id.2 ≠ 0 then id.1 else acc)
             usizeMAX,
           false) = .ok out := h
      exact bitmapsGrow_trans hg1 (bitmapsGrow_trans hg2
        (makeNodeRest_grow _ _ _ _ _ _ _ _ h5))
  | Unknown =>
    obtain ⟨q, hq, h⟩ := exceptBindOkOut _ _ _ h
    have hqb : q = (0, s1) := (Except.ok.inj hq).symm
    subst hqb
    rcases exceptIteOkOut _ _ _ _ h with ⟨hc1, h⟩ | ⟨hc1, h⟩
    · rcases exceptIteOkOut _ _ _ _ h with ⟨hc2, h⟩ | ⟨hc2, h⟩
      · exact absurd hc2 (by decide)
      · exact absurd h (exceptErrorBindNe _ _ _)
    · obtain ⟨t5, ht5, h⟩ := exceptBindOkOut _ _ _ h
      have ht5b : t5 = (s1, get_inode s parent,
          { entry0 with inode := ino_free % 4294967296 },
          (get_inode s parent).i_block.enum.foldl
            (fun acc (id : Nat × Nat) => if id.2 ≠ 0 then id.1 else acc)
            usizeMAX,
          false) := (Except.ok.inj ht5).symm
      subst ht5b
      have h5 : makeNodeRest Ext2FileType.Unknown (blockSize s1) parent
          ino_free 0
          { inodeDefault now with
            i_mode := (mode &&& 0xFFF) |||
              ((Ext2FileType.Unknown.toNat <<< 12) % 65536) }
          (s1, get_inode s parent,
           { entry0 with inode := ino_free % 4294967296 },
           (get_inode s parent).i_block.enum.foldl
             (fun acc (id : Nat × Nat) => if id.2 ≠ 0 then id.1 else acc)
             usizeMAX,
           false) = .ok out := h
      exact bitmapsGrow_trans hg1 (makeNodeRest_grow _ _ _ _ _ _ _ _ h5)
  | CharDevice =>
    obtain ⟨q, hq, h⟩ := exceptBindOkOut _ _ _ h
    have hqb : q = (0, s1) := (Except.ok.inj hq).symm
    subst hqb
    rcases exceptIteOkOut _ _ _ _ h with ⟨hc1, h⟩ | ⟨hc1, h⟩
    · rcases exceptIteOkOut _ _ _ _ h with ⟨hc2, h⟩ | ⟨hc2, h⟩
      · exact absurd hc2 (by decide)
      · exact absurd h (exceptErrorBindNe _ _ _)
    · obtain ⟨t5, ht5, h⟩ := exceptBindOkOut _ _ _ h
      have ht5b : t5 = (s1, get_inode s parent,
          { entry0 with inode := ino_free % 4294967296 },
          (get_inode s parent).i_block.enum.foldl
            (fun acc (id : Nat × Nat) => if id.2 ≠ 0 then id.1 else acc)
            usizeMAX,
          false) := (Except.ok.inj ht5).symm
      subst ht5b
      have h5 : makeNodeRest Ext2FileType.CharDevice (blockSize s1) parent
          ino_free 0
          { inodeDefault now with
            i_mode := (mode &&& 0xFFF) |||
              ((Ext2FileType.CharDevice.toNat <<< 12) % 65536) }
          (s1, get_inode s parent,
           { entry0 with inode := ino_free % 4294967296 },
           (get_inode s parent).i_block.enum.foldl
             (fun acc (id : Nat × Nat) => if id.2 ≠ 0 then id.1 else acc)
             usizeMAX,
           false) = .ok out := h
      exact bitmapsGrow_trans hg1 (makeNodeRest_grow _ _ _ _ _ _ _ _ h5)
  | BlockDevice =>
    obtain ⟨q, hq, h⟩ := exceptBindOkOut _ _ _ h
    have hqb : q = (0, s1) := (Except.ok.inj hq).symm
    subst hqb
    rcases exceptIteOkOut _ _ _ _ h with ⟨hc1, h⟩ | ⟨hc1, h⟩
    · rcases exceptIteOkOut _ _ _ _ h with ⟨hc2, h⟩ | ⟨hc2, h⟩
      · exact absurd hc2 (by decide)
      · exact absurd h (exceptErrorBindNe _ _ _)
    · obtain ⟨t5, ht5, h⟩ := exceptBindOkOut _ _ _ h
      have ht5b : t5 = (s1, get_inode s parent,
          { entry0 with inode := ino_free % 4294967296 },
          (get_inode s parent).i_block.enum.foldl
            (fun acc (id : Nat × Nat) => if id.2 ≠ 0 then id.1 else acc)
            usizeMAX,
          false) := (Except.ok.inj ht5).symm
      subst ht5b
      have h5 : makeNodeRest Ext2FileType.BlockDevice (blockSize s1) parent
          ino_free 0
          { inodeDefault now with
            i_mode := (mode &&& 0xFFF) |||
              ((Ext2FileType.BlockDevice.toNat <<< 12) % 65536) }
          (s1, get_inode s parent,
           { entry0 with inode := ino_free % 4294967296 },
           (get_inode s parent).i_block.enum.foldl
             (fun acc (id : Nat × Nat) => if id.2 ≠ 0 then id.1 else acc)
             usizeMAX,
           false) = .ok out := h
      exact bitmapsGrow_trans hg1 (makeNodeRest_grow _ _ _ _ _ _ _ _ h5)
  | NamedPipe =>
    obtain ⟨q, hq, h⟩ := exceptBindOkOut _ _ _ h
    have hqb : q = (0, s1) := (Except.ok.inj hq).symm
    subst hqb
    rcases exceptIteOkOut _ _ _ _ h with ⟨hc1, h⟩ | ⟨hc1, h⟩
    · rcases exceptIteOkOut _ _ _ _ h with ⟨hc2, h⟩ | ⟨hc2, h⟩
      · exact absurd hc2 (by decide)
      · exact absurd h (exceptErrorBindNe _ _ _)
    · obtain ⟨t5, ht5, h⟩ := exceptBindOkOut _ _ _ h
      have ht5b : t5 = (s1, get_inode s parent,
          { entry0 with inode := ino_free % 4294967296 },
          (get_inode s parent).i_block.enum.foldl
            (fun acc (id : Nat × Nat) => if id.2 ≠ 0 then id.1 else acc)
            usizeMAX,
          false) := (Except.ok.inj ht5).symm
      subst ht5b
      have h5 : makeNodeRest Ext2FileType.NamedPipe (blockSize s1) parent
          ino_free 0
          { inodeDefault now with
            i_mode := (mode &&& 0xFFF) |||
              ((Ext2FileType.NamedPipe.toNat <<< 12) % 65536) }
          (s1, get_inode s parent,
           { entry0 with inode := ino_free % 4294967296 },
           (get_inode s parent).i_block.enum.foldl
             (fun acc (id : Nat × Nat) => if id.2 ≠ 0 then id.1 else acc)
             usizeMAX,
           false) = .ok out := h
      exact bitmapsGrow_trans hg1 (makeNodeRest_grow _ _ _ _ _ _ _ _ h5)
  | Socket =>
    obtain ⟨q, hq, h⟩ := exceptBindOkOut _ _ _ h
    have hqb : q = (0, s1) := (Except.ok.inj hq).symm
    subst hqb
    rcases exceptIteOkOut _ _ _ _ h with ⟨hc1, h⟩ | ⟨hc1, h⟩
    · rcases exceptIteOkOut _ _ _ _ h with ⟨hc2, h⟩ | ⟨hc2, h⟩
      · exact absurd hc2 (by decide)
      · exact absurd h (exceptErrorBindNe _ _ _)
    · obtain ⟨t5, ht5, h⟩ := exceptBindOkOut _ _ _ h
      have ht5b : t5 = (s1, get_inode s parent,
          { entry0 with inode := ino_free % 4294967296 },
          (get_inode s parent).i_block.enum.foldl
            (fun acc (id : Nat × Nat) => if id.2 ≠ 0 then id.1 else acc)
            usizeMAX,
          false) := (Except.ok.inj ht5).symm
      subst ht5b
      have h5 : makeNodeRest Ext2FileType.Socket (blockSize s1) parent
          ino_free 0
          { inodeDefault now with
            i_mode := (mode &&& 0xFFF) |||
              ((Ext2FileType.Socket.toNat <<< 12) % 65536) }
          (s1, get_inode s parent,
           { entry0 with inode := ino_free % 4294967296 },
           (get_inode s parent).i_block.enum.foldl
             (fun acc (id : Nat × Nat) => if id.2 ≠ 0 then id.1 else acc)
             usizeMAX,
           false) = .ok out := h
      exact bitmapsGrow_trans hg1 (makeNodeRest_grow _ _ _ _ _ _ _ _ h5)
  | Symlink =>
    obtain ⟨q, hq, h⟩ := exceptBindOkOut _ _ _ h
    have hqb : q = (0, s1) := (Except.ok.inj hq).symm
    subst hqb
    rcases exceptIteOkOut _ _ _ _ h with ⟨hc1, h⟩ | ⟨hc1, h⟩
    · rcases exceptIteOkOut _ _ _ _ h with ⟨hc2, h⟩ | ⟨hc2, h⟩
      · exact absurd hc2 (by decide)
      · exact absurd h (exceptErrorBindNe _ _ _)
    · obtain ⟨t5, ht5, h⟩ := exceptBindOkOut _ _ _ h
      have ht5b : t5 = (s1, get_inode s parent,
          { entry0 with inode := ino_free % 4294967296 },
          (get_inode s parent).i_block.enum.foldl
            (fun acc (id : Nat × Nat) => if id.2 ≠ 0 then id.1 else acc)
            usizeMAX,
          false) := (Except.ok.inj ht5).symm
      subst ht5b
      have h5 : makeNodeRest Ext2FileType.Symlink (blockSize s1) parent
          ino_free 0
          { inodeDefault now with
            i_mode := (mode &&& 0xFFF) |||
              ((Ext2FileType.Symlink.toNat <<< 12) % 65536) }
          (s1, get_inode s parent,
           { entry0 with inode := ino_free % 4294967296 },
           (get_inode s parent).i_block.enum.foldl
             (fun acc (id : Nat × Nat) => if id.2 ≠ 0 then id.1 else acc)
             usizeMAX,
           false) = .ok out := h
      exact bitmapsGrow_trans hg1 (makeNodeRest_grow _ _ _ _ _ _ _ _ h5)

/-- Every single operation only grows the bitmaps. -/
theorem applyOp_grow (s : RFSState) (op : FsOp) (s' : RFSState)
    (h : applyOp s op = .ok s') : bitmapsGrow s s' := by
  cases op with
  | getattr ino =>
    unfold applyOp at h
    obtain ⟨p, hop, h⟩ := exceptBindOkOut _ _ _ h
    obtain ⟨x, s1⟩ := p
    rw [← show s1 = s' from Except.ok.inj h]
    exact rfs_getattr_grow _ _ _ hop
  | setattr ino mode uid gid size atime mtime chgtime bkuptime flags =>
    unfold applyOp at h
    obtain ⟨p, hop, h⟩ := exceptBindOkOut _ _ _ h
    obtain ⟨x, s1⟩ := p
    rw [← show s1 = s' from Except.ok.inj h]
    exact rfs_setattr_grow _ _ _ _ _ _ _ _ _ _ _ _ hop
  | lookup parent name =>
    unfold applyOp at h
    obtain ⟨p, hop, h⟩ := exceptBindOkOut _ _ _ h
    obtain ⟨x, s1⟩ := p
    rw [← show s1 = s' from Except.ok.inj h]
    exact rfs_lookup_grow _ _ _ _ hop
  | readdir ino offset =>
    unfold applyOp at h
    obtain ⟨p, hop, h⟩ := exceptBindOkOut _ _ _ h
    obtain ⟨x, s1⟩ := p
    rw [← show s1 = s' from Except.ok.inj h]
    exact rfs_readdir_grow _ _ _ _ hop
  | read ino offset size fuel =>
    unfold applyOp at h
    obtain ⟨p, hop, h⟩ := exceptBindOkOut _ _ _ h
    obtain ⟨x, s1⟩ := p
    rw [← show s1 = s' from Except.ok.inj h]
    exact rfs_read_grow _ _ _ _ _ _ hop
  | write ino offset data fuel =>
    unfold applyOp at h
    obtain ⟨p, hop, h⟩ := exceptBindOkOut _ _ _ h
    obtain ⟨x, s1⟩ := p
    rw [← show s1 = s' from Except.ok.inj h]
    exact rfs_write_grow _ _ _ _ _ _ hop
  | mknode parent name mode node_type now =>
    unfold applyOp at h
    obtain ⟨p, hop, h⟩ := exceptBindOkOut _ _ _ h
    obtain ⟨x, s1⟩ := p
    rw [← show s1 = s' from Except.ok.inj h]
    exact make_node_grow _ _ _ _ _ _ _ hop

/-- Any successful operation sequence only grows the bitmaps. -/
theorem runOps_grow (ops : List FsOp) : ∀ (s s' : RFSState),
    runOps s ops = .ok s' → bitmapsGrow s s' := by
  induction ops with
  | nil =>
    intro s s' h
    rw [← Except.ok.inj h]
    exact bitmapsGrow_refl s
  | cons op rest ih =>
    intro s s' h
    rw [runOps] at h
    obtain ⟨s1, hop, h⟩ := exceptBindOkOut _ _ _ h
    exact bitmapsGrow_trans (applyOp_grow s op s1 hop) (ih s1 s' h)

/-- Claim C10: no implemented operation ever clears a bit of the in-memory
inode or data bitmap — the only bitmap mutator, `bitmap_set`, only sets
bits — so over every successful sequence of mounted-filesystem operations
(`getattr`, `setattr`, `lookup`, `readdir`, `read`, `write`, `mknod` /
`mkdir` via `make_node`) the sets of allocated inode numbers and allocated
block numbers grow monotonically and are never reclaimed. -/
theorem c10_bitmap_monotone (s : RFSState) (ops : List FsOp) (s' : RFSState)
    (h : runOps s ops = .ok s') :
    (∀ k, bitTest s.bitmapInode k = true → bitTest s'.bitmapInode k = true) ∧
    (∀ k, bitTest s.bitmapData k = true → bitTest s'.bitmapData k = true) ∧
    ∀ (bm : List Nat) (n k : Nat), bitTest bm k = true →
      bitTest (bitmap_set bm n) k = true := by
  obtain ⟨h1, h2⟩ := runOps_grow ops s s' h
  exact ⟨h1, h2, fun bm n k hk => bitTest_bitmap_set bm n k hk⟩

set_option maxRecDepth 100000 in
set_option maxHeartbeats 1600000 in
/-- Witness for `c10_bitmap_monotone`: a concrete two-operation sequence
(`getattr` on the root inode, then an empty aligned `read`) runs
successfully on the freshly formatted state. -/
theorem c10_bitmap_monotone_witness :
    runOps baseState [FsOp.getattr 2, FsOp.read 2 0 0 1] = .ok baseState ∧
    (∀ k, bitTest baseState.bitmapInode k = true →
      bitTest baseState.bitmapInode k = true) :=
  ⟨rfl, (c10_bitmap_monotone baseState [FsOp.getattr 2, FsOp.read 2 0 0 1]
    baseState rfl).1⟩

end RfsModel
